import Mathlib

/-!
# Repetier-Server: the per-printer communication engine

A shallow embedding of `Repetier-Server/server/printer.cpp` (class `Printer`).

* C++ strings are lists of characters (`List Char`); `std::string::find`,
  `substr` and `atoi` are modelled on lists.
* The member variables of `Printer` become the fields of the record `Printer`;
  every member function becomes a pure function on that record.
* The serial device is a write log (`written`) together with a `connected`
  flag; the wall clock is a parameter `now` (microseconds) of every call that
  reads it.
* Calls are atomic: the worker thread and the `sleep` calls of `resendLine`
  are left out. The functions `trySendNextLine`, `resendLine` and
  `analyseResponse` give the changes a call makes to the variables of the
  printer; `sendMutex`, which `resendLine` still holds when it calls
  `trySendNextLine`, is modelled by `resendLineLocked` and
  `analyseResponseLocked`, whose value says whether the call returns.
* `GCode`, `PrinterState`, `PrinterSerial` and `GlobalConfig` are declared in
  files that are not part of the sources at hand; what `printer.cpp` uses of
  them is collected in `Collaborators` or modelled from the specification.
-/

set_option autoImplicit false
set_option maxRecDepth 100000

namespace RepetierServer

/-! ## Strings -/

/-- The literal `start`. -/
def strStart : List Char := ['s', 't', 'a', 'r', 't']

/-- The literal `Resend:`. -/
def strResend : List Char := ['R', 'e', 's', 'e', 'n', 'd', ':']

/-- The literal `ok`. -/
def strOk : List Char := ['o', 'k']

/-- The literal `wait`. -/
def strWait : List Char := ['w', 'a', 'i', 't']

/-- The space character. -/
def space : Char := ' '

/-- Scan of `std::string::find`: `src` is the part of the string that starts at
index `idx`; the result is the first index at which `ident` begins. An empty
`ident` is found at every index up to and including the end of the string. -/
def findAux (ident : List Char) : List Char → Nat → Option Nat
  | [], idx => if ident = [] then some idx else none
  | c :: cs, idx =>
    if ident.isPrefixOf (c :: cs) then some idx else findAux ident cs (idx + 1)

/-- Model of `source.find(ident, pos)`; `none` stands for `string::npos`. -/
def find (source ident : List Char) (pos : Nat) : Option Nat :=
  if pos > source.length then none else findAux ident (source.drop pos) pos

/-- The search loop of `Printer::extract` (the `do ... while`), with `fuel`
bounding the number of times the body runs. The outer `none` means the fuel ran
out; `some none` is `return false`; `some (some p)` leaves the loop with
`pos = p`. -/
def extractLoop (source ident : List Char) : Nat → Nat → Option (Option Nat)
  | 0, _ => none
  | fuel + 1, pos =>
    let pos1 := if pos > 0 then pos + 1 else pos
    match find source ident pos1 with
    | none => some none
    | some p =>
      if p = 0 then some (some 0)
      else if source.get? (p - 1) ≠ some space then extractLoop source ident fuel p
      else some (some p)

/-- The loop `while (end < len && source[end] != ' ') end++` of
`Printer::extract`; `rest` is the part of the string that starts at `e`. -/
def scanEnd : List Char → Nat → Nat
  | [], e => e
  | c :: cs, e => if c ≠ space then scanEnd cs (e + 1) else e

/-- Model of `Printer::extract(source, ident, result)`: `none` is the return
value `false` (the result is left untouched), `some r` is `true` with
`result = r`. The search loop is given `source.length + 2` rounds, which it
never uses up (`extractLoop_enough_fuel`). -/
def extract (source ident : List Char) : Option (List Char) :=
  match extractLoop source ident (source.length + 2) 0 with
  | some (some pos) =>
    let start := pos + ident.length
    let e := scanEnd (source.drop start) start
    some ((source.drop start).take (e - start))
  | _ => none

/-- The `isspace` of the C locale. -/
def isSpaceC (c : Char) : Bool :=
  c.toNat = 32 || (9 ≤ c.toNat && c.toNat ≤ 13)

/-- Digit loop of `atoi`. -/
def atoiDigits : List Char → Nat → Nat
  | [], acc => acc
  | c :: cs, acc =>
    if 48 ≤ c.toNat ∧ c.toNat ≤ 57 then atoiDigits cs (acc * 10 + (c.toNat - 48)) else acc

/-- Model of C `atoi`: leading white space, an optional sign, then decimal
digits; anything else ends the number. Values outside the range of `int` are
undefined in C; the model returns the mathematical value. -/
def atoi (s : List Char) : Int :=
  match s.dropWhile isSpaceC with
  | [] => 0
  | c :: cs =>
    if c = '-' then - (atoiDigits cs 0 : Int)
    else if c = '+' then (atoiDigits cs 0 : Int)
    else (atoiDigits (c :: cs) 0 : Int)

/-- Conversion of an `int` to `size_t` (64 bit). -/
def toSizeT (i : Int) : Nat := (i % (2 ^ 64 : Int)).toNat

/-- The loop `while(res.length()>0 && res[0]<32) res = res.substr(1)` at the
head of `Printer::analyseResponse`; characters are 7 bit ASCII, so that the
signedness of `char` plays no part. -/
def stripControl : List Char → List Char
  | [] => []
  | c :: cs => if c.toNat < 32 then stripControl cs else c :: cs

/-- Most significant digit first decimal digits of `n`, the way `sprintf("%d")`
and the firmware print a non-negative number; `fuel` bounds the digit count. -/
def decimalAux : Nat → Nat → List Char → List Char
  | 0, _, acc => acc
  | fuel + 1, n, acc =>
    let acc1 := Char.ofNat (48 + n % 10) :: acc
    if n / 10 = 0 then acc1 else decimalAux fuel (n / 10) acc1

/-- Decimal representation of a natural number. -/
def decimal (n : Nat) : List Char := decimalAux (n + 1) n []

/-! ## Collaborating classes -/

/-- What `printer.cpp` reads and writes of a `GCode` object: the source text,
the flags `hostCommand` and `forceASCII`, and the `M` and `N` fields with their
presence bits. -/
structure GCode where
  original : List Char
  hostCommand : Bool
  forceASCII : Bool
  hasM : Bool
  m : Nat
  hasN : Bool
  n : Nat
deriving DecidableEq, Repr

/-- Model of `GCode::setN`. -/
def GCode.setN (gc : GCode) (v : Nat) : GCode := { gc with hasN := true, n := v }

/-- A `GCodeDataPacket`: the bytes handed to the serial port; `length` is their
number. -/
structure GCodeDataPacket where
  data : List Nat
deriving DecidableEq, Repr

/-- Field `length` of a packet. -/
def GCodeDataPacket.length (dp : GCodeDataPacket) : Nat := dp.data.length

/-- A `PrinterResponse` as built by its constructor. -/
structure PrinterResponse where
  message : List Char
  responseId : Nat
  logtype : Nat
  time : Int
deriving DecidableEq, Repr

/-- Modelled from the spec: `PrinterState` (PrinterState.h and PrinterState.cpp
are not among the sources). The spec gives it a 16 bit `last_line_number` and
derived values (temperatures, coordinates, modes), kept here in `derived`. -/
structure PrinterState (τ : Type) where
  lastline : Nat
  derived : τ

/-- Modelled from the spec: `increase_last_line()` of the missing
`PrinterState`, which moves to the next line number (16 bit) and returns it. -/
def PrinterState.increaseLastline {τ : Type} (st : PrinterState τ) : PrinterState τ × Nat :=
  ({ st with lastline := (st.lastline + 1) % 65536 }, (st.lastline + 1) % 65536)

/-- Modelled from the spec: `decrease_last_line()` of the missing
`PrinterState`, which rolls the line number back by one (16 bit). -/
def PrinterState.decreaseLastline {τ : Type} (st : PrinterState τ) : PrinterState τ :=
  { st with lastline := (st.lastline + 65535) % 65536 }

/-- The functions and constants `printer.cpp` takes from files that are not
among the sources: the `GCode` constructor and its two serialisers, the
remaining `PrinterState` methods, `MAX_HISTORY_SIZE` and the backlog size of
the global configuration. -/
structure Collaborators (τ : Type) where
  parse : List Char → GCode
  getAscii : GCode → GCodeDataPacket
  getBinary : GCode → GCodeDataPacket
  analyze : PrinterState τ → GCode → PrinterState τ
  stateAnalyseResponse : PrinterState τ → List Char → Nat → PrinterState τ × Nat
  resetDerived : τ → τ
  maxHistorySize : Nat
  backlogSize : Nat

/-- Modelled from the spec: `reset()` of the missing `PrinterState`, which
zeroes the line number and clears the volatile fields. -/
def PrinterState.reset {τ : Type} (env : Collaborators τ) (st : PrinterState τ) :
    PrinterState τ :=
  { lastline := 0, derived := env.resetDerived st.derived }

/-! ## The printer -/

/-- The member variables of `Printer` that the communication engine uses,
the serial device included (`connected`, `written`). -/
structure Printer (τ : Type) where
  pingpong : Bool
  cacheSize : Int
  binaryProtocol : Int
  okAfterResend : Bool
  garbageCleared : Bool
  readyForNextSend : Bool
  ignoreNextOk : Bool
  paused : Bool
  receiveCacheFill : Int
  nackLines : List Nat
  resendError : Nat
  errorsReceived : Nat
  linesSend : Nat
  bytesSend : Nat
  manualCommands : List (List Char)
  jobCommands : List (List Char)
  resendLines : List GCode
  history : List GCode
  lastCommandSend : Int
  state : PrinterState τ
  responses : List PrinterResponse
  lastResponseId : Nat
  connected : Bool
  written : List (List Nat)

variable {τ : Type}

/-- Model of `Printer::addResponse`; `lastResponseId` is a `uint32_t`. -/
def addResponse (env : Collaborators τ) (now : Int) (s : Printer τ) (msg : List Char)
    (rtype : Nat) : Printer τ :=
  let id := (s.lastResponseId + 1) % 2 ^ 32
  let rs := s.responses ++ [{ message := msg, responseId := id, logtype := rtype, time := now }]
  { s with
    lastResponseId := id
    responses := if rs.length > env.backlogSize then rs.tail else rs }

/-- Modelled from the spec: `PrinterSerial::close` of the missing transport;
afterwards `isConnected()` is false. -/
def close (s : Printer τ) : Printer τ := { s with connected := false }

/-- Model of `Printer::trySendPacket`: the new state and the return value. -/
def trySendPacket (env : Collaborators τ) (now : Int) (s : Printer τ)
    (dp : GCodeDataPacket) (gc : GCode) : Printer τ × Bool :=
  if (s.pingpong && s.readyForNextSend) ||
      (!s.pingpong && decide (s.cacheSize > s.receiveCacheFill + (dp.length : Int))) then
    let s1 : Printer τ := { s with written := s.written ++ [dp.data] }
    let s2 : Printer τ :=
      if !s1.pingpong then
        { s1 with
          receiveCacheFill := s1.receiveCacheFill + (dp.length : Int)
          nackLines := s1.nackLines ++ [dp.length] }
      else { s1 with readyForNextSend := false }
    let h := s2.history ++ [gc]
    let s3 : Printer τ :=
      { s2 with history := if h.length > env.maxHistorySize then h.tail else h }
    let s4 : Printer τ :=
      { s3 with
        lastCommandSend := now
        bytesSend := s3.bytesSend + dp.length
        linesSend := s3.linesSend + 1 }
    (addResponse env now s4 gc.original 1, true)
  else (s, false)

/-- The packet chosen for a command: `getAscii(true,true)` when the protocol is
ASCII or the command forces it, `getBinary()` otherwise. -/
def packetOf (env : Collaborators τ) (s : Printer τ) (gc : GCode) : GCodeDataPacket :=
  if s.binaryProtocol = 0 ∨ gc.forceASCII = true then env.getAscii gc else env.getBinary gc

/-- The command object built from a queued line in `trySendNextLine`, and the
printer state after the line number was taken: the line is parsed and, unless
it is an `M117`, given `N = state->increaseLastline()`. -/
def numberCommand (env : Collaborators τ) (st : PrinterState τ) (cmd : List Char) :
    PrinterState τ × GCode :=
  let gc := env.parse cmd
  if gc.m ≠ 117 then ((st.increaseLastline).1, gc.setN (st.increaseLastline).2)
  else (st, gc)

/-- The statement `if (resendError > 0) resendError--` of `trySendNextLine`. -/
def dropResendError (s : Printer τ) : Printer τ :=
  if s.resendError > 0 then { s with resendError := s.resendError - 1 } else s

/-- The block of `trySendNextLine` guarded by `manualCommands.size() > 0`;
`cmd` is the front of the queue and `rest` what `pop_front()` leaves. -/
def sendManual (env : Collaborators τ) (now : Int) (s0 : Printer τ) (cmd : List Char)
    (rest : List (List Char)) : Printer τ :=
  if (env.parse cmd).hostCommand then { s0 with manualCommands := rest }
  else
    let gc := (numberCommand env s0.state cmd).2
    let s1 : Printer τ := { s0 with state := (numberCommand env s0.state cmd).1 }
    let r := trySendPacket env now s1 (packetOf env s1 gc) gc
    if r.2 then
      { r.1 with manualCommands := rest, state := env.analyze r.1.state gc }
    else if gc.hasN && !(gc.hasM && gc.m == 110) then
      { r.1 with state := r.1.state.decreaseLastline }
    else r.1

/-- The block of `trySendNextLine` guarded by
`jobCommands.size()>0 && !paused`; `cmd` is the front of the queue and `rest`
what `pop_front()` leaves. -/
def sendJob (env : Collaborators τ) (now : Int) (s0 : Printer τ) (cmd : List Char)
    (rest : List (List Char)) : Printer τ :=
  if (env.parse cmd).hostCommand then { s0 with jobCommands := rest }
  else
    let gc := (numberCommand env s0.state cmd).2
    let s1 : Printer τ := { s0 with state := (numberCommand env s0.state cmd).1 }
    let r := trySendPacket env now s1 (packetOf env s1 gc) gc
    if r.2 then
      { r.1 with jobCommands := rest, state := env.analyze r.1.state gc }
    else if gc.hasN && !(gc.hasM && gc.m == 110) then
      { r.1 with state := r.1.state.decreaseLastline }
    else r.1

/-- The part of `trySendNextLine` that follows the resend block: the error
counter drops, then the manual queue is served, then the job queue. -/
def sendQueued (env : Collaborators τ) (now : Int) (s0 : Printer τ) : Printer τ :=
  match s0.manualCommands with
  | cmd :: rest => sendManual env now s0 cmd rest
  | [] =>
    match s0.jobCommands with
    | cmd :: rest => if s0.paused then s0 else sendJob env now s0 cmd rest
    | [] => s0

/-- Model of `Printer::trySendNextLine`. -/
def trySendNextLine (env : Collaborators τ) (now : Int) (s : Printer τ) : Printer τ :=
  if !s.garbageCleared then s
  else if s.pingpong && !s.readyForNextSend then s
  else if !s.connected then s
  else
    match s.resendLines with
    | gc :: _ => (trySendPacket env now s (packetOf env s gc) gc).1
    | [] => sendQueued env now (dropResendError s)

/-- Model of `Printer::injectManualCommand`. -/
def injectManualCommand (env : Collaborators τ) (now : Int) (s : Printer τ)
    (cmd : List Char) : Printer τ :=
  trySendNextLine env now { s with manualCommands := s.manualCommands ++ [cmd] }

/-- Model of `Printer::injectJobCommand`. -/
def injectJobCommand (s : Printer τ) (cmd : List Char) : Printer τ :=
  { s with jobCommands := s.jobCommands ++ [cmd] }

/-- The loop of `Printer::resendLine` over `history`: `acc` is `resendLines`
and `addLines` the flag of the same name; `line` is already masked. -/
def collectResend (line : Nat) : List GCode → Bool → List GCode → List GCode
  | [], _, acc => acc
  | gc :: rest, addLines, acc =>
    let addLines1 := if gc.hasN ∧ gc.n &&& 65535 = line then true else addLines
    collectResend line rest addLines1 (if addLines1 then acc ++ [gc] else acc)

/-- The first part of `Printer::resendLine`, up to the test `resendError > 5`. -/
def resendPrologue (s : Printer τ) : Printer τ :=
  let s1 : Printer τ :=
    { s with
      ignoreNextOk := s.okAfterResend
      resendError := s.resendError + 1
      errorsReceived := s.errorsReceived + 1 }
  let s2 : Printer τ :=
    if !s1.pingpong ∧ s1.errorsReceived = 3 ∧ s1.cacheSize > 63 then { s1 with cacheSize := 63 }
    else s1
  if s2.pingpong then { s2 with readyForNextSend := true }
  else { s2 with nackLines := [], receiveCacheFill := 0 }

/-- The 32 zero bytes written by `resendLine` under the binary protocol. -/
def nulPadding : List Nat := List.replicate 32 0

/-- Model of `Printer::resendLine`: the changes the call makes to the variables
of the printer, `sendMutex` aside. Whether the call returns is the matter of
`resendLineLocked`. -/
def resendLine (env : Collaborators τ) (now : Int) (s : Printer τ) (line : Nat) : Printer τ :=
  let s3 := resendPrologue s
  if s3.resendError > 5 then close s3
  else
    let s4 : Printer τ :=
      { s3 with resendLines := collectResend (line &&& 65535) s3.history false [] }
    let s5 : Printer τ :=
      if s4.binaryProtocol ≠ 0 then { s4 with written := s4.written ++ [nulPadding] } else s4
    trySendNextLine env now s5

/-- The block of `analyseResponse` run on a firmware `start`. -/
def startReset (env : Collaborators τ) (s : Printer τ) : Printer τ :=
  { s with
    state := s.state.reset env
    history := []
    readyForNextSend := true
    nackLines := []
    receiveCacheFill := 0
    garbageCleared := true }

/-- The condition `fpos==0 || (garbageCleared==false && fpos!=string::npos)`. -/
def startSeen (garbageCleared : Bool) (res : List Char) : Bool :=
  find res strStart 0 = some 0 || (garbageCleared = false && (find res strStart 0).isSome)

/-- The `ok` branch of `analyseResponse`, its inner `trySendNextLine` included. -/
def okBranch (env : Collaborators τ) (now : Int) (s : Printer τ) : Printer τ :=
  let s1 : Printer τ := { s with garbageCleared := true }
  if !s1.ignoreNextOk then
    let s2 : Printer τ :=
      if s1.pingpong then { s1 with readyForNextSend := true }
      else
        match s1.nackLines with
        | len :: rest =>
          { s1 with receiveCacheFill := s1.receiveCacheFill - (len : Int), nackLines := rest }
        | [] => s1
    trySendNextLine env now { s2 with resendError := 0 }
  else { s1 with ignoreNextOk := false }

/-- Model of `time_duration::total_seconds()` for a duration in microseconds. -/
def totalSeconds (micros : Int) : Int := Int.tdiv micros 1000000

/-- The `wait` branch of `analyseResponse`. -/
def waitBranch (now : Int) (s : Printer τ) : Printer τ :=
  let s1 : Printer τ :=
    if totalSeconds (now - s.lastCommandSend) > 5 then
      if s.pingpong then { s with readyForNextSend := true }
      else { s with nackLines := [], receiveCacheFill := 0 }
    else s
  { s1 with resendError := 0 }

/-- The `if / else if` chain of `analyseResponse` that follows the `start`
test: the new state and the value of `rtype`. -/
def dispatch (env : Collaborators τ) (now : Int) (s : Printer τ) (res : List Char)
    (rtype : Nat) : Printer τ × Nat :=
  match extract res strResend with
  | some h => (resendLine env now s (toSizeT (atoi h)), rtype)
  | none =>
    if find res strOk 0 = some 0 then (okBranch env now s, 2)
    else if res = strWait then (waitBranch now s, 2)
    else (s, rtype)

/-- Model of `Printer::analyseResponse`. -/
def analyseResponse (env : Collaborators τ) (now : Int) (s : Printer τ)
    (res0 : List Char) : Printer τ :=
  let res := stripControl res0
  let a := env.stateAnalyseResponse s.state res 4
  let s1 : Printer τ := { s with state := a.1 }
  let s2 : Printer τ := if startSeen s1.garbageCleared res then startReset env s1 else s1
  let d := dispatch env now s2 res a.2
  trySendNextLine env now (addResponse env now d.1 res d.2)

/-- One round of the loop of `Printer::run` after its sleep: `loop` is the
value of the counter after `loop++` and `connectOk` the outcome of
`serial->tryConnect()`. -/
def runIteration (env : Collaborators τ) (now : Int) (s : Printer τ) (loop : Nat)
    (connectOk : Bool) : Printer τ :=
  let s1 : Printer τ :=
    if !s.connected then { s with connected := connectOk }
    else
      let s2 := injectManualCommand env now s
        (['M', '1', '1', '7', ' ', 'L', 'o', 'o', 'p', ' '] ++ decimal loop)
      if s2.manualCommands.length < 5 then injectManualCommand env now s2 ['M', '1', '0', '5']
      else s2
  trySendNextLine env now s1

/-- The calls that drive a printer. -/
inductive Op where
  | injectManual (now : Int) (cmd : List Char)
  | injectJob (cmd : List Char)
  | trySend (now : Int)
  | response (now : Int) (res : List Char)
  | tick (now : Int) (loop : Nat) (connectOk : Bool)

/-- Effect of one call. -/
def step (env : Collaborators τ) (s : Printer τ) : Op → Printer τ
  | .injectManual now cmd => injectManualCommand env now s cmd
  | .injectJob cmd => injectJobCommand s cmd
  | .trySend now => trySendNextLine env now s
  | .response now res => analyseResponse env now s res
  | .tick now loop ok => runIteration env now s loop ok

/-- Effect of a sequence of calls. -/
def runOps (env : Collaborators τ) (s : Printer τ) (ops : List Op) : Printer τ :=
  ops.foldl (step env) s

/-- The loop of `Printer::getResponsesSince` over the response log: `ret` is
`retList` and `lastid` the output parameter of the same name. -/
def sinceLoop (resId filter : Nat) :
    List PrinterResponse → List PrinterResponse → Nat → List PrinterResponse × Nat
  | [], ret, lastid => (ret, lastid)
  | r :: rs, ret, lastid =>
    if r.responseId > resId ∧ r.logtype &&& filter ≠ 0 then
      sinceLoop resId filter rs (ret ++ [r]) r.responseId
    else sinceLoop resId filter rs ret lastid

/-- Model of `Printer::getResponsesSince(resId, filter, lastid)`: the returned
list and the value left in `lastid`. -/
def getResponsesSince (s : Printer τ) (resId filter : Nat) : List PrinterResponse × Nat :=
  sinceLoop resId filter s.responses [] resId

/-! ## The send mutex

`resendLine` takes `sendMutex` in its first statement with a `scoped_lock`,
which holds the mutex until the function returns, and ends with a call of
`trySendNextLine`. That function returns at once when `garbageCleared` is
false and locks `sendMutex` itself otherwise. Every lock on `sendMutex` is a
`mutex::scoped_lock`, the lock of the non-recursive `boost::mutex`: the second
lock by the thread that holds it never succeeds.
`injectManualCommand`, the `ok` branch and the `wait` branch release their lock
before they call `trySendNextLine`, and `injectJobCommand` calls nothing under
its lock. Both writes to the transport, the packet in `trySendPacket` and the
padding in `resendLine`, are made under `sendMutex`, so that once a call has
blocked no other thread writes either.

The functions above give the changes a call makes to the variables of the
printer. The functions of this section add the mutex: their value is the
outcome of the call, which is the state it returns with or the state in which
the calling thread blocks for good. -/

/-- How a call ends: it returns with a state, or its thread blocks on
`sendMutex` for good in the state reached by then. -/
inductive Outcome (τ : Type) where
  | returned (s : Printer τ)
  | blocked (s : Printer τ)

/-- The state a call returned with or blocked in. -/
def Outcome.state : Outcome τ → Printer τ
  | .returned s => s
  | .blocked s => s

/-- Whether the call blocked. -/
def Outcome.isBlocked : Outcome τ → Bool
  | .returned _ => false
  | .blocked _ => true

/-- Model of `Printer::resendLine` with `sendMutex`. The give-up path returns
before the inner call. Otherwise the inner `trySendNextLine` returns at its
first guard when `garbageCleared` is false, and blocks on the mutex held by
its caller when `garbageCleared` is true. -/
def resendLineLocked (env : Collaborators τ) (now : Int) (s : Printer τ) (line : Nat) :
    Outcome τ :=
  let s3 := resendPrologue s
  if s3.resendError > 5 then .returned (close s3)
  else
    let s4 : Printer τ :=
      { s3 with resendLines := collectResend (line &&& 65535) s3.history false [] }
    let s5 : Printer τ :=
      if s4.binaryProtocol ≠ 0 then { s4 with written := s4.written ++ [nulPadding] } else s4
    if !s5.garbageCleared then .returned (trySendNextLine env now s5) else .blocked s5

/-- Model of `Printer::analyseResponse` with `sendMutex`: as `analyseResponse`,
with the call of `resendLine` replaced by `resendLineLocked`; when that call
blocks, so does this one, and the response is neither logged nor followed by a
send attempt. -/
def analyseResponseLocked (env : Collaborators τ) (now : Int) (s : Printer τ)
    (res0 : List Char) : Outcome τ :=
  let res := stripControl res0
  let a := env.stateAnalyseResponse s.state res 4
  let s1 : Printer τ := { s with state := a.1 }
  let s2 : Printer τ := if startSeen s1.garbageCleared res then startReset env s1 else s1
  match extract res strResend with
  | some h =>
    match resendLineLocked env now s2 (toSizeT (atoi h)) with
    | .returned t => .returned (trySendNextLine env now (addResponse env now t res a.2))
    | .blocked t => .blocked t
  | none =>
    let d : Printer τ × Nat :=
      if find res strOk 0 = some 0 then (okBranch env now s2, 2)
      else if res = strWait then (waitBranch now s2, 2)
      else (s2, a.2)
    .returned (trySendNextLine env now (addResponse env now d.1 res d.2))

/-- Outcome of one call; only `analyseResponse` can block on `sendMutex`. -/
def stepLocked (env : Collaborators τ) (s : Printer τ) : Op → Outcome τ
  | .response now res => analyseResponseLocked env now s res
  | .injectManual now cmd => .returned (injectManualCommand env now s cmd)
  | .injectJob cmd => .returned (injectJobCommand s cmd)
  | .trySend now => .returned (trySendNextLine env now s)
  | .tick now loop ok => .returned (runIteration env now s loop ok)

/-- Outcome of a sequence of calls made one after the other: when a call
blocks, the calls after it are never made. -/
def runOpsLocked (env : Collaborators τ) : Printer τ → List Op → Outcome τ
  | s, [] => .returned s
  | s, op :: ops =>
    match stepLocked env s op with
    | .returned t => runOpsLocked env t ops
    | .blocked t => .blocked t

/-! ## A concrete configuration

Collaborators and a start state on which the model can be evaluated. The
command parser reads just enough of a line for the engine: a leading `@` marks
a host command, a leading `M` gives the `M` number. The ASCII packet is the
line with its `N` prefix and a line feed, the binary packet a two byte frame. -/

/-- Bytes of a text. -/
def bytesOf (cs : List Char) : List Nat := cs.map Char.toNat

/-- A small command parser standing in for the `GCode` constructor. -/
def sampleParse (cmd : List Char) : GCode :=
  match cmd with
  | '@' :: _ =>
    { original := cmd, hostCommand := true, forceASCII := false, hasM := false, m := 0,
      hasN := false, n := 0 }
  | 'M' :: ds =>
    { original := cmd, hostCommand := false, forceASCII := atoiDigits ds 0 = 117, hasM := true,
      m := atoiDigits ds 0, hasN := false, n := 0 }
  | _ =>
    { original := cmd, hostCommand := false, forceASCII := false, hasM := false, m := 0,
      hasN := false, n := 0 }

/-- A small ASCII serialiser standing in for `GCode::getAscii(true,true)`. -/
def sampleAscii (gc : GCode) : GCodeDataPacket :=
  { data := (if gc.hasN then bytesOf ('N' :: decimal (gc.n % 65536)) ++ [32] else []) ++
      bytesOf gc.original ++ [10] }

/-- A small binary serialiser standing in for `GCode::getBinary()`. -/
def sampleBinary (gc : GCode) : GCodeDataPacket :=
  { data := [gc.n % 256, gc.n / 256 % 256] }

/-- Collaborators with no derived printer state. -/
def sampleCollab : Collaborators Unit where
  parse := sampleParse
  getAscii := sampleAscii
  getBinary := sampleBinary
  analyze := fun st _ => st
  stateAnalyseResponse := fun st _ rtype => (st, rtype)
  resetDerived := fun u => u
  maxHistorySize := 40
  backlogSize := 1000

/-- A connected printer right after construction, before the firmware has been
heard: counters and queues as the constructor of `Printer` leaves them, the
flow-control variables the constructor does not set at their idle values. -/
def samplePrinter (pingpong : Bool) (cacheSize : Int) : Printer Unit where
  pingpong := pingpong
  cacheSize := cacheSize
  binaryProtocol := 0
  okAfterResend := true
  garbageCleared := false
  readyForNextSend := false
  ignoreNextOk := false
  paused := false
  receiveCacheFill := 0
  nackLines := []
  resendError := 0
  errorsReceived := 0
  linesSend := 0
  bytesSend := 0
  manualCommands := []
  jobCommands := []
  resendLines := []
  history := []
  lastCommandSend := 0
  state := { lastline := 0, derived := () }
  responses := []
  lastResponseId := 0
  connected := true
  written := []

/-- The command `M105`. -/
def cmdM105 : List Char := ['M', '1', '0', '5']

/-- The command `G28`. -/
def cmdG28 : List Char := ['G', '2', '8']

/-! ## The acknowledgement window -/

/-- A property of a printer that looks only at the flow-control mode, the cache
size, the fill counter and the window. -/
def OnWindow (I : Bool → Int → Int → List Nat → Prop) (s : Printer τ) : Prop :=
  I s.pingpong s.cacheSize s.receiveCacheFill s.nackLines

/-- Closure of a window property under the four ways in which `printer.cpp`
touches the window: a send appends a length, an `ok` removes the oldest one,
a resync empties the window, and the third resend request may also shrink the
cache size to 63. -/
structure WindowClosed (I : Bool → Int → Int → List Nat → Prop) : Prop where
  send : ∀ (cs f : Int) (w : List Nat) (len : Nat),
    I false cs f w → cs > f + (len : Int) → I false cs (f + (len : Int)) (w ++ [len])
  pop : ∀ (cs f : Int) (len : Nat) (rest : List Nat),
    I false cs f (len :: rest) → I false cs (f - (len : Int)) rest
  clear : ∀ (pp : Bool) (cs f : Int) (w : List Nat), I pp cs f w → I pp cs 0 []
  shrink : ∀ (cs f : Int) (w : List Nat), I false cs f w → cs > 63 → I false 63 0 []

/-! ## Properties, specification-side definitions and concrete states

The predicates in which the theorems are stated, the definitions that follow
the wording of the specification, and the concrete states and call sequences
on which the model is evaluated. -/

/-- The calls used to exercise the window: the firmware says `start`, two
commands are queued and sent, one is acknowledged. -/
def sampleOps : List Op :=
  [.response 0 strStart, .injectManual 1 cmdM105, .injectManual 2 cmdG28, .response 3 strOk]

/-- The send gate as written in the claim: ping-pong and ready, or cache-window
and `receiveCacheFill + packet.length ≤ cacheSize`. -/
def gateAsClaimed (s : Printer τ) (dp : GCodeDataPacket) : Prop :=
  (s.pingpong = true ∧ s.readyForNextSend = true) ∨
    (s.pingpong = false ∧ s.receiveCacheFill + (dp.length : Int) ≤ s.cacheSize)

/-- The send gate of the code: ping-pong and ready, or cache-window and
`receiveCacheFill + packet.length < cacheSize`. -/
def gateOfCode (s : Printer τ) (dp : GCodeDataPacket) : Prop :=
  (s.pingpong = true ∧ s.readyForNextSend = true) ∨
    (s.pingpong = false ∧ s.receiveCacheFill + (dp.length : Int) < s.cacheSize)

/-- Scenario 3 of the specification in ping-pong mode: after `start`, five
commands `G28` are sent as lines 1 to 5, each acknowledged; the firmware asks
for line 3 again; a command `M105` is queued; four more `ok` arrive. -/
def resendScenario : List Op :=
  [.response 0 strStart,
   .injectManual 1 cmdG28, .response 2 strOk, .injectManual 3 cmdG28, .response 4 strOk,
   .injectManual 5 cmdG28, .response 6 strOk, .injectManual 7 cmdG28, .response 8 strOk,
   .injectManual 9 cmdG28, .response 10 strOk,
   .response 11 (strResend ++ ['3']),
   .injectManual 12 cmdM105,
   .response 13 strOk, .response 14 strOk, .response 15 strOk, .response 16 strOk]

/-- The packet `N3 G28` with its line feed. -/
def packetN3 : List Nat := [78, 51, 32, 71, 50, 56, 10]

/-- The test of the history walk in `resendLine`: the entry carries a line
number whose low 16 bits are those of the requested line. -/
def matchesLine (n : Nat) (gc : GCode) : Bool :=
  gc.hasN && decide (gc.n &&& 65535 = n &&& 65535)

/-- The resend list in the words of the specification: the part of the history,
in history order, that starts at the oldest entry matching line `n`; empty when
no entry matches. -/
def suffixFromLine (n : Nat) (history : List GCode) : List GCode :=
  history.dropWhile fun gc => !matchesLine n gc

/-- A history of three sent lines numbered 7, 8 and 9. -/
def sampleHistory : List GCode :=
  [(sampleParse cmdG28).setN 7, (sampleParse cmdM105).setN 8, (sampleParse cmdG28).setN 9]

/-- The packet sent for a queued line: the line is parsed, numbered (unless it
is an `M117`) and serialised. -/
def queuedPacket (env : Collaborators τ) (s : Printer τ) (cmd : List Char) : List Nat :=
  (packetOf env s (numberCommand env s.state cmd).2).data

/-- The priority rule between a state `s` and the state `s'` that one call of
`trySendNextLine` makes of it. If a packet was written, it is the front of
`resendLines` when that list is non-empty; otherwise the front of
`manualCommands` when that queue is non-empty; otherwise the front of
`jobCommands`, with `paused` false. The job queue is untouched while
`resendLines` or `manualCommands` is non-empty or `paused` is set, the manual
queue while `resendLines` is non-empty, and a queue loses at most its front. -/
def PriorityRule (env : Collaborators τ) (s s' : Printer τ) : Prop :=
  (s'.written ≠ s.written →
    (∃ gc rest, s.resendLines = gc :: rest ∧
      s'.written = s.written ++ [(packetOf env s gc).data]) ∨
    (s.resendLines = [] ∧ ∃ cmd rest, s.manualCommands = cmd :: rest ∧
      s'.written = s.written ++ [queuedPacket env s cmd] ∧ s'.manualCommands = rest) ∨
    (s.resendLines = [] ∧ s.manualCommands = [] ∧ s.paused = false ∧
      ∃ cmd rest, s.jobCommands = cmd :: rest ∧
      s'.written = s.written ++ [queuedPacket env s cmd] ∧ s'.jobCommands = rest)) ∧
  ((s.resendLines ≠ [] ∨ s.manualCommands ≠ [] ∨ s.paused = true) →
    s'.jobCommands = s.jobCommands) ∧
  (s.resendLines ≠ [] → s'.manualCommands = s.manualCommands) ∧
  (s'.manualCommands = s.manualCommands ∨ s'.manualCommands = s.manualCommands.tail) ∧
  (s'.jobCommands = s.jobCommands ∨ s'.jobCommands = s.jobCommands.tail)

/-- A printer in cache-window mode with a resend, a manual and a job command
pending. -/
def busyPrinter : Printer Unit :=
  { samplePrinter false 63 with
    garbageCleared := true
    resendLines := [(sampleParse cmdG28).setN 7]
    manualCommands := [cmdM105]
    jobCommands := [cmdG28] }

/-- The state in which the branches of `analyseResponse` start: the derived
printer state has read the line; no `start` reset took place. -/
def afterStateUpdate (env : Collaborators τ) (s : Printer τ) (res : List Char) : Printer τ :=
  { s with state := (env.stateAnalyseResponse s.state res 4).1 }

/-- The claim C8 as a property of one call: an `ok` that is ignored clears
`ignoreNextOk`, sets `garbageCleared`, leaves the flow control as it is and
writes no packet. -/
def IgnoredOkIsSilent (s s' : Printer τ) : Prop :=
  s'.ignoreNextOk = false ∧ s'.garbageCleared = true ∧
  s'.readyForNextSend = s.readyForNextSend ∧ s'.nackLines = s.nackLines ∧
  s'.receiveCacheFill = s.receiveCacheFill ∧ s'.resendError = s.resendError ∧
  s'.resendLines = s.resendLines ∧ s'.manualCommands = s.manualCommands ∧
  s'.jobCommands = s.jobCommands ∧ s'.history = s.history ∧ s'.written = s.written

/-- A reachable state with `ignoreNextOk` set: before the garbage was cleared
the firmware asked for a line the empty history does not hold, then it said
`start` and a job command was queued. -/
def awaitingIgnoredOk : Printer Unit :=
  runOps sampleCollab (samplePrinter false 63)
    [.response 0 (strResend ++ ['1']), .response 1 strStart, .injectJob cmdG28]

/-- The acknowledgement of the oldest packet in the words of the specification:
the oldest entry leaves `nackLines` and `receiveCacheFill` drops by its length;
with an empty window nothing changes. -/
def ackOldest (s : Printer τ) : Printer τ :=
  match s.nackLines with
  | [] => s
  | len :: rest =>
    { s with nackLines := rest, receiveCacheFill := s.receiveCacheFill - (len : Int) }

/-- A cache-window printer with two packets of 8 and 7 bytes in flight. -/
def twoInFlight : Printer Unit :=
  runOps sampleCollab (samplePrinter false 63)
    [.response 0 strStart, .injectManual 1 cmdM105, .injectManual 2 cmdG28]

/-- What one round of `Printer::run` leaves of a printer whose garbage is not
cleared: the connection attempt or the queued commands, and nothing else. -/
def idleRound (s : Printer τ) (loop : Nat) (connectOk : Bool) : Printer τ :=
  if !s.connected then { s with connected := connectOk }
  else
    { s with
      manualCommands :=
        (s.manualCommands ++ [['M', '1', '1', '7', ' ', 'L', 'o', 'o', 'p', ' '] ++ decimal loop])
          ++ (if s.manualCommands.length + 1 < 5 then [['M', '1', '0', '5']] else []) }

/-- The text `ident` occurs in `source` at index `j`. -/
def OccursAt (source ident : List Char) (j : Nat) : Prop :=
  j ≤ source.length ∧ ident <+: source.drop j

/-- An occurrence of `ident` that `extract` accepts: at index 0 or right after
a space. -/
def ValidAt (source ident : List Char) (j : Nat) : Prop :=
  OccursAt source ident j ∧ (j = 0 ∨ source.get? (j - 1) = some space)

/-- Where a round of the search loop entered with `pos` starts to look. -/
def searchFrom (pos : Nat) : Nat := if pos > 0 then pos + 1 else pos

/-- The text `extract` returns for an occurrence at `p`: what follows the
occurrence up to the next space or the end of the source. -/
def valueAt (source ident : List Char) (p : Nat) : List Char :=
  (source.drop (p + ident.length)).takeWhile fun c => decide (c ≠ space)

/-- The character is a decimal digit. -/
def IsDigit (c : Char) : Prop := 48 ≤ c.toNat ∧ c.toNat ≤ 57

/-- The state in which the `if / else if` chain of `analyseResponse` starts:
the derived printer state has read the line and the `start` test has run. -/
def beforeDispatch (env : Collaborators τ) (s : Printer τ) (res : List Char) : Printer τ :=
  if startSeen s.garbageCleared res then startReset env (afterStateUpdate env s res)
  else afterStateUpdate env s res

/-- The end of every call of `analyseResponse`: the response is logged and a
send is attempted. -/
def logAndSend (env : Collaborators τ) (now : Int) (s : Printer τ) (res : List Char)
    (rtype : Nat) : Printer τ :=
  trySendNextLine env now (addResponse env now s res rtype)

/-- The ping-pong printer of the resend scenario after lines 1 to 5 have been
sent and acknowledged. -/
def fiveLinesSent : Printer Unit :=
  runOps sampleCollab (samplePrinter true 63) (resendScenario.take 11)

/-- The response `Resend: 3`, with a space after the colon. -/
def resendSpace3 : List Char := strResend ++ [' ', '3']

/-- The entries `getResponsesSince` is to return according to the
specification: id above the cursor and a log type that meets the mask. -/
def wanted (resId filter : Nat) (r : PrinterResponse) : Bool :=
  decide (r.responseId > resId) && decide (r.logtype &&& filter ≠ 0)

/-- The ids of a log grow strictly from front to back. -/
def IdsIncreasing (log : List PrinterResponse) : Prop :=
  log.Pairwise fun a b => a.responseId < b.responseId

/-- One call of `addResponse`: message, log type and time of the call. -/
structure Push where
  msg : List Char
  rtype : Nat
  time : Int
deriving DecidableEq, Repr

/-- A sequence of `addResponse` calls. -/
def pushAll (env : Collaborators τ) (s : Printer τ) (ps : List Push) : Printer τ :=
  ps.foldl (fun t p => addResponse env p.time t p.msg p.rtype) s

/-- The pushed messages in push order, numbered from `i` on. -/
def stampFrom : Nat → List Push → List PrinterResponse
  | _, [] => []
  | i, p :: ps =>
    { message := p.msg, responseId := i, logtype := p.rtype, time := p.time } ::
      stampFrom (i + 1) ps

/-- Three pushes of different log types. -/
def samplePushes : List Push :=
  [{ msg := cmdM105, rtype := 1, time := 0 }, { msg := strOk, rtype := 2, time := 1 },
   { msg := cmdG28, rtype := 1, time := 2 }]

/-- The sample collaborators with a backlog of two responses. -/
def smallLogCollab : Collaborators Unit := { sampleCollab with backlogSize := 2 }

/-- The push onto `history` in `trySendPacket`: the command is appended and the
oldest entry dropped once the size exceeds `MAX_HISTORY_SIZE`. -/
def pushHistory (env : Collaborators τ) (history : List GCode) (gc : GCode) : List GCode :=
  if (history ++ [gc]).length > env.maxHistorySize then (history ++ [gc]).tail
  else history ++ [gc]

/-- The history respects its bound. -/
def HistoryBounded (env : Collaborators τ) (s : Printer τ) : Prop :=
  s.history.length ≤ env.maxHistorySize

/-- A property of printers that survives the bookkeeping of `trySendNextLine`:
new values of `state`, `manualCommands`, `jobCommands` and `resendError`. -/
structure QueueBlind (P : Printer τ → Prop) : Prop where
  state : ∀ (s : Printer τ) (st : PrinterState τ), P s → P { s with state := st }
  manual : ∀ (s : Printer τ) (q : List (List Char)), P s → P { s with manualCommands := q }
  job : ∀ (s : Printer τ) (q : List (List Char)), P s → P { s with jobCommands := q }
  resendError : ∀ (s : Printer τ) (e : Nat), P s → P { s with resendError := e }

/-- The sample collaborators with a history of two commands. -/
def shortHistoryCollab : Collaborators Unit := { sampleCollab with maxHistorySize := 2 }

/-- The ping-pong printer with a history bound of two after three lines have
been sent and acknowledged. -/
def threeLinesSent : Printer Unit :=
  runOps shortHistoryCollab (samplePrinter true 63) (resendScenario.take 7)

/-- A cache-window printer whose last send, a packet of 40 bytes at time 0, has
not been acknowledged. -/
def stuckWindow : Printer Unit :=
  { samplePrinter false 63 with
    garbageCleared := true, nackLines := [40], receiveCacheFill := 40, lastCommandSend := 0 }

/-- The printer right after a firmware reboot was handled, with nothing to
send: printer state `st`, empty history and window, ready, garbage cleared,
and all three queues empty. -/
def FreshlyReset (st : PrinterState τ) (t : Printer τ) : Prop :=
  t.state = st ∧ t.history = [] ∧ t.nackLines = [] ∧ t.receiveCacheFill = 0 ∧
  t.readyForNextSend = true ∧ t.garbageCleared = true ∧
  t.resendLines = [] ∧ t.manualCommands = [] ∧ t.jobCommands = []

/-- A ping-pong printer in the middle of a print: three lines sent, the last
one not yet acknowledged. -/
def midPrint : Printer Unit :=
  runOps sampleCollab (samplePrinter true 63) (resendScenario.take 6)

/-- A cache-window printer whose cache of 8 bytes is too small for the numbered
command `N42 G28`, with that command in the manual queue and line 41 last
used. -/
def fullCache : Printer Unit :=
  { samplePrinter false 8 with
    garbageCleared := true, manualCommands := [cmdG28], state := { lastline := 41, derived := () } }

/-- The same printer with the command in the job queue. -/
def fullCacheJob : Printer Unit :=
  { samplePrinter false 8 with
    garbageCleared := true, jobCommands := [cmdG28], state := { lastline := 41, derived := () } }

/-- The call passes the three guards at the head of `trySendNextLine` and finds
no line to resend. -/
def ReachesQueues (s : Printer τ) : Prop :=
  s.garbageCleared = true ∧ ¬ (s.pingpong = true ∧ s.readyForNextSend = false) ∧
  s.connected = true ∧ s.resendLines = []

/-- Nothing but the error counter differs between `s` and `s'`: line number
(with the rest of the printer state), queues, history, window, fill counter
and transport are the same. -/
def NothingSent (s s' : Printer τ) : Prop :=
  s'.state = s.state ∧ s'.manualCommands = s.manualCommands ∧
  s'.jobCommands = s.jobCommands ∧ s'.history = s.history ∧ s'.nackLines = s.nackLines ∧
  s'.receiveCacheFill = s.receiveCacheFill ∧ s'.written = s.written

/-- A temperature report of the firmware: `ok T:210 B:60`. -/
def tempReport : List Char :=
  ['o', 'k', ' ', 'T', ':', '2', '1', '0', ' ', 'B', ':', '6', '0']

/-- A source in which the ident `a` occurs four times, never at the start and
never after a space. -/
def manyOccurrences : List Char := ['x', 'a', 'a', 'a', 'a']

/-- A printer that has seen five resend requests without progress, with one
line waiting to be resent. -/
def fiveErrors : Printer Unit :=
  { samplePrinter true 63 with
    garbageCleared := true, resendError := 5, resendLines := [(sampleParse cmdG28).setN 1],
    history := sampleHistory }

/-- The calls other than `analyseResponse`: the two inject calls,
`trySendNextLine` and the round of `run`. -/
def Op.isLocal : Op → Bool
  | .response _ _ => false
  | _ => true

/-- A ping-pong printer with one command in flight: not ready for the next
send. -/
def Waiting (s : Printer τ) : Prop :=
  s.pingpong = true ∧ s.readyForNextSend = false

/-- The responses by which `analyseResponse` lets a waiting ping-pong printer
send again: a `start` reset, a resend request, an `ok` that is not ignored, or
a `wait` more than 5 seconds after the last send. `res` is the line without its
leading control characters. -/
def Releases (s : Printer τ) (now : Int) (res : List Char) : Prop :=
  startSeen s.garbageCleared res = true ∨ (extract res strResend).isSome = true ∨
  (strOk <+: res ∧ s.ignoreNextOk = false) ∨
  (res = strWait ∧ 5000000 < now - s.lastCommandSend)

/-- A ping-pong printer right after its first command went out, with two more
commands queued. -/
def oneInFlight : Printer Unit :=
  runOps sampleCollab (samplePrinter true 63) [.response 0 strStart, .injectManual 1 cmdG28]

/-- The response log after the three sample pushes. -/
def polledLog : Printer Unit := pushAll sampleCollab (samplePrinter true 63) samplePushes

/-- Two further pushes: a sent line and an acknowledgement. -/
def laterPushes : List Push :=
  [{ msg := cmdG28, rtype := 1, time := 3 }, { msg := strOk, rtype := 2, time := 4 }]

/-- The response `ok Resend:9`. -/
def okResend9 : List Char := strOk ++ [' '] ++ strResend ++ ['9']

/-- The response `start Resend:7`. -/
def startResend7 : List Char := strStart ++ [' '] ++ strResend ++ ['7']

/-- The state in which `resendLine` reaches its closing call of
`trySendNextLine`: the prologue has run, `resendLines` is rebuilt from the
history and, under the binary protocol, the padding is written. -/
def beforeClosingSend (s : Printer τ) (line : Nat) : Printer τ :=
  let s4 : Printer τ :=
    { resendPrologue s with
      resendLines := collectResend (line &&& 65535) (resendPrologue s).history false [] }
  if s4.binaryProtocol ≠ 0 then { s4 with written := s4.written ++ [nulPadding] } else s4

/-- A line is in the history only once the garbage is cleared: the flag is set
or the history is empty. -/
def ClearedOrEmpty (s : Printer τ) : Prop :=
  s.garbageCleared = true ∨ s.history = []

/-! ## Window properties are kept by every call -/

theorem trySendPacket_onWindow {I : Bool → Int → Int → List Nat → Prop}
    (hI : WindowClosed I) (env : Collaborators τ) (now : Int) (s : Printer τ)
    (dp : GCodeDataPacket) (gc : GCode) (h : OnWindow I s) :
    OnWindow I (trySendPacket env now s dp gc).1 := by
  unfold trySendPacket
  split
  · rename_i hc
    cases hp : s.pingpong
    · simp only [hp, Bool.false_and, Bool.not_false, Bool.true_and, Bool.false_or,
        decide_eq_true_eq] at hc
      have := hI.send s.cacheSize s.receiveCacheFill s.nackLines dp.length
        (by simpa only [OnWindow, hp] using h) hc
      simpa [OnWindow, addResponse, hp] using this
    · simpa [OnWindow, addResponse, hp] using h
  · exact h

theorem sendManual_onWindow (I : Bool → Int → Int → List Nat → Prop)
    (env : Collaborators τ) (now : Int)
    (hsend : ∀ (s : Printer τ) (dp : GCodeDataPacket) (gc : GCode),
      OnWindow I s → OnWindow I (trySendPacket env now s dp gc).1)
    (s : Printer τ) (cmd : List Char) (rest : List (List Char)) (h : OnWindow I s) :
    OnWindow I (sendManual env now s cmd rest) := by
  have h1 : ∀ st : PrinterState τ, OnWindow I { s with state := st } := fun _ => by
    simpa only [OnWindow] using h
  unfold sendManual
  dsimp only
  split_ifs
  · simpa only [OnWindow] using h
  · simpa only [OnWindow] using hsend _ _ _ (h1 _)
  · simpa only [OnWindow] using hsend _ _ _ (h1 _)
  · simpa only [OnWindow] using hsend _ _ _ (h1 _)

theorem sendJob_onWindow (I : Bool → Int → Int → List Nat → Prop)
    (env : Collaborators τ) (now : Int)
    (hsend : ∀ (s : Printer τ) (dp : GCodeDataPacket) (gc : GCode),
      OnWindow I s → OnWindow I (trySendPacket env now s dp gc).1)
    (s : Printer τ) (cmd : List Char) (rest : List (List Char)) (h : OnWindow I s) :
    OnWindow I (sendJob env now s cmd rest) := by
  have h1 : ∀ st : PrinterState τ, OnWindow I { s with state := st } := fun _ => by
    simpa only [OnWindow] using h
  unfold sendJob
  dsimp only
  split_ifs
  · simpa only [OnWindow] using h
  · simpa only [OnWindow] using hsend _ _ _ (h1 _)
  · simpa only [OnWindow] using hsend _ _ _ (h1 _)
  · simpa only [OnWindow] using hsend _ _ _ (h1 _)

theorem dropResendError_onWindow (I : Bool → Int → Int → List Nat → Prop)
    (s : Printer τ) (h : OnWindow I s) : OnWindow I (dropResendError s) := by
  unfold dropResendError
  split_ifs <;> exact h

theorem trySendNextLine_onWindow (I : Bool → Int → Int → List Nat → Prop)
    (env : Collaborators τ) (now : Int)
    (hsend : ∀ (s : Printer τ) (dp : GCodeDataPacket) (gc : GCode),
      OnWindow I s → OnWindow I (trySendPacket env now s dp gc).1)
    (s : Printer τ) (h : OnWindow I s) : OnWindow I (trySendNextLine env now s) := by
  unfold trySendNextLine
  split_ifs
  · exact h
  · exact h
  · exact h
  · split
    · exact hsend _ _ _ h
    · have h0 := dropResendError_onWindow I s h
      unfold sendQueued
      split
      · exact sendManual_onWindow I env now hsend _ _ _ h0
      · split
        · split_ifs
          · exact h0
          · exact sendJob_onWindow I env now hsend _ _ _ h0
        · exact h0

theorem injectManualCommand_onWindow {I : Bool → Int → Int → List Nat → Prop}
    (hI : WindowClosed I) (env : Collaborators τ) (now : Int) (s : Printer τ)
    (cmd : List Char) (h : OnWindow I s) :
    OnWindow I (injectManualCommand env now s cmd) := by
  unfold injectManualCommand
  exact trySendNextLine_onWindow I env now (trySendPacket_onWindow hI env now) _
    (by simpa only [OnWindow] using h)

theorem resendPrologue_onWindow {I : Bool → Int → Int → List Nat → Prop}
    (hI : WindowClosed I) (s : Printer τ) (h : OnWindow I s) :
    OnWindow I (resendPrologue s) := by
  unfold resendPrologue
  cases hp : s.pingpong
  · by_cases hc : s.errorsReceived + 1 = 3 ∧ s.cacheSize > 63
    · have := hI.shrink s.cacheSize s.receiveCacheFill s.nackLines
        (by simpa only [OnWindow, hp] using h) hc.2
      simpa [OnWindow, hp, hc.1, hc.2] using this
    · have := hI.clear false s.cacheSize s.receiveCacheFill s.nackLines
        (by simpa only [OnWindow, hp] using h)
      simp only [hp, Bool.not_false, true_and, hc, ↓reduceIte, Bool.false_eq_true, OnWindow]
      exact this
  · simpa [OnWindow, hp] using h

theorem resendLine_onWindow {I : Bool → Int → Int → List Nat → Prop}
    (hI : WindowClosed I) (env : Collaborators τ) (now : Int) (s : Printer τ)
    (line : Nat) (h : OnWindow I s) : OnWindow I (resendLine env now s line) := by
  have h3 := resendPrologue_onWindow hI s h
  unfold resendLine
  dsimp only
  split_ifs
  · simpa only [OnWindow, close] using h3
  · exact trySendNextLine_onWindow I env now (trySendPacket_onWindow hI env now) _
      (by simpa only [OnWindow] using h3)
  · exact trySendNextLine_onWindow I env now (trySendPacket_onWindow hI env now) _
      (by simpa only [OnWindow] using h3)

theorem okBranch_onWindow {I : Bool → Int → Int → List Nat → Prop}
    (hI : WindowClosed I) (env : Collaborators τ) (now : Int) (s : Printer τ)
    (h : OnWindow I s) : OnWindow I (okBranch env now s) := by
  unfold okBranch
  dsimp only
  split_ifs with hi hp
  · exact trySendNextLine_onWindow I env now (trySendPacket_onWindow hI env now) _
      (by simpa only [OnWindow] using h)
  · refine trySendNextLine_onWindow I env now (trySendPacket_onWindow hI env now) _ ?_
    simp only [Bool.not_eq_true] at hp
    cases hn : s.nackLines with
    | nil => simpa [OnWindow, hn] using h
    | cons len rest =>
      have := hI.pop s.cacheSize s.receiveCacheFill len rest
        (by simpa only [OnWindow, hp, hn] using h)
      simpa [OnWindow, hn, hp] using this
  · simpa only [OnWindow] using h

theorem waitBranch_onWindow {I : Bool → Int → Int → List Nat → Prop}
    (hI : WindowClosed I) (now : Int) (s : Printer τ)
    (h : OnWindow I s) : OnWindow I (waitBranch now s) := by
  unfold waitBranch
  dsimp only
  split_ifs
  · simpa only [OnWindow] using h
  · simpa only [OnWindow] using hI.clear _ _ _ _ h
  · simpa only [OnWindow] using h

theorem dispatch_onWindow {I : Bool → Int → Int → List Nat → Prop}
    (hI : WindowClosed I) (env : Collaborators τ) (now : Int) (s : Printer τ)
    (res : List Char) (rtype : Nat) (h : OnWindow I s) :
    OnWindow I (dispatch env now s res rtype).1 := by
  unfold dispatch
  split
  · exact resendLine_onWindow hI env now s _ h
  · split_ifs
    · exact okBranch_onWindow hI env now s h
    · exact waitBranch_onWindow hI now s h
    · exact h

theorem analyseResponse_onWindow {I : Bool → Int → Int → List Nat → Prop}
    (hI : WindowClosed I) (env : Collaborators τ) (now : Int) (s : Printer τ)
    (res : List Char) (h : OnWindow I s) :
    OnWindow I (analyseResponse env now s res) := by
  unfold analyseResponse
  dsimp only
  refine trySendNextLine_onWindow I env now (trySendPacket_onWindow hI env now) _ ?_
  have hd : ∀ (t : Printer τ) (r : Nat), OnWindow I t →
      OnWindow I (addResponse env now (dispatch env now t (stripControl res) r).1
        (stripControl res) (dispatch env now t (stripControl res) r).2) := by
    intro t r ht
    have := dispatch_onWindow hI env now t (stripControl res) r ht
    simpa only [OnWindow, addResponse] using this
  apply hd
  split_ifs
  · simpa only [OnWindow, startReset] using hI.clear _ _ _ _ h
  · simpa only [OnWindow] using h

theorem runIteration_onWindow {I : Bool → Int → Int → List Nat → Prop}
    (hI : WindowClosed I) (env : Collaborators τ) (now : Int) (s : Printer τ)
    (loop : Nat) (connectOk : Bool) (h : OnWindow I s) :
    OnWindow I (runIteration env now s loop connectOk) := by
  unfold runIteration
  dsimp only
  refine trySendNextLine_onWindow I env now (trySendPacket_onWindow hI env now) _ ?_
  split_ifs
  · simpa only [OnWindow] using h
  · exact injectManualCommand_onWindow hI env now _ _
      (injectManualCommand_onWindow hI env now _ _ h)
  · exact injectManualCommand_onWindow hI env now _ _ h

theorem step_onWindow {I : Bool → Int → Int → List Nat → Prop}
    (hI : WindowClosed I) (env : Collaborators τ) (s : Printer τ) (op : Op)
    (h : OnWindow I s) : OnWindow I (step env s op) := by
  cases op with
  | injectManual now cmd => exact injectManualCommand_onWindow hI env now s cmd h
  | injectJob cmd => simpa only [OnWindow, step, injectJobCommand] using h
  | trySend now =>
    exact trySendNextLine_onWindow I env now (trySendPacket_onWindow hI env now) s h
  | response now res => exact analyseResponse_onWindow hI env now s res h
  | tick now loop ok => exact runIteration_onWindow hI env now s loop ok h

theorem runOps_onWindow {I : Bool → Int → Int → List Nat → Prop}
    (hI : WindowClosed I) (env : Collaborators τ) (ops : List Op) :
    ∀ s : Printer τ, OnWindow I s → OnWindow I (runOps env s ops) := by
  induction ops with
  | nil => intro s h; exact h
  | cons op ops ih =>
    intro s h
    exact ih _ (step_onWindow hI env s op h)

/-! ## Calls that return and calls that block

The outcome of a call under `sendMutex`. A call that returns does so with the
state given by the functions that leave the mutex aside, and the only call that
blocks is a resend request that does not give up and is handled while
`garbageCleared` is true. -/

theorem resendPrologue_garbageCleared (s : Printer τ) :
    (resendPrologue s).garbageCleared = s.garbageCleared := by
  unfold resendPrologue
  dsimp only
  split_ifs <;> rfl

theorem beforeClosingSend_garbageCleared (s : Printer τ) (line : Nat) :
    (beforeClosingSend s line).garbageCleared = s.garbageCleared := by
  have hg := resendPrologue_garbageCleared s
  unfold beforeClosingSend
  dsimp only
  split_ifs <;> simpa using hg

theorem resendLine_eq_closing (env : Collaborators τ) (now : Int) (s : Printer τ)
    (line : Nat) (he : ¬ (resendPrologue s).resendError > 5) :
    resendLine env now s line = trySendNextLine env now (beforeClosingSend s line) := by
  unfold resendLine beforeClosingSend
  dsimp only
  rw [if_neg he]

theorem resendLineLocked_eq (env : Collaborators τ) (now : Int) (s : Printer τ)
    (line : Nat) :
    resendLineLocked env now s line =
      if (resendPrologue s).resendError > 5 ∨ s.garbageCleared = false then
        .returned (resendLine env now s line)
      else .blocked (beforeClosingSend s line) := by
  by_cases he : (resendPrologue s).resendError > 5
  · unfold resendLineLocked resendLine
    simp [he]
  · have hg := beforeClosingSend_garbageCleared s line
    have hc : resendLineLocked env now s line =
        if !(beforeClosingSend s line).garbageCleared then
          .returned (trySendNextLine env now (beforeClosingSend s line))
        else .blocked (beforeClosingSend s line) := by
      unfold resendLineLocked beforeClosingSend
      dsimp only
      rw [if_neg he]
    rw [hc, hg, resendLine_eq_closing env now s line he]
    cases s.garbageCleared <;> simp [he]

theorem analyseResponseLocked_of_no_resend (env : Collaborators τ) (now : Int)
    (s : Printer τ) (res0 : List Char)
    (hnr : extract (stripControl res0) strResend = none) :
    analyseResponseLocked env now s res0 = .returned (analyseResponse env now s res0) := by
  unfold analyseResponseLocked analyseResponse dispatch
  simp only [hnr]

theorem analyseResponseLocked_of_resend (env : Collaborators τ) (now : Int)
    (s : Printer τ) (res0 h : List Char)
    (hx : extract (stripControl res0) strResend = some h) :
    analyseResponseLocked env now s res0 =
      if (resendPrologue (beforeDispatch env s (stripControl res0))).resendError > 5 ∨
          (beforeDispatch env s (stripControl res0)).garbageCleared = false then
        .returned (analyseResponse env now s res0)
      else
        .blocked (beforeClosingSend (beforeDispatch env s (stripControl res0))
          (toSizeT (atoi h))) := by
  have hl := resendLineLocked_eq env now (beforeDispatch env s (stripControl res0))
    (toSizeT (atoi h))
  have hu : analyseResponseLocked env now s res0 =
      match resendLineLocked env now (beforeDispatch env s (stripControl res0))
        (toSizeT (atoi h)) with
      | .returned t =>
        .returned (trySendNextLine env now (addResponse env now t (stripControl res0)
          (env.stateAnalyseResponse s.state (stripControl res0) 4).2))
      | .blocked t => .blocked t := by
    unfold analyseResponseLocked beforeDispatch afterStateUpdate
    simp only [hx]
  have ha : analyseResponse env now s res0 =
      trySendNextLine env now
        (addResponse env now
          (resendLine env now (beforeDispatch env s (stripControl res0)) (toSizeT (atoi h)))
          (stripControl res0) (env.stateAnalyseResponse s.state (stripControl res0) 4).2) := by
    unfold analyseResponse dispatch beforeDispatch afterStateUpdate
    simp only [hx]
  rw [hu, hl, ha]
  split_ifs <;> rfl

theorem analyseResponseLocked_cases (env : Collaborators τ) (now : Int) (s : Printer τ)
    (res0 : List Char) :
    analyseResponseLocked env now s res0 = .returned (analyseResponse env now s res0) ∨
    ∃ h, extract (stripControl res0) strResend = some h ∧
      analyseResponseLocked env now s res0 =
        .blocked (beforeClosingSend (beforeDispatch env s (stripControl res0))
          (toSizeT (atoi h))) := by
  cases hx : extract (stripControl res0) strResend with
  | none => exact Or.inl (analyseResponseLocked_of_no_resend env now s res0 hx)
  | some h =>
    rw [analyseResponseLocked_of_resend env now s res0 h hx]
    split_ifs
    · exact Or.inl rfl
    · exact Or.inr ⟨h, rfl, rfl⟩

theorem stepLocked_cases (env : Collaborators τ) (s : Printer τ) (op : Op) :
    stepLocked env s op = .returned (step env s op) ∨
    ∃ now res0 h, op = .response now res0 ∧
      extract (stripControl res0) strResend = some h ∧
      stepLocked env s op =
        .blocked (beforeClosingSend (beforeDispatch env s (stripControl res0))
          (toSizeT (atoi h))) := by
  cases op with
  | response now res0 =>
    rcases analyseResponseLocked_cases env now s res0 with h | ⟨h, hx, hb⟩
    · exact Or.inl h
    · exact Or.inr ⟨now, res0, h, rfl, hx, hb⟩
  | injectManual now cmd => exact Or.inl rfl
  | injectJob cmd => exact Or.inl rfl
  | trySend now => exact Or.inl rfl
  | tick now loop ok => exact Or.inl rfl

theorem runOpsLocked_returned (env : Collaborators τ) (ops : List Op) :
    ∀ s : Printer τ, (runOpsLocked env s ops).isBlocked = false →
      runOpsLocked env s ops = .returned (runOps env s ops) := by
  induction ops with
  | nil => intro s _; rfl
  | cons op ops ih =>
    intro s hb
    rcases stepLocked_cases env s op with h | ⟨now, res0, h, _, _, hs⟩
    · have hu : runOpsLocked env s (op :: ops) = runOpsLocked env (step env s op) ops := by
        simp only [runOpsLocked, h]
      rw [hu] at hb ⊢
      exact ih _ hb
    · have hu : runOpsLocked env s (op :: ops) =
          .blocked (beforeClosingSend (beforeDispatch env s (stripControl res0))
            (toSizeT (atoi h))) := by
        simp only [runOpsLocked, hs]
      rw [hu] at hb
      simp [Outcome.isBlocked] at hb

theorem windowClosed_sum :
    WindowClosed (fun _ _ f w => f = ((w.sum : Nat) : Int)) where
  send := by intro cs f w len h _; simp [h]
  pop := by intro cs f len rest h; simp [h]
  clear := by intro pp cs f w _; simp
  shrink := by intro cs f w _ _; simp

/-- C1: from a state with an empty nack window and `receiveCacheFill = 0`,
after any sequence of `injectManualCommand`, `injectJobCommand`,
`trySendNextLine`, `analyseResponse` and `run` rounds, `receiveCacheFill` is
the sum of the packet lengths stored in `nackLines`. -/
theorem receiveCacheFill_eq_sum_nackLines (env : Collaborators τ) (s0 : Printer τ)
    (ops : List Op) (hw : s0.nackLines = []) (hf : s0.receiveCacheFill = 0) :
    (runOps env s0 ops).receiveCacheFill = (((runOps env s0 ops).nackLines.sum : Nat) : Int) :=
  runOps_onWindow windowClosed_sum env ops s0 (by simp [OnWindow, hw, hf])

/-- C1 at a concrete run: the window holds the one unacknowledged packet of
seven bytes. -/
theorem receiveCacheFill_eq_sum_nackLines_witness :
    (samplePrinter false 63).nackLines = [] ∧ (samplePrinter false 63).receiveCacheFill = 0 ∧
    (runOps sampleCollab (samplePrinter false 63) sampleOps).nackLines = [7] ∧
    (runOps sampleCollab (samplePrinter false 63) sampleOps).receiveCacheFill =
      (((runOps sampleCollab (samplePrinter false 63) sampleOps).nackLines.sum : Nat) : Int) :=
  ⟨rfl, rfl, by decide,
    receiveCacheFill_eq_sum_nackLines sampleCollab (samplePrinter false 63) sampleOps rfl rfl⟩

/-- C3, counterexample: with 60 of 63 bytes in use a packet of 3 bytes fills the
cache exactly, the gate of the claim is open, and `trySendPacket` refuses. -/
theorem trySendPacket_exact_fit_refused :
    gateAsClaimed { samplePrinter false 63 with receiveCacheFill := 60, nackLines := [60] }
      { data := [71, 49, 10] } ∧
    (trySendPacket sampleCollab 0
      { samplePrinter false 63 with receiveCacheFill := 60, nackLines := [60] }
      { data := [71, 49, 10] } (sampleParse ['G', '1'])).2 = false := by
  constructor
  · right
    exact ⟨rfl, by decide⟩
  · decide

/-- C3, amended: `trySendPacket` writes the packet and returns true exactly
when (ping-pong and ready) or (cache-window and
`receiveCacheFill + packet.length < cacheSize`); otherwise it returns false and
changes no state. A packet that would fill the cache exactly is refused. -/
theorem trySendPacket_gate (env : Collaborators τ) (now : Int) (s : Printer τ)
    (dp : GCodeDataPacket) (gc : GCode) :
    ((trySendPacket env now s dp gc).2 = true ↔ gateOfCode s dp) ∧
    (gateOfCode s dp →
      (trySendPacket env now s dp gc).1.written = s.written ++ [dp.data]) ∧
    (¬ gateOfCode s dp →
      (trySendPacket env now s dp gc).2 = false ∧ (trySendPacket env now s dp gc).1 = s) ∧
    (s.pingpong = false → s.receiveCacheFill + (dp.length : Int) = s.cacheSize →
      (trySendPacket env now s dp gc).2 = false ∧ (trySendPacket env now s dp gc).1 = s) := by
  have key : ((s.pingpong && s.readyForNextSend) ||
      (!s.pingpong && decide (s.cacheSize > s.receiveCacheFill + (dp.length : Int)))) = true ↔
      gateOfCode s dp := by
    unfold gateOfCode
    cases s.pingpong <;> cases s.readyForNextSend <;> simp
  have hno : ¬ gateOfCode s dp →
      (trySendPacket env now s dp gc).2 = false ∧ (trySendPacket env now s dp gc).1 = s := by
    intro hg
    unfold trySendPacket
    rw [if_neg (fun h => hg (key.mp h))]
    exact ⟨rfl, rfl⟩
  refine ⟨?_, ?_, hno, ?_⟩
  · constructor
    · intro h
      by_contra hg
      rw [(hno hg).1] at h
      exact Bool.false_ne_true h
    · intro hg
      unfold trySendPacket
      rw [if_pos (key.mpr hg)]
  · intro hg
    unfold trySendPacket
    rw [if_pos (key.mpr hg)]
    cases hp : s.pingpong <;> simp [addResponse, hp]
  · intro hp heq
    apply hno
    unfold gateOfCode
    rw [hp]
    simp
    omega

/-- C3 at concrete inputs: two bytes short of a full cache a packet of two
bytes is sent, and a packet of three bytes, which would fill it, is not. -/
theorem trySendPacket_gate_witness :
    (trySendPacket sampleCollab 0
      { samplePrinter false 63 with receiveCacheFill := 60, nackLines := [60] }
      { data := [71, 10] } (sampleParse ['G'])).1.written = [[71, 10]] ∧
    (trySendPacket sampleCollab 0
      { samplePrinter false 63 with receiveCacheFill := 60, nackLines := [60] }
      { data := [71, 49, 10] } (sampleParse ['G', '1'])).2 = false :=
  ⟨(trySendPacket_gate sampleCollab 0
      { samplePrinter false 63 with receiveCacheFill := 60, nackLines := [60] }
      { data := [71, 10] } (sampleParse ['G'])).2.1 (Or.inr ⟨rfl, by decide⟩),
   ((trySendPacket_gate sampleCollab 0
      { samplePrinter false 63 with receiveCacheFill := 60, nackLines := [60] }
      { data := [71, 49, 10] } (sampleParse ['G', '1'])).2.2.2 rfl (by decide)).1⟩

/-! ## The resend block of `trySendNextLine` -/

theorem trySendPacket_queues (env : Collaborators τ) (now : Int) (s : Printer τ)
    (dp : GCodeDataPacket) (gc : GCode) :
    (trySendPacket env now s dp gc).1.resendLines = s.resendLines ∧
    (trySendPacket env now s dp gc).1.manualCommands = s.manualCommands ∧
    (trySendPacket env now s dp gc).1.jobCommands = s.jobCommands := by
  unfold trySendPacket
  split
  · cases hp : s.pingpong <;> simp [addResponse, hp]
  · exact ⟨rfl, rfl, rfl⟩

theorem sendManual_resendLines (env : Collaborators τ) (now : Int) (s : Printer τ)
    (cmd : List Char) (rest : List (List Char)) :
    (sendManual env now s cmd rest).resendLines = s.resendLines := by
  unfold sendManual
  dsimp only
  split_ifs <;> simp [(trySendPacket_queues env now _ _ _).1]

theorem sendJob_resendLines (env : Collaborators τ) (now : Int) (s : Printer τ)
    (cmd : List Char) (rest : List (List Char)) :
    (sendJob env now s cmd rest).resendLines = s.resendLines := by
  unfold sendJob
  dsimp only
  split_ifs <;> simp [(trySendPacket_queues env now _ _ _).1]

theorem dropResendError_resendLines (s : Printer τ) :
    (dropResendError s).resendLines = s.resendLines := by
  unfold dropResendError
  split_ifs <;> rfl

/-- No path through `trySendNextLine` removes anything from `resendLines`: the
resend block sends the front and leaves it in place. -/
theorem trySendNextLine_resendLines (env : Collaborators τ) (now : Int) (s : Printer τ) :
    (trySendNextLine env now s).resendLines = s.resendLines := by
  unfold trySendNextLine
  split_ifs
  · rfl
  · rfl
  · rfl
  · split
    · exact (trySendPacket_queues env now _ _ _).1
    · unfold sendQueued
      split
      · rw [sendManual_resendLines, dropResendError_resendLines]
      · split
        · split_ifs
          · exact dropResendError_resendLines s
          · rw [sendJob_resendLines, dropResendError_resendLines]
        · exact dropResendError_resendLines s

/-- The resend block with `sendMutex` left aside, on the scenario of the
specification. Were the resend request for line 3 to return, every following
send would transmit line 3 again: lines 4 and 5 are never sent, `resendLines`
still holds all three lines and the queued `M105` stays in the manual queue.
Under the mutex the request does not return, and none of this is sent. -/
theorem resend_repeats_first_line :
    ((runOps sampleCollab (samplePrinter true 63) (resendScenario.take 11)).history.map
      fun gc => gc.n) = [1, 2, 3, 4, 5] ∧
    (runOps sampleCollab (samplePrinter true 63) resendScenario).written.drop 5 =
      [packetN3, packetN3, packetN3, packetN3] ∧
    ((runOps sampleCollab (samplePrinter true 63) resendScenario).resendLines.map
      fun gc => gc.n) = [3, 4, 5] ∧
    (runOps sampleCollab (samplePrinter true 63) resendScenario).manualCommands = [cmdM105] := by
  refine ⟨by decide, by decide, by decide, by decide⟩

/-! ## The history walk of `resendLine` -/

theorem collectResend_true (line : Nat) (h : List GCode) (acc : List GCode) :
    collectResend line h true acc = acc ++ h := by
  induction h generalizing acc with
  | nil => simp [collectResend]
  | cons gc rest ih => simp [collectResend, ih]

theorem collectResend_false (n : Nat) (h : List GCode) (acc : List GCode) :
    collectResend (n &&& 65535) h false acc = acc ++ suffixFromLine n h := by
  induction h generalizing acc with
  | nil => simp [collectResend, suffixFromLine]
  | cons gc rest ih =>
    by_cases hm : gc.hasN = true ∧ gc.n &&& 65535 = n &&& 65535
    · have hm2 : matchesLine n gc = true := by simp [matchesLine, hm.1, hm.2]
      simp [collectResend, hm, collectResend_true, suffixFromLine, hm2]
    · have hm2 : matchesLine n gc = false := by
        simp only [matchesLine, Bool.and_eq_false_imp, decide_eq_false_iff_not]
        exact fun h1 h2 => hm ⟨h1, h2⟩
      have := ih acc
      simp only [suffixFromLine] at this
      simp [collectResend, hm, suffixFromLine, hm2, this]

theorem resendPrologue_fields (s : Printer τ) :
    (resendPrologue s).resendError = s.resendError + 1 ∧
    (resendPrologue s).history = s.history ∧
    (resendPrologue s).resendLines = s.resendLines ∧
    (resendPrologue s).written = s.written ∧
    (resendPrologue s).connected = s.connected := by
  unfold resendPrologue
  dsimp only
  split_ifs <;> simp

/-! ## Claim C7: priorities of the three queues -/

theorem trySendPacket_written (env : Collaborators τ) (now : Int) (s : Printer τ)
    (dp : GCodeDataPacket) (gc : GCode) :
    ((trySendPacket env now s dp gc).2 = true ∧
      (trySendPacket env now s dp gc).1.written = s.written ++ [dp.data]) ∨
    ((trySendPacket env now s dp gc).2 = false ∧ (trySendPacket env now s dp gc).1 = s) := by
  unfold trySendPacket
  split
  · left
    cases hp : s.pingpong <;> simp [addResponse, hp]
  · right
    exact ⟨rfl, rfl⟩

theorem dropResendError_fields (s : Printer τ) :
    (dropResendError s).written = s.written ∧
    (dropResendError s).manualCommands = s.manualCommands ∧
    (dropResendError s).jobCommands = s.jobCommands ∧
    (dropResendError s).state = s.state ∧
    (dropResendError s).paused = s.paused ∧
    (dropResendError s).binaryProtocol = s.binaryProtocol := by
  unfold dropResendError
  split_ifs <;> simp

theorem sendManual_effect (env : Collaborators τ) (now : Int) (s : Printer τ)
    (cmd : List Char) (rest : List (List Char)) (hq : s.manualCommands = cmd :: rest) :
    (sendManual env now s cmd rest).jobCommands = s.jobCommands ∧
    (((sendManual env now s cmd rest).written = s.written ∧
        ((sendManual env now s cmd rest).manualCommands = cmd :: rest ∨
          (sendManual env now s cmd rest).manualCommands = rest)) ∨
      ((sendManual env now s cmd rest).written = s.written ++ [queuedPacket env s cmd] ∧
        (sendManual env now s cmd rest).manualCommands = rest)) := by
  unfold sendManual
  dsimp only
  split_ifs with hh hr hn
  · simp
  · rcases trySendPacket_written env now { s with state := (numberCommand env s.state cmd).1 }
      (packetOf env { s with state := (numberCommand env s.state cmd).1 }
        (numberCommand env s.state cmd).2) (numberCommand env s.state cmd).2 with h | h
    · refine ⟨by simp [(trySendPacket_queues env now _ _ _).2.2], Or.inr ⟨?_, rfl⟩⟩
      simpa [queuedPacket, packetOf] using h.2
    · rw [h.1] at hr
      exact absurd hr (by decide)
  · rcases trySendPacket_written env now { s with state := (numberCommand env s.state cmd).1 }
      (packetOf env { s with state := (numberCommand env s.state cmd).1 }
        (numberCommand env s.state cmd).2) (numberCommand env s.state cmd).2 with h | h
    · exact absurd h.1 hr
    · rw [h.2]
      simp [hq]
  · rcases trySendPacket_written env now { s with state := (numberCommand env s.state cmd).1 }
      (packetOf env { s with state := (numberCommand env s.state cmd).1 }
        (numberCommand env s.state cmd).2) (numberCommand env s.state cmd).2 with h | h
    · exact absurd h.1 hr
    · rw [h.2]
      simp [hq]

theorem sendJob_effect (env : Collaborators τ) (now : Int) (s : Printer τ)
    (cmd : List Char) (rest : List (List Char)) (hq : s.jobCommands = cmd :: rest) :
    (sendJob env now s cmd rest).manualCommands = s.manualCommands ∧
    (((sendJob env now s cmd rest).written = s.written ∧
        ((sendJob env now s cmd rest).jobCommands = cmd :: rest ∨
          (sendJob env now s cmd rest).jobCommands = rest)) ∨
      ((sendJob env now s cmd rest).written = s.written ++ [queuedPacket env s cmd] ∧
        (sendJob env now s cmd rest).jobCommands = rest)) := by
  unfold sendJob
  dsimp only
  split_ifs with hh hr hn
  · simp
  · rcases trySendPacket_written env now { s with state := (numberCommand env s.state cmd).1 }
      (packetOf env { s with state := (numberCommand env s.state cmd).1 }
        (numberCommand env s.state cmd).2) (numberCommand env s.state cmd).2 with h | h
    · refine ⟨by simp [(trySendPacket_queues env now _ _ _).2.1], Or.inr ⟨?_, rfl⟩⟩
      simpa [queuedPacket, packetOf] using h.2
    · rw [h.1] at hr
      exact absurd hr (by decide)
  · rcases trySendPacket_written env now { s with state := (numberCommand env s.state cmd).1 }
      (packetOf env { s with state := (numberCommand env s.state cmd).1 }
        (numberCommand env s.state cmd).2) (numberCommand env s.state cmd).2 with h | h
    · exact absurd h.1 hr
    · rw [h.2]
      simp [hq]
  · rcases trySendPacket_written env now { s with state := (numberCommand env s.state cmd).1 }
      (packetOf env { s with state := (numberCommand env s.state cmd).1 }
        (numberCommand env s.state cmd).2) (numberCommand env s.state cmd).2 with h | h
    · exact absurd h.1 hr
    · rw [h.2]
      simp [hq]

theorem trySendNextLine_priorityRule (env : Collaborators τ) (now : Int) (t : Printer τ) :
    PriorityRule env t (trySendNextLine env now t) := by
  have hd := dropResendError_fields t
  have hidle : ∀ u : Printer τ, trySendNextLine env now t = u → u.written = t.written →
      u.manualCommands = t.manualCommands → u.jobCommands = t.jobCommands →
      PriorityRule env t (trySendNextLine env now t) := by
    intro u hu hw hm hj
    rw [hu]
    exact And.intro (fun hne => absurd hw hne)
      ⟨fun _ => hj, fun _ => hm, Or.inl hm, Or.inl hj⟩
  by_cases hg : (!t.garbageCleared) = true
  · exact hidle t (by unfold trySendNextLine; rw [if_pos hg]) rfl rfl rfl
  by_cases hpp : (t.pingpong && !t.readyForNextSend) = true
  · exact hidle t (by unfold trySendNextLine; rw [if_neg hg, if_pos hpp]) rfl rfl rfl
  by_cases hcn : (!t.connected) = true
  · exact hidle t (by unfold trySendNextLine; rw [if_neg hg, if_neg hpp, if_pos hcn])
      rfl rfl rfl
  cases hr : t.resendLines with
  | cons gc rest =>
    have he : trySendNextLine env now t =
        (trySendPacket env now t (packetOf env t gc) gc).1 := by
      unfold trySendNextLine
      rw [if_neg hg, if_neg hpp, if_neg hcn]
      simp only [hr]
    have hq := trySendPacket_queues env now t (packetOf env t gc) gc
    rw [he]
    refine ⟨fun hne => Or.inl ⟨gc, rest, hr, ?_⟩, fun _ => hq.2.2, fun _ => hq.2.1,
      Or.inl hq.2.1, Or.inl hq.2.2⟩
    rcases trySendPacket_written env now t (packetOf env t gc) gc with h | h
    · exact h.2
    · rw [h.2] at hne
      exact absurd rfl hne
  | nil =>
    have he : trySendNextLine env now t = sendQueued env now (dropResendError t) := by
      unfold trySendNextLine
      rw [if_neg hg, if_neg hpp, if_neg hcn]
      simp only [hr]
    have hqp : ∀ cmd, queuedPacket env (dropResendError t) cmd = queuedPacket env t cmd := by
      intro cmd
      simp only [queuedPacket, packetOf, hd.2.2.2.1, hd.2.2.2.2.2]
    cases hm : t.manualCommands with
    | cons cmd rest =>
      have hm0 : (dropResendError t).manualCommands = cmd :: rest := by rw [hd.2.1, hm]
      have he2 : trySendNextLine env now t = sendManual env now (dropResendError t) cmd rest := by
        rw [he]
        unfold sendQueued
        simp only [hm0]
      have hs := sendManual_effect env now (dropResendError t) cmd rest hm0
      rw [he2]
      rw [hd.2.2.1, hd.1, hqp] at hs
      refine ⟨fun hne => Or.inr (Or.inl ⟨hr, cmd, rest, hm, ?_⟩), fun _ => hs.1,
        fun hx => absurd hr hx, ?_, Or.inl hs.1⟩
      · rcases hs.2 with h | h
        · exact absurd h.1 hne
        · exact h
      · rcases hs.2 with h | h
        · rcases h.2 with h2 | h2
          · exact Or.inl (h2.trans hm.symm)
          · exact Or.inr (by simpa [hm] using h2)
        · exact Or.inr (by simpa [hm] using h.2)
    | nil =>
      have hm0 : (dropResendError t).manualCommands = [] := by rw [hd.2.1, hm]
      cases hj : t.jobCommands with
      | nil =>
        have hj0 : (dropResendError t).jobCommands = [] := by rw [hd.2.2.1, hj]
        have he2 : trySendNextLine env now t = dropResendError t := by
          rw [he]
          unfold sendQueued
          simp only [hm0, hj0]
        exact hidle (dropResendError t) he2 hd.1 hd.2.1 hd.2.2.1
      | cons cmd rest =>
        have hj0 : (dropResendError t).jobCommands = cmd :: rest := by rw [hd.2.2.1, hj]
        by_cases hpa : t.paused = true
        · have he2 : trySendNextLine env now t = dropResendError t := by
            rw [he]
            unfold sendQueued
            simp only [hm0, hj0, hd.2.2.2.2.1, hpa, if_true]
          exact hidle (dropResendError t) he2 hd.1 hd.2.1 hd.2.2.1
        · have he2 : trySendNextLine env now t =
              sendJob env now (dropResendError t) cmd rest := by
            rw [he]
            unfold sendQueued
            simp only [hm0, hj0, hd.2.2.2.2.1, hpa]
            rfl
          have hs := sendJob_effect env now (dropResendError t) cmd rest hj0
          rw [he2]
          rw [hd.2.1, hd.1, hqp] at hs
          refine ⟨fun hne => Or.inr (Or.inr ⟨hr, hm, by simpa using hpa, cmd, rest, hj, ?_⟩),
            ?_, fun hx => absurd hr hx, Or.inl hs.1, ?_⟩
          · rcases hs.2 with h | h
            · exact absurd h.1 hne
            · exact h
          · intro hx
            rcases hx with hx | hx | hx
            · exact absurd hr hx
            · exact absurd hm hx
            · exact absurd hx hpa
          · rcases hs.2 with h | h
            · rcases h.2 with h2 | h2
              · exact Or.inl (h2.trans hj.symm)
              · exact Or.inr (by simpa [hj] using h2)
            · exact Or.inr (by simpa [hj] using h.2)

/-- C7: a call of `trySendNextLine` that transmits a packet transmits the front
of `resendLines` if that list is non-empty; otherwise the front of
`manualCommands` if that queue is non-empty; otherwise the front of
`jobCommands`, and only if `paused` is false. No job command goes out while
`resendLines` or `manualCommands` is non-empty or `paused` is true. Commands
leave both queues at the front only, and the two inject calls add at the
back, so each queue is served first in, first out. -/
theorem trySendNextLine_priority (env : Collaborators τ) (now : Int) (s : Printer τ)
    (c : List Char) :
    PriorityRule env s (trySendNextLine env now s) ∧
    (injectJobCommand s c).jobCommands = s.jobCommands ++ [c] ∧
    ((injectManualCommand env now s c).manualCommands = s.manualCommands ++ [c] ∨
      (injectManualCommand env now s c).manualCommands = (s.manualCommands ++ [c]).tail) :=
  ⟨trySendNextLine_priorityRule env now s, rfl,
    (trySendNextLine_priorityRule env now
      { s with manualCommands := s.manualCommands ++ [c] }).2.2.2.1⟩

/-- C7 at a concrete state: with all three queues filled the packet written is
line 7 from `resendLines`, and the job queue is left alone. -/
theorem trySendNextLine_priority_witness :
    (trySendNextLine sampleCollab 0 busyPrinter).jobCommands = [cmdG28] ∧
    (trySendNextLine sampleCollab 0 busyPrinter).written = [[78, 55, 32, 71, 50, 56, 10]] :=
  ⟨(trySendNextLine_priority sampleCollab 0 busyPrinter []).1.2.1 (Or.inl (by decide)),
    by decide⟩

/-! ## Claims C8 and C9: the `ok` branch -/

theorem findAux_self_append (ident rest : List Char) (idx : Nat) :
    findAux ident (ident ++ rest) idx = some idx := by
  cases h : ident ++ rest with
  | nil =>
    have : ident = [] := (List.append_eq_nil.mp h).1
    simp [findAux, this]
  | cons c cs =>
    have hp : ident.isPrefixOf (c :: cs) = true := by
      rw [← h]
      simp
    simp only [findAux, hp, if_true]

theorem find_self_append (ident rest : List Char) :
    find (ident ++ rest) ident 0 = some 0 := by
  unfold find
  simp [findAux_self_append]

theorem analyseResponse_ok (env : Collaborators τ) (now : Int) (s : Printer τ)
    (res0 rest : List Char) (hok : stripControl res0 = strOk ++ rest)
    (hnr : extract (stripControl res0) strResend = none)
    (hns : startSeen s.garbageCleared (stripControl res0) = false) :
    analyseResponse env now s res0 =
      trySendNextLine env now
        (addResponse env now (okBranch env now (afterStateUpdate env s (stripControl res0)))
          (stripControl res0) 2) := by
  have hf : find (stripControl res0) strOk 0 = some 0 := by
    rw [hok]
    exact find_self_append strOk rest
  unfold analyseResponse dispatch
  simp only [hnr, hf, hns, if_true, Bool.false_eq_true, if_false, afterStateUpdate]

/-- C8, counterexample: in a reachable state with `ignoreNextOk` set, the call
of `analyseResponse` on `ok` writes the queued job command as line 1 to the
transport and changes window, queue and history. -/
theorem ignored_ok_still_sends :
    awaitingIgnoredOk.ignoreNextOk = true ∧ awaitingIgnoredOk.written = [] ∧
    (analyseResponse sampleCollab 2 awaitingIgnoredOk strOk).written =
      [[78, 49, 32, 71, 50, 56, 10]] ∧
    (analyseResponse sampleCollab 2 awaitingIgnoredOk strOk).nackLines = [7] ∧
    ¬ IgnoredOkIsSilent awaitingIgnoredOk
      (analyseResponse sampleCollab 2 awaitingIgnoredOk strOk) := by
  refine ⟨by decide, by decide, by decide, by decide, ?_⟩
  intro h
  exact absurd h.2.2.2.1 (by decide)

/-- C8, amended: when `analyseResponse` receives a line that starts with `ok`,
holds no resend request and triggers no `start` reset while `ignoreNextOk` is
set, the `ok` branch clears `ignoreNextOk`, sets `garbageCleared` and does
nothing else; the call then logs the response with type 2 and ends with the
`trySendNextLine` that closes every call of `analyseResponse`. Flow control
and transport change only through that final send attempt. -/
theorem analyseResponse_ignored_ok (env : Collaborators τ) (now : Int) (s : Printer τ)
    (res0 rest : List Char) (hok : stripControl res0 = strOk ++ rest)
    (hnr : extract (stripControl res0) strResend = none)
    (hns : startSeen s.garbageCleared (stripControl res0) = false)
    (hi : s.ignoreNextOk = true) :
    okBranch env now (afterStateUpdate env s (stripControl res0)) =
      { afterStateUpdate env s (stripControl res0) with
        garbageCleared := true, ignoreNextOk := false } ∧
    analyseResponse env now s res0 =
      trySendNextLine env now
        (addResponse env now
          { afterStateUpdate env s (stripControl res0) with
            garbageCleared := true, ignoreNextOk := false }
          (stripControl res0) 2) := by
  have hb : okBranch env now (afterStateUpdate env s (stripControl res0)) =
      { afterStateUpdate env s (stripControl res0) with
        garbageCleared := true, ignoreNextOk := false } := by
    unfold okBranch
    simp [afterStateUpdate, hi]
  exact ⟨hb, by rw [analyseResponse_ok env now s res0 rest hok hnr hns, hb]⟩

/-- C8 at the state of the counterexample: the call is the final send attempt
applied to the state with the flag cleared and the response logged. -/
theorem analyseResponse_ignored_ok_witness :
    analyseResponse sampleCollab 2 awaitingIgnoredOk strOk =
      trySendNextLine sampleCollab 2
        (addResponse sampleCollab 2
          { afterStateUpdate sampleCollab awaitingIgnoredOk (stripControl strOk) with
            garbageCleared := true, ignoreNextOk := false }
          (stripControl strOk) 2) :=
  (analyseResponse_ignored_ok sampleCollab 2 awaitingIgnoredOk strOk [] (by decide)
    (by decide) (by decide) (by decide)).2

theorem trySendPacket_fill_mono (env : Collaborators τ) (now : Int) (s : Printer τ)
    (dp : GCodeDataPacket) (gc : GCode) :
    s.receiveCacheFill ≤ (trySendPacket env now s dp gc).1.receiveCacheFill := by
  unfold trySendPacket
  split
  · cases hp : s.pingpong <;> simp [addResponse, hp]
  · exact le_refl _

theorem trySendNextLine_fill_mono (env : Collaborators τ) (now : Int) (s : Printer τ) :
    s.receiveCacheFill ≤ (trySendNextLine env now s).receiveCacheFill := by
  have h := trySendNextLine_onWindow (fun _ _ f _ => s.receiveCacheFill ≤ f) env now
    (fun t dp gc ht => le_trans ht (trySendPacket_fill_mono env now t dp gc)) s (le_refl _)
  exact h

theorem trySendPacket_resendError (env : Collaborators τ) (now : Int) (s : Printer τ)
    (dp : GCodeDataPacket) (gc : GCode) :
    (trySendPacket env now s dp gc).1.resendError = s.resendError := by
  unfold trySendPacket
  split
  · cases hp : s.pingpong <;> simp [addResponse, hp]
  · rfl

theorem sendManual_resendError (env : Collaborators τ) (now : Int) (s : Printer τ)
    (cmd : List Char) (rest : List (List Char)) :
    (sendManual env now s cmd rest).resendError = s.resendError := by
  unfold sendManual
  dsimp only
  split_ifs <;> simp [trySendPacket_resendError]

theorem sendJob_resendError (env : Collaborators τ) (now : Int) (s : Printer τ)
    (cmd : List Char) (rest : List (List Char)) :
    (sendJob env now s cmd rest).resendError = s.resendError := by
  unfold sendJob
  dsimp only
  split_ifs <;> simp [trySendPacket_resendError]

theorem trySendNextLine_resendError_zero (env : Collaborators τ) (now : Int)
    (s : Printer τ) (h : s.resendError = 0) :
    (trySendNextLine env now s).resendError = 0 := by
  have hd : dropResendError s = s := by
    unfold dropResendError
    rw [if_neg (by omega)]
  unfold trySendNextLine
  split_ifs
  · exact h
  · exact h
  · exact h
  · split
    · rw [trySendPacket_resendError]
      exact h
    · rw [hd]
      unfold sendQueued
      split
      · rw [sendManual_resendError]
        exact h
      · split
        · split_ifs
          · exact h
          · rw [sendJob_resendError]
            exact h
        · exact h

/-- C9, counterexample: the response `ok Resend:9` starts with `ok` and is not
ignored, yet the resend branch is taken and the `ok` branch is not. On a
freshly constructed cache-window printer the call returns with `resendError`
at 1, not 0. With packets of 8 and 7 bytes in flight the whole window is
emptied, not only its oldest entry, the fill counter drops from 15 to 0,
`resendError` is 1, and the call then blocks on `sendMutex`. -/
theorem ok_with_resend_clears_window :
    find okResend9 strOk 0 = some 0 ∧
    (samplePrinter false 63).pingpong = false ∧ (samplePrinter false 63).ignoreNextOk = false ∧
    (analyseResponseLocked sampleCollab 0 (samplePrinter false 63) okResend9).isBlocked = false ∧
    (analyseResponseLocked sampleCollab 0 (samplePrinter false 63) okResend9).state.resendError
      = 1 ∧
    (analyseResponse sampleCollab 0 (samplePrinter false 63) okResend9).resendError = 1 ∧
    twoInFlight.pingpong = false ∧ twoInFlight.ignoreNextOk = false ∧
    twoInFlight.nackLines = [8, 7] ∧ twoInFlight.receiveCacheFill = 15 ∧
    (analyseResponseLocked sampleCollab 3 twoInFlight okResend9).isBlocked = true ∧
    (analyseResponseLocked sampleCollab 3 twoInFlight okResend9).state.nackLines = [] ∧
    (analyseResponseLocked sampleCollab 3 twoInFlight okResend9).state.receiveCacheFill = 0 ∧
    (analyseResponseLocked sampleCollab 3 twoInFlight okResend9).state.resendError = 1 ∧
    (analyseResponse sampleCollab 3 twoInFlight okResend9).nackLines = [] := by
  refine ⟨by decide, by decide, by decide, by decide, by decide, by decide, by decide,
    by decide, by decide, by decide, by decide, by decide, by decide, by decide, by decide⟩

/-- C9, amended: in cache-window mode a line that starts with `ok`, is not
ignored, holds no resend request (the test for `Resend:` comes first and
excludes the `ok` branch) and triggers no `start` reset is handled by a call
that returns; it removes the oldest entry of `nackLines` and lowers
`receiveCacheFill` by its length (an empty window is left as it is), resets
`resendError` to 0, and only then attempts the follow-up sends, after which
`resendError` is still 0. With `receiveCacheFill` equal to the sum of the
window the counter is not negative after the removal nor at the end of the
call. -/
theorem analyseResponse_ok_acknowledges (env : Collaborators τ) (now : Int) (s : Printer τ)
    (res0 rest : List Char) (hok : stripControl res0 = strOk ++ rest)
    (hnr : extract (stripControl res0) strResend = none)
    (hns : startSeen s.garbageCleared (stripControl res0) = false)
    (hp : s.pingpong = false) (hi : s.ignoreNextOk = false) :
    analyseResponseLocked env now s res0 = .returned (analyseResponse env now s res0) ∧
    analyseResponse env now s res0 =
      trySendNextLine env now
        (addResponse env now
          (trySendNextLine env now
            { ackOldest (afterStateUpdate env s (stripControl res0)) with
              garbageCleared := true, resendError := 0 })
          (stripControl res0) 2) ∧
    (analyseResponse env now s res0).resendError = 0 ∧
    (s.nackLines = [] →
      (ackOldest (afterStateUpdate env s (stripControl res0))).nackLines = [] ∧
      (ackOldest (afterStateUpdate env s (stripControl res0))).receiveCacheFill =
        s.receiveCacheFill) ∧
    (∀ len w, s.nackLines = len :: w →
      (ackOldest (afterStateUpdate env s (stripControl res0))).nackLines = w ∧
      (ackOldest (afterStateUpdate env s (stripControl res0))).receiveCacheFill =
        s.receiveCacheFill - (len : Int)) ∧
    (s.receiveCacheFill = ((s.nackLines.sum : Nat) : Int) →
      0 ≤ (ackOldest (afterStateUpdate env s (stripControl res0))).receiveCacheFill ∧
      0 ≤ (analyseResponse env now s res0).receiveCacheFill) := by
  have hb : okBranch env now (afterStateUpdate env s (stripControl res0)) =
      trySendNextLine env now
        { ackOldest (afterStateUpdate env s (stripControl res0)) with
          garbageCleared := true, resendError := 0 } := by
    unfold okBranch ackOldest
    cases hn : s.nackLines <;> simp [afterStateUpdate, hi, hp, hn]
  have heq := analyseResponse_ok env now s res0 rest hok hnr hns
  rw [hb] at heq
  have hnil : s.nackLines = [] →
      (ackOldest (afterStateUpdate env s (stripControl res0))).nackLines = [] ∧
      (ackOldest (afterStateUpdate env s (stripControl res0))).receiveCacheFill =
        s.receiveCacheFill := by
    intro hn
    simp [ackOldest, afterStateUpdate, hn]
  have hcons : ∀ len w, s.nackLines = len :: w →
      (ackOldest (afterStateUpdate env s (stripControl res0))).nackLines = w ∧
      (ackOldest (afterStateUpdate env s (stripControl res0))).receiveCacheFill =
        s.receiveCacheFill - (len : Int) := by
    intro len w hn
    simp [ackOldest, afterStateUpdate, hn]
  have hpos : s.receiveCacheFill = ((s.nackLines.sum : Nat) : Int) →
      0 ≤ (ackOldest (afterStateUpdate env s (stripControl res0))).receiveCacheFill := by
    intro hsum
    cases hn : s.nackLines with
    | nil =>
      rw [(hnil hn).2, hsum]
      exact Int.natCast_nonneg _
    | cons len w =>
      have hw : (0 : Int) ≤ ((w.sum : Nat) : Int) := Int.natCast_nonneg _
      rw [(hcons len w hn).2, hsum, hn, List.sum_cons, Nat.cast_add]
      omega
  have hzero : (analyseResponse env now s res0).resendError = 0 := by
    rw [heq]
    refine trySendNextLine_resendError_zero env now _ ?_
    show (trySendNextLine env now _).resendError = 0
    exact trySendNextLine_resendError_zero env now _ rfl
  refine ⟨analyseResponseLocked_of_no_resend env now s res0 hnr, heq, hzero, hnil, hcons,
    fun hsum => ⟨hpos hsum, ?_⟩⟩
  rw [heq]
  refine le_trans ?_ (trySendNextLine_fill_mono env now _)
  show 0 ≤ (trySendNextLine env now _).receiveCacheFill
  refine le_trans ?_ (trySendNextLine_fill_mono env now _)
  exact hpos hsum

/-- C9 at a concrete state: of the window `[8, 7]` an `ok` leaves `[7]` and a
fill of 7, and the call returns. -/
theorem analyseResponse_ok_acknowledges_witness :
    twoInFlight.nackLines = [8, 7] ∧ twoInFlight.receiveCacheFill = 15 ∧
    (analyseResponseLocked sampleCollab 3 twoInFlight strOk).isBlocked = false ∧
    (analyseResponse sampleCollab 3 twoInFlight strOk).nackLines = [7] ∧
    (analyseResponse sampleCollab 3 twoInFlight strOk).receiveCacheFill = 7 ∧
    (analyseResponse sampleCollab 3 twoInFlight strOk).resendError = 0 ∧
    0 ≤ (analyseResponse sampleCollab 3 twoInFlight strOk).receiveCacheFill :=
  ⟨by decide, by decide, by decide, by decide, by decide,
    (analyseResponse_ok_acknowledges sampleCollab 3 twoInFlight strOk [] (by decide)
      (by decide) (by decide) (by decide) (by decide)).2.2.1,
    ((analyseResponse_ok_acknowledges sampleCollab 3 twoInFlight strOk [] (by decide)
      (by decide) (by decide) (by decide) (by decide)).2.2.2.2.2 (by decide)).2⟩

/-! ## Claim C10: nothing is sent before the garbage is cleared -/

theorem trySendNextLine_blocked (env : Collaborators τ) (now : Int) (s : Printer τ)
    (h : s.garbageCleared = false) : trySendNextLine env now s = s := by
  unfold trySendNextLine
  simp [h]

theorem resendLine_garbageCleared (env : Collaborators τ) (now : Int) (s : Printer τ)
    (line : Nat) (h : s.garbageCleared = false) :
    (resendLine env now s line).garbageCleared = false := by
  have hp : (resendPrologue s).garbageCleared = false := by
    unfold resendPrologue
    dsimp only
    split_ifs <;> simpa using h
  unfold resendLine
  dsimp only
  split_ifs
  · simpa [close] using hp
  · rw [trySendNextLine_blocked env now _ (by simpa using hp)]
    simpa using hp
  · rw [trySendNextLine_blocked env now _ (by simpa using hp)]
    simpa using hp

theorem waitBranch_garbageCleared (now : Int) (s : Printer τ) :
    (waitBranch now s).garbageCleared = s.garbageCleared := by
  unfold waitBranch
  dsimp only
  split_ifs <;> rfl

theorem injectManualCommand_blocked (env : Collaborators τ) (now : Int) (s : Printer τ)
    (c : List Char) (h : s.garbageCleared = false) :
    injectManualCommand env now s c = { s with manualCommands := s.manualCommands ++ [c] } := by
  unfold injectManualCommand
  exact trySendNextLine_blocked env now _ (by simpa using h)

theorem runIteration_blocked (env : Collaborators τ) (now : Int) (s : Printer τ)
    (loop : Nat) (connectOk : Bool) (h : s.garbageCleared = false) :
    runIteration env now s loop connectOk = idleRound s loop connectOk := by
  unfold runIteration idleRound
  dsimp only
  by_cases hc : (!s.connected) = true
  · rw [if_pos hc, if_pos hc, trySendNextLine_blocked env now _ (by simpa using h)]
  · rw [if_neg hc, if_neg hc, injectManualCommand_blocked env now s _ h]
    by_cases h5 : s.manualCommands.length + 1 < 5
    · simp only [List.length_append, List.length_singleton, h5, if_true]
      rw [injectManualCommand_blocked env now _ _ (by simpa using h)]
      exact trySendNextLine_blocked env now _ (by simpa using h)
    · simp only [List.length_append, List.length_singleton, h5, if_false, List.append_nil]
      exact trySendNextLine_blocked env now _ (by simpa using h)

/-- C10: while `garbageCleared` is false no command is sent. `trySendNextLine`
returns at once and changes nothing; `injectManualCommand` and
`injectJobCommand` only add the command at the back of their queue; a round of
`run` only attempts to connect or queues its commands, so that no packet is
written and history, window, fill counter and line number stay as they are.
`garbageCleared` becomes true only by `analyseResponse`, on a line that starts
with `ok` or that triggers the `start` reset. -/
theorem no_send_before_garbageCleared (env : Collaborators τ) (now : Int) (s : Printer τ)
    (c : List Char) (loop : Nat) (connectOk : Bool) (h : s.garbageCleared = false) :
    trySendNextLine env now s = s ∧
    injectManualCommand env now s c = { s with manualCommands := s.manualCommands ++ [c] } ∧
    injectJobCommand s c = { s with jobCommands := s.jobCommands ++ [c] } ∧
    ((runIteration env now s loop connectOk).written = s.written ∧
      (runIteration env now s loop connectOk).history = s.history ∧
      (runIteration env now s loop connectOk).nackLines = s.nackLines ∧
      (runIteration env now s loop connectOk).receiveCacheFill = s.receiveCacheFill ∧
      (runIteration env now s loop connectOk).state = s.state ∧
      (runIteration env now s loop connectOk).jobCommands = s.jobCommands ∧
      s.manualCommands <+: (runIteration env now s loop connectOk).manualCommands) ∧
    (∀ op : Op, (step env s op).garbageCleared = true →
      ∃ t res, op = Op.response t res ∧
        (strOk <+: stripControl res ∨ startSeen false (stripControl res) = true)) := by
  refine ⟨trySendNextLine_blocked env now s h, injectManualCommand_blocked env now s c h,
    rfl, ?_, ?_⟩
  · rw [runIteration_blocked env now s loop connectOk h]
    unfold idleRound
    split_ifs
    · simp
    · refine ⟨rfl, rfl, rfl, rfl, rfl, rfl, ?_⟩
      simp only [List.append_assoc]
      exact List.prefix_append _ _
    · refine ⟨rfl, rfl, rfl, rfl, rfl, rfl, ?_⟩
      simp only [List.append_assoc]
      exact List.prefix_append _ _
  · intro op hop
    cases op with
    | injectManual t cmd =>
      simp only [step] at hop
      rw [injectManualCommand_blocked env t s cmd h] at hop
      simp [h] at hop
    | injectJob cmd =>
      simp [step, injectJobCommand, h] at hop
    | trySend t =>
      simp only [step] at hop
      rw [trySendNextLine_blocked env t s h, h] at hop
      exact absurd hop (by decide)
    | tick t lp ok =>
      simp only [step] at hop
      rw [runIteration_blocked env t s lp ok h] at hop
      unfold idleRound at hop
      split_ifs at hop <;> simp [h] at hop
    | response t res =>
      refine ⟨t, res, rfl, ?_⟩
      by_contra hcon
      rw [not_or] at hcon
      obtain ⟨hnok, hnst⟩ := hcon
      simp only [Bool.not_eq_true] at hnst
      have hfind : ¬ find (stripControl res) strOk 0 = some 0 := by
        intro hf
        apply hnok
        unfold find at hf
        simp only [Nat.not_lt_zero, if_false, List.drop_zero, gt_iff_lt] at hf
        cases hr : stripControl res with
        | nil =>
          rw [hr] at hf
          simp [findAux, strOk] at hf
        | cons x xs =>
          rw [hr] at hf
          simp only [findAux] at hf
          by_cases hpre : strOk.isPrefixOf (x :: xs) = true
          · exact List.isPrefixOf_iff_prefix.mp hpre
          · rw [if_neg hpre] at hf
            have : ∀ (l : List Char) (i j : Nat), findAux strOk l i = some j → i ≤ j := by
              intro l
              induction l with
              | nil => intro i j hij; simp [findAux, strOk] at hij
              | cons y ys ih =>
                intro i j hij
                simp only [findAux] at hij
                split_ifs at hij
                · simp at hij; omega
                · have := ih (i + 1) j hij
                  omega
            have := this xs 1 0 hf
            omega
      simp only [step] at hop
      unfold analyseResponse at hop
      dsimp only at hop
      have hst : startSeen s.garbageCleared (stripControl res) = false := by
        rw [h]
        exact hnst
      rw [hst] at hop
      simp only [Bool.false_eq_true, if_false] at hop
      have hd : (dispatch env t { s with state := (env.stateAnalyseResponse s.state
          (stripControl res) 4).1 } (stripControl res)
          (env.stateAnalyseResponse s.state (stripControl res) 4).2).1.garbageCleared = false := by
        unfold dispatch
        split
        · exact resendLine_garbageCleared env t _ _ (by simpa using h)
        · rw [if_neg hfind]
          split_ifs
          · rw [waitBranch_garbageCleared]
            simpa using h
          · simpa using h
      rw [trySendNextLine_blocked env t _ (by simpa [addResponse] using hd)] at hop
      simp only [addResponse] at hop
      rw [hd] at hop
      exact absurd hop (by decide)

/-- C10 at the printer that has not heard the firmware yet: a command handed
to `injectManualCommand` is queued and stays queued. -/
theorem no_send_before_garbageCleared_witness :
    (samplePrinter false 63).garbageCleared = false ∧
    (injectManualCommand sampleCollab 0 (samplePrinter false 63) cmdM105).manualCommands =
      [cmdM105] ∧
    (injectManualCommand sampleCollab 0 (samplePrinter false 63) cmdM105).written = [] :=
  ⟨rfl,
    congrArg Printer.manualCommands
      (no_send_before_garbageCleared sampleCollab 0 (samplePrinter false 63) cmdM105 1 true
        rfl).2.1,
    congrArg Printer.written
      (no_send_before_garbageCleared sampleCollab 0 (samplePrinter false 63) cmdM105 1 true
        rfl).2.1⟩

/-! ## Claim C5: resend requests in the response line

First `find` and the search loop of `extract` are characterised, then the
number parser. -/

theorem findAux_some (ident : List Char) :
    ∀ (src : List Char) (idx p : Nat), findAux ident src idx = some p →
      ∃ k, p = idx + k ∧ k ≤ src.length ∧ ident <+: src.drop k ∧
        ∀ j, j < k → ¬ ident <+: src.drop j := by
  intro src
  induction src with
  | nil =>
    intro idx p h
    simp only [findAux] at h
    split_ifs at h with hi
    refine ⟨0, ?_, le_refl _, by simp [hi], fun j hj => absurd hj (Nat.not_lt_zero j)⟩
    simpa using (Option.some.inj h).symm
  | cons c cs ih =>
    intro idx p h
    simp only [findAux] at h
    split_ifs at h with hp
    · refine ⟨0, ?_, Nat.zero_le _, ?_, fun j hj => absurd hj (Nat.not_lt_zero j)⟩
      · simpa using (Option.some.inj h).symm
      · simpa using List.isPrefixOf_iff_prefix.mp hp
    · obtain ⟨k, hk, hlen, hpre, hmin⟩ := ih (idx + 1) p h
      refine ⟨k + 1, by omega, by simp [hlen], by simpa using hpre, ?_⟩
      intro j hj
      cases j with
      | zero =>
        intro hx
        exact hp (List.isPrefixOf_iff_prefix.mpr (by simpa using hx))
      | succ j =>
        simpa using hmin j (by omega)

theorem findAux_none (ident : List Char) :
    ∀ (src : List Char) (idx : Nat), findAux ident src idx = none →
      ∀ j, j ≤ src.length → ¬ ident <+: src.drop j := by
  intro src
  induction src with
  | nil =>
    intro idx h j _
    simp only [findAux] at h
    split_ifs at h with hi
    simpa using hi
  | cons c cs ih =>
    intro idx h j hj
    simp only [findAux] at h
    split_ifs at h with hp
    cases j with
    | zero =>
      intro hx
      exact hp (List.isPrefixOf_iff_prefix.mpr (by simpa using hx))
    | succ j =>
      simpa using ih (idx + 1) h j (by simpa using hj)

theorem find_some (source ident : List Char) (pos p : Nat)
    (h : find source ident pos = some p) :
    pos ≤ p ∧ OccursAt source ident p ∧ ∀ j, pos ≤ j → j < p → ¬ OccursAt source ident j := by
  unfold find at h
  split_ifs at h with hpos
  obtain ⟨k, hk, hlen, hpre, hmin⟩ := findAux_some ident _ _ _ h
  simp only [List.length_drop] at hlen
  simp only [List.drop_drop] at hpre hmin
  refine ⟨by omega, ⟨by omega, ?_⟩, ?_⟩
  · rw [hk]
    simpa [Nat.add_comm] using hpre
  · intro j hj hjp hocc
    have := hmin (j - pos) (by omega)
    apply this
    have hcomm : pos + (j - pos) = j := by omega
    rw [hcomm]
    exact hocc.2

theorem find_none (source ident : List Char) (pos : Nat)
    (h : find source ident pos = none) :
    ∀ j, pos ≤ j → ¬ OccursAt source ident j := by
  intro j hj hocc
  unfold find at h
  split_ifs at h with hpos
  · have := hocc.1
    omega
  · have := findAux_none ident _ _ h (j - pos) (by simp only [List.length_drop]; have := hocc.1; omega)
    apply this
    simp only [List.drop_drop]
    have hcomm : pos + (j - pos) = j := by omega
    rw [hcomm]
    exact hocc.2

theorem extractLoop_spec (source ident : List Char) :
    ∀ (fuel pos : Nat), pos ≤ source.length →
      (∀ j, j < searchFrom pos → ¬ ValidAt source ident j) →
      (∀ p, extractLoop source ident fuel pos = some (some p) →
        ValidAt source ident p ∧ ∀ j, j < p → ¬ ValidAt source ident j) ∧
      (extractLoop source ident fuel pos = some none → ∀ j, ¬ ValidAt source ident j) ∧
      (source.length + 2 ≤ fuel + searchFrom pos →
        extractLoop source ident fuel pos ≠ none) := by
  intro fuel
  induction fuel with
  | zero =>
    intro pos hpos _
    refine ⟨fun p h => ?_, fun h => ?_, fun h => ?_⟩
    · simp [extractLoop] at h
    · simp [extractLoop] at h
    · unfold searchFrom at h
      split_ifs at h <;> omega
  | succ fuel ih =>
    intro pos hpos hbefore
    have hunf : extractLoop source ident (fuel + 1) pos =
        match find source ident (searchFrom pos) with
        | none => some none
        | some p =>
          if p = 0 then some (some 0)
          else if source.get? (p - 1) ≠ some space then extractLoop source ident fuel p
          else some (some p) := rfl
    rw [hunf]
    cases hf : find source ident (searchFrom pos) with
    | none =>
      refine ⟨fun p h => ?_, fun _ j hv => ?_, fun _ h => ?_⟩
      · simp at h
      · by_cases hj : j < searchFrom pos
        · exact hbefore j hj hv
        · exact find_none source ident _ hf j (by omega) hv.1
      · simp at h
    | some q =>
      obtain ⟨hge, hocc, hmin⟩ := find_some source ident _ q hf
      have hnone : ∀ j, j < q → ¬ ValidAt source ident j := by
        intro j hj hv
        by_cases hj2 : j < searchFrom pos
        · exact hbefore j hj2 hv
        · exact hmin j (by omega) hj hv.1
      dsimp only
      by_cases hq0 : q = 0
      · rw [if_pos hq0]
        refine ⟨fun p h => ?_, fun h => ?_, fun _ h => ?_⟩
        · have hp : p = 0 := by
            have := Option.some.inj (Option.some.inj h)
            omega
          subst hp
          subst hq0
          exact ⟨⟨hocc, Or.inl rfl⟩, fun j hj => absurd hj (Nat.not_lt_zero j)⟩
        · simp at h
        · simp at h
      · rw [if_neg hq0]
        by_cases hsp : source.get? (q - 1) ≠ some space
        · rw [if_pos hsp]
          have hq1 : searchFrom q = q + 1 := by
            unfold searchFrom
            rw [if_pos (by omega)]
          have hrec := ih q hocc.1 (by
            intro j hj hv
            rw [hq1] at hj
            by_cases hjq : j < q
            · exact hnone j hjq hv
            · have hjeq : j = q := by omega
              subst hjeq
              rcases hv.2 with h0 | h1
              · exact hq0 h0
              · exact hsp h1)
          refine ⟨hrec.1, hrec.2.1, fun hfuel => hrec.2.2 ?_⟩
          rw [hq1]
          omega
        · rw [if_neg hsp]
          refine ⟨fun p h => ?_, fun h => ?_, fun _ h => ?_⟩
          · have hp : p = q := by
              have := Option.some.inj (Option.some.inj h)
              omega
            subst hp
            exact ⟨⟨hocc, Or.inr (by simpa using hsp)⟩, hnone⟩
          · simp at h
          · simp at h

/-- The search loop of `extract` ends within `source.length + 2` rounds. -/
theorem extractLoop_enough_fuel (source ident : List Char) :
    extractLoop source ident (source.length + 2) 0 ≠ none :=
  (extractLoop_spec source ident (source.length + 2) 0 (Nat.zero_le _)
    (fun j hj => absurd hj (by simp [searchFrom]))).2.2 (by simp [searchFrom])

theorem scanEnd_eq (l : List Char) (start : Nat) :
    scanEnd l start = start + (l.takeWhile fun c => decide (c ≠ space)).length := by
  induction l generalizing start with
  | nil => simp [scanEnd]
  | cons c cs ih =>
    by_cases hc : c = space
    · simp [scanEnd, hc]
    · have hd : decide (c ≠ space) = true := by simpa using hc
      rw [List.takeWhile_cons, hd]
      simp only [scanEnd, ne_eq, hc, not_false_eq_true, if_true, ih, List.length_cons]
      omega

theorem take_length_takeWhile (f : Char → Bool) (l : List Char) :
    l.take (l.takeWhile f).length = l.takeWhile f := by
  induction l with
  | nil => simp
  | cons c cs ih =>
    cases hf : f c
    · simp [List.takeWhile_cons, hf]
    · simp [List.takeWhile_cons, hf, ih]

theorem extract_of_validAt (source ident : List Char) (p : Nat)
    (hv : ValidAt source ident p) (hmin : ∀ j, j < p → ¬ ValidAt source ident j) :
    extract source ident = some (valueAt source ident p) := by
  have hs := extractLoop_spec source ident (source.length + 2) 0 (Nat.zero_le _)
    (fun j hj => absurd hj (by simp [searchFrom]))
  have hfuel := extractLoop_enough_fuel source ident
  cases hl : extractLoop source ident (source.length + 2) 0 with
  | none => exact absurd hl hfuel
  | some r =>
    cases r with
    | none => exact absurd hv (hs.2.1 hl p)
    | some q =>
      obtain ⟨hvq, hminq⟩ := hs.1 q hl
      have hpq : q = p := by
        rcases Nat.lt_trichotomy q p with h | h | h
        · exact absurd hvq (hmin q h)
        · exact h
        · exact absurd hv (hminq p h)
      subst hpq
      unfold extract
      rw [hl]
      simp only [valueAt, scanEnd_eq, Nat.add_sub_cancel_left, Option.some.injEq]
      exact take_length_takeWhile _ _

theorem extract_none_of_no_validAt (source ident : List Char)
    (h : ∀ j, ¬ ValidAt source ident j) : extract source ident = none := by
  have hs := extractLoop_spec source ident (source.length + 2) 0 (Nat.zero_le _)
    (fun j hj => absurd hj (by simp [searchFrom]))
  cases hl : extractLoop source ident (source.length + 2) 0 with
  | none => unfold extract; rw [hl]
  | some r =>
    cases r with
    | none => unfold extract; rw [hl]
    | some q => exact absurd (hs.1 q hl).1 (h q)

theorem toNat_digit (k : Nat) (hk : k < 10) : (Char.ofNat (48 + k)).toNat = 48 + k := by
  interval_cases k <;> rfl

theorem atoiDigits_append (ds rest : List Char) (acc : Nat) (hd : ∀ c ∈ ds, IsDigit c) :
    atoiDigits (ds ++ rest) acc =
      atoiDigits rest (ds.foldl (fun a c => a * 10 + (c.toNat - 48)) acc) := by
  induction ds generalizing acc with
  | nil => rfl
  | cons d ds ih =>
    have h1 : 48 ≤ d.toNat ∧ d.toNat ≤ 57 := hd d (List.mem_cons_self d ds)
    simp only [List.cons_append, atoiDigits, h1, and_self, if_true, List.foldl_cons]
    exact ih _ (fun c hc => hd c (List.mem_cons_of_mem d hc))

theorem decimalAux_spec :
    ∀ (fuel n : Nat) (acc : List Char), n < 10 ^ (fuel + 1) →
      ∃ ds, decimalAux (fuel + 1) n acc = ds ++ acc ∧ ds ≠ [] ∧ (∀ c ∈ ds, IsDigit c) ∧
        ds.foldl (fun a c => a * 10 + (c.toNat - 48)) 0 = n := by
  intro fuel
  induction fuel with
  | zero =>
    intro n acc h
    have hn : n < 10 := by simpa using h
    have hdig : IsDigit (Char.ofNat (48 + n % 10)) := by
      unfold IsDigit
      rw [toNat_digit _ (Nat.mod_lt n (by decide))]
      omega
    have h0 : n / 10 = 0 := by omega
    refine ⟨[Char.ofNat (48 + n % 10)], ?_, by simp, ?_, ?_⟩
    · simp [decimalAux, h0]
    · intro c hc
      rw [List.mem_singleton.mp hc]
      exact hdig
    · simp only [List.foldl_cons, List.foldl_nil, Nat.zero_mul, Nat.zero_add]
      rw [toNat_digit _ (Nat.mod_lt n (by decide))]
      omega
  | succ fuel ih =>
    intro n acc h
    have hm : n % 10 < 10 := Nat.mod_lt n (by decide)
    have hdig : IsDigit (Char.ofNat (48 + n % 10)) := by
      unfold IsDigit
      rw [toNat_digit _ hm]
      omega
    by_cases h0 : n / 10 = 0
    · refine ⟨[Char.ofNat (48 + n % 10)], ?_, by simp, ?_, ?_⟩
      · simp [decimalAux, h0]
      · intro c hc
        rw [List.mem_singleton.mp hc]
        exact hdig
      · simp only [List.foldl_cons, List.foldl_nil, Nat.zero_mul, Nat.zero_add]
        rw [toNat_digit _ hm]
        omega
    · have hlt : n / 10 < 10 ^ (fuel + 1) := by
        rw [pow_succ] at h
        exact Nat.div_lt_of_lt_mul (by rw [Nat.mul_comm]; exact h)
      obtain ⟨ds, hds, _, hall, hval⟩ := ih (n / 10) (Char.ofNat (48 + n % 10) :: acc) hlt
      refine ⟨ds ++ [Char.ofNat (48 + n % 10)], ?_, by simp, ?_, ?_⟩
      · have hunf : decimalAux (fuel + 1 + 1) n acc =
            decimalAux (fuel + 1) (n / 10) (Char.ofNat (48 + n % 10) :: acc) := by
          simp only [decimalAux, h0, if_false]
        rw [hunf, hds]
        simp
      · intro c hc
        rcases List.mem_append.mp hc with hc | hc
        · exact hall c hc
        · rw [List.mem_singleton.mp hc]
          exact hdig
      · rw [List.foldl_append, hval]
        simp only [List.foldl_cons, List.foldl_nil]
        rw [toNat_digit _ hm]
        omega

theorem decimal_spec (n : Nat) :
    decimal n ≠ [] ∧ (∀ c ∈ decimal n, IsDigit c) ∧
      (decimal n).foldl (fun a c => a * 10 + (c.toNat - 48)) 0 = n := by
  have hlt : n < 10 ^ (n + 1) :=
    lt_of_lt_of_le (Nat.lt_pow_self (by decide) n) (Nat.pow_le_pow_right (by decide) (by omega))
  obtain ⟨ds, hds, hne, hall, hval⟩ := decimalAux_spec n n [] hlt
  have : decimal n = ds := by
    unfold decimal
    rw [hds, List.append_nil]
  rw [this]
  exact ⟨hne, hall, hval⟩

/-- The number parser reads back what the decimal printer wrote. -/
theorem atoi_decimal (n : Nat) : atoi (decimal n) = (n : Int) := by
  obtain ⟨hne, hall, hval⟩ := decimal_spec n
  cases hd : decimal n with
  | nil => exact absurd hd hne
  | cons c cs =>
    have hc : IsDigit c := hall c (by rw [hd]; exact List.mem_cons_self c cs)
    have hsp : isSpaceC c = false := by
      unfold IsDigit at hc
      simp only [isSpaceC, Bool.or_eq_false_iff, decide_eq_false_iff_not, Bool.and_eq_false_imp,
        decide_eq_true_eq]
      constructor <;> omega
    have hminus : c ≠ '-' := by
      intro h
      rw [h] at hc
      exact absurd hc (by unfold IsDigit; decide)
    have hplus : c ≠ '+' := by
      intro h
      rw [h] at hc
      exact absurd hc (by unfold IsDigit; decide)
    have hv : atoiDigits (c :: cs) 0 = n := by
      have := atoiDigits_append (c :: cs) [] 0 (by rw [← hd]; exact hall)
      rw [List.append_nil] at this
      rw [this, ← hd, hval]
      rfl
    unfold atoi
    simp only [List.dropWhile_cons, hsp, Bool.false_eq_true, if_false, hminus, hplus, hv]

theorem toSizeT_natCast (n : Nat) (h : n < 2 ^ 64) : toSizeT (n : Int) = n := by
  unfold toSizeT
  have : ((n : Int) % (2 ^ 64 : Int)) = (n : Int) :=
    Int.emod_eq_of_lt (Int.natCast_nonneg n) (by exact_mod_cast h)
  rw [this]
  exact Int.toNat_natCast n

theorem takeWhile_value (val tail : List Char) (hval : ∀ c ∈ val, c ≠ space)
    (htail : tail = [] ∨ tail.head? = some space) :
    (val ++ tail).takeWhile (fun c => decide (c ≠ space)) = val := by
  induction val with
  | nil =>
    rcases htail with h | h
    · simp [h]
    · cases tail with
      | nil => rfl
      | cons t ts =>
        have ht : t = space := by simpa using h
        simp [List.takeWhile_cons, ht]
  | cons v vs ih =>
    have hv : decide (v ≠ space) = true := by
      simpa using hval v (List.mem_cons_self v vs)
    rw [List.cons_append, List.takeWhile_cons, hv]
    simp only [if_true, List.cons.injEq, true_and]
    exact ih (fun c hc => hval c (List.mem_cons_of_mem v hc))

theorem get?_append_cons (a rest : List Char) (x : Char) :
    (a ++ x :: rest).get? a.length = some x := by
  induction a with
  | nil => rfl
  | cons y ys ih => simpa using ih

/-- The value `extract` reads behind the first accepted `Resend:`: the line is
`pre ++ "Resend:" ++ val ++ tail`, the token stands at the start or after a
space, no accepted token stands before it, `val` holds no space and is followed
by a space or the end of the line. -/
theorem extract_resend (res pre val tail : List Char)
    (hres : res = pre ++ strResend ++ val ++ tail)
    (hpre : pre = [] ∨ pre.getLast? = some space)
    (hfirst : ∀ j, j < pre.length → ¬ ValidAt res strResend j)
    (hval : ∀ c ∈ val, c ≠ space)
    (htail : tail = [] ∨ tail.head? = some space) :
    extract res strResend = some val := by
  have hdrop : res.drop pre.length = strResend ++ (val ++ tail) := by
    rw [hres]
    simp [List.append_assoc]
  have hv : ValidAt res strResend pre.length := by
    refine ⟨⟨?_, ?_⟩, ?_⟩
    · rw [hres]
      simp only [List.length_append]
      omega
    · rw [hdrop]
      exact List.prefix_append _ _
    · rcases hpre with h | h
      · left
        rw [h]
        rfl
      · right
        cases hp : pre.reverse with
        | nil =>
          have : pre = [] := by simpa using hp
          rw [this] at h
          simp at h
        | cons x xs =>
          have hpe : pre = xs.reverse ++ [x] := by
            have := congrArg List.reverse hp
            simpa using this
          have hx : x = space := by
            rw [hpe] at h
            simpa using h
          have hlen : pre.length - 1 = xs.reverse.length := by
            rw [hpe]
            simp
          rw [hlen, hres, hpe, hx]
          simp only [List.append_assoc, List.singleton_append]
          exact get?_append_cons _ _ _
  rw [extract_of_validAt res strResend pre.length hv hfirst]
  unfold valueAt
  have hdrop2 : res.drop (pre.length + strResend.length) = val ++ tail := by
    rw [← List.drop_drop, hdrop]
    simp
  rw [hdrop2, takeWhile_value val tail hval htail]

theorem analyseResponse_of_extract (env : Collaborators τ) (now : Int) (s : Printer τ)
    (res0 h : List Char) (hx : extract (stripControl res0) strResend = some h) :
    analyseResponse env now s res0 =
      logAndSend env now
        (resendLine env now (beforeDispatch env s (stripControl res0)) (toSizeT (atoi h)))
        (stripControl res0) (env.stateAnalyseResponse s.state (stripControl res0) 4).2 := by
  unfold analyseResponse dispatch logAndSend beforeDispatch afterStateUpdate
  simp only [hx]

/-- C5, counterexample: on `Resend: 3` the routine `extract` stops at the space
right after the colon and returns the empty text, `atoi` makes 0 of it, and
`resendLine` is called with 0 instead of 3: no line of the history is queued
for resending, where `Resend:3` queues lines 3, 4 and 5. -/
theorem resend_with_space_asks_for_line_zero :
    extract resendSpace3 strResend = some [] ∧
    analyseResponse sampleCollab 11 fiveLinesSent resendSpace3 =
      logAndSend sampleCollab 11
        (resendLine sampleCollab 11 (beforeDispatch sampleCollab fiveLinesSent resendSpace3) 0)
        resendSpace3 4 ∧
    (analyseResponse sampleCollab 11 fiveLinesSent resendSpace3).resendLines = [] ∧
    ((analyseResponse sampleCollab 11 fiveLinesSent (strResend ++ ['3'])).resendLines.map
      fun gc => gc.n) = [3, 4, 5] ∧
    analyseResponse sampleCollab 11 fiveLinesSent resendSpace3 ≠
      logAndSend sampleCollab 11
        (resendLine sampleCollab 11 (beforeDispatch sampleCollab fiveLinesSent resendSpace3) 3)
        resendSpace3 4 := by
  have hx : extract (stripControl resendSpace3) strResend = some [] := by decide
  refine ⟨by decide, analyseResponse_of_extract sampleCollab 11 fiveLinesSent resendSpace3 [] hx,
    by decide, by decide, ?_⟩
  intro h
  have h2 := congrArg (fun t : Printer Unit => t.resendLines.map fun gc => gc.n) h
  exact absurd h2 (by decide)

/-- C5, amended: let the response line (after the leading control characters)
be `pre ++ "Resend:" ++ ...`, where the token stands at the start of the line
or right after a space and no such token stands earlier in the line. If the
decimal digits of `n` follow the colon at once and end at a space or at the end
of the line, `analyseResponse` calls `resendLine` with exactly `n`. If one
space separates colon and number, the extracted text is empty and
`resendLine` is called with 0. -/
theorem analyseResponse_resend (env : Collaborators τ) (now : Int) (s : Printer τ)
    (res0 pre tail : List Char) (n : Nat) (hn : n < 2 ^ 31)
    (hpre : pre = [] ∨ pre.getLast? = some space)
    (hfirst : ∀ j, j < pre.length → ¬ ValidAt (stripControl res0) strResend j)
    (htail : tail = [] ∨ tail.head? = some space) :
    (stripControl res0 = pre ++ strResend ++ decimal n ++ tail →
      analyseResponse env now s res0 =
        logAndSend env now (resendLine env now (beforeDispatch env s (stripControl res0)) n)
          (stripControl res0) (env.stateAnalyseResponse s.state (stripControl res0) 4).2) ∧
    (stripControl res0 = pre ++ strResend ++ (space :: decimal n) ++ tail →
      analyseResponse env now s res0 =
        logAndSend env now (resendLine env now (beforeDispatch env s (stripControl res0)) 0)
          (stripControl res0) (env.stateAnalyseResponse s.state (stripControl res0) 4).2) := by
  constructor
  · intro hres
    have hval : ∀ c ∈ decimal n, c ≠ space := by
      intro c hc hsp
      have hd := (decimal_spec n).2.1 c hc
      rw [hsp] at hd
      exact absurd hd (by unfold IsDigit; decide)
    have hx := extract_resend (stripControl res0) pre (decimal n) tail hres hpre hfirst hval htail
    rw [analyseResponse_of_extract env now s res0 (decimal n) hx, atoi_decimal,
      toSizeT_natCast n (lt_trans hn (by decide))]
  · intro hres
    have hres2 : stripControl res0 = pre ++ strResend ++ [] ++ (space :: (decimal n ++ tail)) := by
      rw [hres]
      simp
    have hx := extract_resend (stripControl res0) pre [] (space :: (decimal n ++ tail)) hres2 hpre
      hfirst (by simp) (Or.inr rfl)
    rw [analyseResponse_of_extract env now s res0 [] hx]
    rfl

/-- C5 at a concrete line: `Resend:3` makes `analyseResponse` call
`resendLine` with 3, which queues lines 3, 4 and 5 of the history. -/
theorem analyseResponse_resend_witness :
    analyseResponse sampleCollab 11 fiveLinesSent (strResend ++ ['3']) =
      logAndSend sampleCollab 11
        (resendLine sampleCollab 11
          (beforeDispatch sampleCollab fiveLinesSent (stripControl (strResend ++ ['3']))) 3)
        (stripControl (strResend ++ ['3']))
        (sampleCollab.stateAnalyseResponse fiveLinesSent.state
          (stripControl (strResend ++ ['3'])) 4).2 :=
  (analyseResponse_resend sampleCollab 11 fiveLinesSent (strResend ++ ['3']) [] [] 3
    (by decide) (Or.inl rfl) (fun j hj => absurd hj (Nat.not_lt_zero j)) (Or.inl rfl)).1
    (by decide)

/-! ## Claims C11 and C12: the response log -/

theorem sinceLoop_eq (resId filter : Nat) (log ret : List PrinterResponse) (lastid : Nat) :
    sinceLoop resId filter log ret lastid =
      (ret ++ log.filter (wanted resId filter),
        match (log.filter (wanted resId filter)).getLast? with
        | some r => r.responseId
        | none => lastid) := by
  induction log generalizing ret lastid with
  | nil => simp [sinceLoop]
  | cons r rs ih =>
    have hunf : sinceLoop resId filter (r :: rs) ret lastid =
        if r.responseId > resId ∧ r.logtype &&& filter ≠ 0 then
          sinceLoop resId filter rs (ret ++ [r]) r.responseId
        else sinceLoop resId filter rs ret lastid := rfl
    rw [hunf]
    by_cases hw : r.responseId > resId ∧ r.logtype &&& filter ≠ 0
    · have hw2 : wanted resId filter r = true := by
        simp only [wanted, Bool.and_eq_true, decide_eq_true_eq]
        exact hw
      rw [if_pos hw, ih, List.filter_cons, if_pos hw2]
      cases hl : (rs.filter (wanted resId filter)) with
      | nil => simp
      | cons x xs =>
        obtain ⟨y, hy⟩ : ∃ y, (x :: xs).getLast? = some y :=
          ⟨(x :: xs).getLast (by simp), List.getLast?_eq_getLast _ _⟩
        simp [List.getLast?_cons_cons, hy]
    · have hw2 : ¬ wanted resId filter r = true := by
        simp only [wanted, Bool.and_eq_true, decide_eq_true_eq]
        exact hw
      rw [if_neg hw, ih, List.filter_cons, if_neg hw2]

theorem pairwise_le_getLast (log : List PrinterResponse) (h : IdsIncreasing log)
    (r : PrinterResponse) (hr : log.getLast? = some r) :
    ∀ e ∈ log, e.responseId ≤ r.responseId := by
  induction log with
  | nil => simp at hr
  | cons x xs ih =>
    intro e he
    cases xs with
    | nil =>
      simp only [List.getLast?_singleton, Option.some.injEq] at hr
      simp only [List.mem_singleton] at he
      rw [he, hr]
    | cons y ys =>
      rw [List.getLast?_cons_cons] at hr
      have hp := List.pairwise_cons.mp h
      have hmem : r ∈ y :: ys := List.mem_of_getLast?_eq_some hr
      rcases List.mem_cons.mp he with he | he
      · rw [he]
        exact Nat.le_of_lt (hp.1 r hmem)
      · exact ih hp.2 hr e he

/-- C11: for a log whose ids grow strictly from front to back, every cursor and
every mask, `getResponsesSince` returns, in log order, exactly the entries with
`responseId > cursor` and `(logtype & mask) != 0`; the returned cursor is the
highest id among the returned entries, or the input cursor when none is
returned. -/
theorem getResponsesSince_spec (s : Printer τ) (resId filter : Nat)
    (h : IdsIncreasing s.responses) :
    (getResponsesSince s resId filter).1 = s.responses.filter (wanted resId filter) ∧
    ((getResponsesSince s resId filter).1 = [] →
      (getResponsesSince s resId filter).2 = resId) ∧
    ((getResponsesSince s resId filter).1 ≠ [] →
      (∃ e ∈ (getResponsesSince s resId filter).1,
        e.responseId = (getResponsesSince s resId filter).2) ∧
      ∀ e ∈ (getResponsesSince s resId filter).1,
        e.responseId ≤ (getResponsesSince s resId filter).2) := by
  have he := sinceLoop_eq resId filter s.responses [] resId
  have h1 : (getResponsesSince s resId filter).1 = s.responses.filter (wanted resId filter) := by
    unfold getResponsesSince
    rw [he]
    simp
  have h2 : (getResponsesSince s resId filter).2 =
      match (s.responses.filter (wanted resId filter)).getLast? with
      | some r => r.responseId
      | none => resId := by
    unfold getResponsesSince
    rw [he]
  refine ⟨h1, ?_, ?_⟩
  · intro hnil
    rw [h2]
    rw [h1] at hnil
    rw [hnil]
    rfl
  · intro hne
    rw [h1] at hne
    rw [h1, h2]
    have hinc : IdsIncreasing (s.responses.filter (wanted resId filter)) :=
      List.Pairwise.sublist (List.filter_sublist _) h
    cases hl : (s.responses.filter (wanted resId filter)).getLast? with
    | none => exact absurd (List.getLast?_eq_none_iff.mp hl) hne
    | some r =>
      exact ⟨⟨r, List.mem_of_getLast?_eq_some hl, rfl⟩,
        pairwise_le_getLast _ hinc r hl⟩

/-- C11 on a log built by three calls of `addResponse`: with cursor 1 and the
mask for sent lines only the third entry is returned and the cursor moves to
its id 3. -/
theorem getResponsesSince_spec_witness :
    IdsIncreasing (pushAll sampleCollab (samplePrinter true 63) samplePushes).responses ∧
    (getResponsesSince (pushAll sampleCollab (samplePrinter true 63) samplePushes) 1 1).1 =
      [{ message := cmdG28, responseId := 3, logtype := 1, time := 2 }] ∧
    (getResponsesSince (pushAll sampleCollab (samplePrinter true 63) samplePushes) 1 1).2 = 3 ∧
    ∀ e ∈ (getResponsesSince (pushAll sampleCollab (samplePrinter true 63) samplePushes) 1 1).1,
      e.responseId ≤
        (getResponsesSince (pushAll sampleCollab (samplePrinter true 63) samplePushes) 1 1).2 :=
  ⟨by unfold IdsIncreasing; decide, by decide, by decide,
    ((getResponsesSince_spec (pushAll sampleCollab (samplePrinter true 63) samplePushes) 1 1
      (by unfold IdsIncreasing; decide)).2.2 (by decide)).2⟩

theorem stampFrom_append (i : Nat) (ps : List Push) (p : Push) :
    stampFrom i (ps ++ [p]) =
      stampFrom i ps ++
        [{ message := p.msg, responseId := i + ps.length, logtype := p.rtype, time := p.time }] := by
  induction ps generalizing i with
  | nil => rfl
  | cons q qs ih =>
    have h1 : i + 1 + qs.length = i + (qs.length + 1) := by omega
    have h2 := ih (i + 1)
    rw [h1] at h2
    simp only [List.cons_append, stampFrom, List.length_cons, List.cons.injEq, true_and]
    exact h2

theorem stampFrom_length (i : Nat) (ps : List Push) : (stampFrom i ps).length = ps.length := by
  induction ps generalizing i with
  | nil => rfl
  | cons q qs ih => simp [stampFrom, ih]

theorem stampFrom_ids (i : Nat) (ps : List Push) :
    (stampFrom i ps).map (fun r => r.responseId) = List.range' i ps.length := by
  induction ps generalizing i with
  | nil => rfl
  | cons q qs ih => simp [stampFrom, ih, List.range'_succ]

theorem drop_range_from (n i len : Nat) :
    (List.range' i len).drop n = List.range' (i + n) (len - n) := by
  induction n generalizing i len with
  | zero => simp
  | succ n ih =>
    cases len with
    | zero => simp
    | succ len =>
      rw [List.range'_succ, List.drop_succ_cons, ih]
      have h1 : i + 1 + n = i + (n + 1) := by omega
      have h2 : len + 1 - (n + 1) = len - n := by omega
      rw [h1, h2]

theorem stampFrom_increasing (i : Nat) (ps : List Push) : IdsIncreasing (stampFrom i ps) := by
  unfold IdsIncreasing
  have h := List.pairwise_lt_range' i ps.length
  rw [← stampFrom_ids i ps] at h
  exact (List.pairwise_map.mp h)

theorem pushAll_concat (env : Collaborators τ) (s : Printer τ) (ps : List Push) (p : Push) :
    pushAll env s (ps ++ [p]) = addResponse env p.time (pushAll env s ps) p.msg p.rtype := by
  unfold pushAll
  rw [List.foldl_append]
  rfl

theorem pushAll_log (env : Collaborators τ) (s : Printer τ)
    (h0 : s.responses = []) (hid : s.lastResponseId = 0) (ps : List Push) :
    ps.length < 2 ^ 32 →
      (pushAll env s ps).responses = (stampFrom 1 ps).drop (ps.length - env.backlogSize) ∧
      (pushAll env s ps).lastResponseId = ps.length := by
  induction ps using List.reverseRecOn with
  | nil =>
    intro _
    exact ⟨by simp [pushAll, h0, stampFrom], by simp [pushAll, hid]⟩
  | append_singleton ps p ih =>
    intro hk
    have hk2 : ps.length + 1 < 2 ^ 32 := by simpa using hk
    obtain ⟨hr, hl⟩ := ih (by omega)
    rw [pushAll_concat]
    have hidv : ((pushAll env s ps).lastResponseId + 1) % 2 ^ 32 = ps.length + 1 := by
      rw [hl]
      exact Nat.mod_eq_of_lt hk2
    have hlen : ((stampFrom 1 ps).drop (ps.length - env.backlogSize)).length =
        ps.length - (ps.length - env.backlogSize) := by
      rw [List.length_drop, stampFrom_length]
    constructor
    · simp only [addResponse, hidv, hr, List.length_append, List.length_singleton, hlen]
      rw [stampFrom_append]
      have hcomm : 1 + ps.length = ps.length + 1 := by omega
      rw [hcomm]
      by_cases hb : ps.length < env.backlogSize
      · have h1 : ps.length - env.backlogSize = 0 := by omega
        have h2 : ps.length + 1 - env.backlogSize = 0 := by omega
        rw [h1, h2, if_neg (by omega)]
        simp
      · have h3 : ps.length - env.backlogSize ≤ (stampFrom 1 ps).length := by
          rw [stampFrom_length]
          omega
        have h4 : ps.length + 1 - env.backlogSize = ps.length - env.backlogSize + 1 := by omega
        rw [if_pos (by omega), h4, ← List.tail_drop, List.drop_append_of_le_length h3]
    · simp only [addResponse, hidv, List.length_append, List.length_singleton]

/-- C12: from an empty response log with `lastResponseId = 0` and a backlog
size `B ≥ 1`, after `k < 2^32` calls of `addResponse` the log holds the last
`min(k, B)` pushed messages in push order with the ids `k − min(k, B) + 1`
to `k`, numbered from 1 on: ids grow strictly, the oldest entries are the ones
dropped, and the log holds at most `B` entries. -/
theorem addResponse_log (env : Collaborators τ) (s : Printer τ) (ps : List Push)
    (h0 : s.responses = []) (hid : s.lastResponseId = 0) (hB : 1 ≤ env.backlogSize)
    (hk : ps.length < 2 ^ 32) :
    (pushAll env s ps).responses =
      (stampFrom 1 ps).drop (ps.length - min ps.length env.backlogSize) ∧
    (pushAll env s ps).responses.map (fun r => r.responseId) =
      List.range' (ps.length - min ps.length env.backlogSize + 1)
        (min ps.length env.backlogSize) ∧
    (pushAll env s ps).responses.length = min ps.length env.backlogSize ∧
    (pushAll env s ps).responses.length ≤ env.backlogSize ∧
    IdsIncreasing (pushAll env s ps).responses ∧
    (pushAll env s ps).lastResponseId = ps.length := by
  obtain ⟨hr, hl⟩ := pushAll_log env s h0 hid ps hk
  have hmin : ps.length - min ps.length env.backlogSize = ps.length - env.backlogSize := by
    omega
  have hlen : (pushAll env s ps).responses.length = min ps.length env.backlogSize := by
    rw [hr, List.length_drop, stampFrom_length]
    omega
  refine ⟨by rw [hmin]; exact hr, ?_, hlen, by rw [hlen]; exact Nat.min_le_right _ _, ?_, hl⟩
  · rw [hr, List.map_drop, stampFrom_ids, drop_range_from, hmin]
    have h1 : 1 + (ps.length - env.backlogSize) = ps.length - env.backlogSize + 1 := by omega
    have h2 : ps.length - (ps.length - env.backlogSize) = min ps.length env.backlogSize := by
      omega
    rw [h1, h2]
  · rw [hr]
    exact List.Pairwise.sublist (List.drop_sublist _ _) (stampFrom_increasing 1 ps)

/-- C12 with a backlog of two: of three pushed messages the log keeps the
second and the third, with the ids 2 and 3. -/
theorem addResponse_log_witness :
    (pushAll smallLogCollab (samplePrinter true 63) samplePushes).responses =
      [{ message := strOk, responseId := 2, logtype := 2, time := 1 },
       { message := cmdG28, responseId := 3, logtype := 1, time := 2 }] :=
  (addResponse_log smallLogCollab (samplePrinter true 63) samplePushes rfl rfl (by decide)
    (by decide)).1.trans (by decide)

/-! ## Claim C13: the bound of the history -/

theorem sendManual_preserves {P : Printer τ → Prop} (hP : QueueBlind P)
    (env : Collaborators τ) (now : Int)
    (hsend : ∀ (s : Printer τ) (dp : GCodeDataPacket) (gc : GCode),
      P s → P (trySendPacket env now s dp gc).1)
    (s : Printer τ) (cmd : List Char) (rest : List (List Char)) (h : P s) :
    P (sendManual env now s cmd rest) := by
  unfold sendManual
  dsimp only
  split_ifs
  · exact hP.manual s rest h
  · exact hP.state _ _ (hP.manual _ rest (hsend _ _ _ (hP.state s _ h)))
  · exact hP.state _ _ (hsend _ _ _ (hP.state s _ h))
  · exact hsend _ _ _ (hP.state s _ h)

theorem sendJob_preserves {P : Printer τ → Prop} (hP : QueueBlind P)
    (env : Collaborators τ) (now : Int)
    (hsend : ∀ (s : Printer τ) (dp : GCodeDataPacket) (gc : GCode),
      P s → P (trySendPacket env now s dp gc).1)
    (s : Printer τ) (cmd : List Char) (rest : List (List Char)) (h : P s) :
    P (sendJob env now s cmd rest) := by
  unfold sendJob
  dsimp only
  split_ifs
  · exact hP.job s rest h
  · exact hP.state _ _ (hP.job _ rest (hsend _ _ _ (hP.state s _ h)))
  · exact hP.state _ _ (hsend _ _ _ (hP.state s _ h))
  · exact hsend _ _ _ (hP.state s _ h)

/-- What `trySendPacket` keeps and the queue bookkeeping cannot disturb is kept
by `trySendNextLine`. -/
theorem trySendNextLine_preserves {P : Printer τ → Prop} (hP : QueueBlind P)
    (env : Collaborators τ) (now : Int)
    (hsend : ∀ (s : Printer τ) (dp : GCodeDataPacket) (gc : GCode),
      P s → P (trySendPacket env now s dp gc).1)
    (s : Printer τ) (h : P s) : P (trySendNextLine env now s) := by
  have h0 : P (dropResendError s) := by
    unfold dropResendError
    split_ifs
    · exact hP.resendError s _ h
    · exact h
  unfold trySendNextLine
  split_ifs
  · exact h
  · exact h
  · exact h
  · split
    · exact hsend _ _ _ h
    · unfold sendQueued
      split
      · exact sendManual_preserves hP env now hsend _ _ _ h0
      · split
        · split_ifs
          · exact h0
          · exact sendJob_preserves hP env now hsend _ _ _ h0
        · exact h0

theorem trySendPacket_history (env : Collaborators τ) (now : Int) (s : Printer τ)
    (dp : GCodeDataPacket) (gc : GCode) (h : (trySendPacket env now s dp gc).2 = true) :
    (trySendPacket env now s dp gc).1.history = pushHistory env s.history gc := by
  unfold trySendPacket at h ⊢
  split
  · cases hp : s.pingpong <;> simp [addResponse, hp, pushHistory]
  · rename_i hc
    rw [if_neg hc] at h
    simp at h

theorem pushHistory_length (env : Collaborators τ) (history : List GCode) (gc : GCode)
    (h : history.length ≤ env.maxHistorySize) :
    (pushHistory env history gc).length ≤ env.maxHistorySize := by
  unfold pushHistory
  split_ifs with hc
  · simp only [List.length_tail, List.length_append, List.length_singleton]
    omega
  · omega

theorem pushHistory_newest (env : Collaborators τ) (history : List GCode) (gc : GCode)
    (h : history.length ≤ env.maxHistorySize) (hpos : 0 < env.maxHistorySize) :
    (pushHistory env history gc).getLast? = some gc := by
  unfold pushHistory
  split_ifs with hc
  · cases history with
    | nil =>
      simp only [List.nil_append, List.length_singleton] at hc
      omega
    | cons x xs => simp
  · simp

theorem historyBounded_queueBlind (env : Collaborators τ) :
    QueueBlind (HistoryBounded env : Printer τ → Prop) where
  state := fun _ _ h => by simpa only [HistoryBounded] using h
  manual := fun _ _ h => by simpa only [HistoryBounded] using h
  job := fun _ _ h => by simpa only [HistoryBounded] using h
  resendError := fun _ _ h => by simpa only [HistoryBounded] using h

theorem trySendPacket_historyBounded (env : Collaborators τ) (now : Int) (s : Printer τ)
    (dp : GCodeDataPacket) (gc : GCode) (h : HistoryBounded env s) :
    HistoryBounded env (trySendPacket env now s dp gc).1 := by
  rcases trySendPacket_written env now s dp gc with hs | hs
  · unfold HistoryBounded
    rw [trySendPacket_history env now s dp gc hs.1]
    exact pushHistory_length env s.history gc h
  · rw [hs.2]
    exact h

theorem trySendNextLine_historyBounded (env : Collaborators τ) (now : Int) (s : Printer τ)
    (h : HistoryBounded env s) : HistoryBounded env (trySendNextLine env now s) :=
  trySendNextLine_preserves (historyBounded_queueBlind env) env now
    (trySendPacket_historyBounded env now) s h

theorem resendLine_historyBounded (env : Collaborators τ) (now : Int) (s : Printer τ)
    (line : Nat) (h : HistoryBounded env s) : HistoryBounded env (resendLine env now s line) := by
  have h3 : HistoryBounded env (resendPrologue s) := by
    unfold HistoryBounded
    rw [(resendPrologue_fields s).2.1]
    exact h
  unfold resendLine
  dsimp only
  split_ifs
  · simpa only [HistoryBounded, close] using h3
  · exact trySendNextLine_historyBounded env now _ (by simpa only [HistoryBounded] using h3)
  · exact trySendNextLine_historyBounded env now _ (by simpa only [HistoryBounded] using h3)

theorem okBranch_historyBounded (env : Collaborators τ) (now : Int) (s : Printer τ)
    (h : HistoryBounded env s) : HistoryBounded env (okBranch env now s) := by
  unfold okBranch
  dsimp only
  split_ifs
  · exact trySendNextLine_historyBounded env now _ (by simpa only [HistoryBounded] using h)
  · refine trySendNextLine_historyBounded env now _ ?_
    cases hn : s.nackLines <;> simpa only [HistoryBounded, hn] using h
  · simpa only [HistoryBounded] using h

theorem waitBranch_history (now : Int) (s : Printer τ) :
    (waitBranch now s).history = s.history := by
  unfold waitBranch
  dsimp only
  split_ifs <;> rfl

theorem dispatch_historyBounded (env : Collaborators τ) (now : Int) (s : Printer τ)
    (res : List Char) (rtype : Nat) (h : HistoryBounded env s) :
    HistoryBounded env (dispatch env now s res rtype).1 := by
  unfold dispatch
  split
  · exact resendLine_historyBounded env now s _ h
  · split_ifs
    · exact okBranch_historyBounded env now s h
    · unfold HistoryBounded
      rw [waitBranch_history]
      exact h
    · exact h

theorem analyseResponse_historyBounded (env : Collaborators τ) (now : Int) (s : Printer τ)
    (res : List Char) (h : HistoryBounded env s) :
    HistoryBounded env (analyseResponse env now s res) := by
  unfold analyseResponse
  dsimp only
  refine trySendNextLine_historyBounded env now _ ?_
  have hd : ∀ (t : Printer τ) (r : Nat), HistoryBounded env t →
      HistoryBounded env (addResponse env now (dispatch env now t (stripControl res) r).1
        (stripControl res) (dispatch env now t (stripControl res) r).2) := by
    intro t r ht
    have := dispatch_historyBounded env now t (stripControl res) r ht
    simpa only [HistoryBounded, addResponse] using this
  apply hd
  split_ifs
  · simp [HistoryBounded, startReset]
  · simpa only [HistoryBounded] using h

/-- C13: `history` never holds more than `MAX_HISTORY_SIZE` entries. The bound
survives `trySendPacket`, `trySendNextLine`, `resendLine` and
`analyseResponse`; a successful `trySendPacket` appends the sent command and
drops the oldest entry when the size would exceed the bound, so that (the
bound being at least 1) the sent command is the newest entry. -/
theorem history_bounded (env : Collaborators τ) (now : Int) (s : Printer τ)
    (dp : GCodeDataPacket) (gc : GCode) (line : Nat) (res : List Char)
    (h : s.history.length ≤ env.maxHistorySize) :
    (trySendPacket env now s dp gc).1.history.length ≤ env.maxHistorySize ∧
    (trySendNextLine env now s).history.length ≤ env.maxHistorySize ∧
    (resendLine env now s line).history.length ≤ env.maxHistorySize ∧
    (analyseResponse env now s res).history.length ≤ env.maxHistorySize ∧
    ((trySendPacket env now s dp gc).2 = true →
      (trySendPacket env now s dp gc).1.history =
        (if (s.history ++ [gc]).length > env.maxHistorySize then (s.history ++ [gc]).tail
          else s.history ++ [gc]) ∧
      (0 < env.maxHistorySize →
        (trySendPacket env now s dp gc).1.history.getLast? = some gc)) := by
  refine ⟨trySendPacket_historyBounded env now s dp gc h,
    trySendNextLine_historyBounded env now s h, resendLine_historyBounded env now s line h,
    analyseResponse_historyBounded env now s res h, fun hs => ⟨?_, fun hpos => ?_⟩⟩
  · rw [trySendPacket_history env now s dp gc hs]
    rfl
  · rw [trySendPacket_history env now s dp gc hs]
    exact pushHistory_newest env s.history gc h hpos

/-- C13 with a bound of two: the third command sent has pushed line 1 out of
the history, and a further command sent becomes the newest entry of a history
that still holds two commands. -/
theorem history_bounded_witness :
    (threeLinesSent.history.map fun gc => gc.n) = [2, 3] ∧
    (trySendPacket shortHistoryCollab 7 threeLinesSent { data := [71, 10] }
      ((sampleParse cmdG28).setN 4)).1.history.length ≤ shortHistoryCollab.maxHistorySize ∧
    (trySendPacket shortHistoryCollab 7 threeLinesSent { data := [71, 10] }
      ((sampleParse cmdG28).setN 4)).1.history.getLast? = some ((sampleParse cmdG28).setN 4) :=
  ⟨by decide,
    (history_bounded shortHistoryCollab 7 threeLinesSent { data := [71, 10] }
      ((sampleParse cmdG28).setN 4) 0 cmdG28 (by decide)).1,
    ((history_bounded shortHistoryCollab 7 threeLinesSent { data := [71, 10] }
      ((sampleParse cmdG28).setN 4) 0 cmdG28 (by decide)).2.2.2.2 (by decide)).2 (by decide)⟩

/-! ## Claim C14: the `wait` branch -/

/-- The test `td.total_seconds() > 5` counts whole seconds: it holds from six
full seconds on. -/
theorem totalSeconds_gt_five (d : Int) : totalSeconds d > 5 ↔ 6000000 ≤ d := by
  unfold totalSeconds
  by_cases hd : 0 ≤ d
  · rw [Int.tdiv_eq_ediv hd (by decide)]
    omega
  · have hneg : d = -(-d) := by omega
    have h1 : 0 ≤ (-d).tdiv 1000000 := Int.tdiv_nonneg (by omega) (by decide)
    rw [hneg, Int.neg_tdiv]
    constructor
    · intro h
      omega
    · intro h
      omega

theorem analyseResponse_wait_eq (env : Collaborators τ) (now : Int) (s : Printer τ)
    (res0 : List Char) (hw : stripControl res0 = strWait) :
    analyseResponse env now s res0 =
      logAndSend env now (waitBranch now (afterStateUpdate env s strWait)) strWait 2 := by
  have hx : extract strWait strResend = none := by decide
  have hok : ¬ find strWait strOk 0 = some 0 := by decide
  have hst : ∀ g, startSeen g strWait = false := by
    intro g
    cases g <;> decide
  unfold analyseResponse dispatch logAndSend afterStateUpdate
  simp only [hw, hx, hok, hst, if_false, if_true, Bool.false_eq_true]

/-- C14, counterexample: 5.5 seconds after the last send a `wait` arrives; the
window `[40]` and the fill counter are left as they are, since
`total_seconds()` of 5.5 s is 5, which is not more than 5. -/
theorem wait_after_five_and_a_half_seconds :
    (5000000 : Int) < 5500000 - stuckWindow.lastCommandSend ∧
    (analyseResponse sampleCollab 5500000 stuckWindow strWait).nackLines = [40] ∧
    (analyseResponse sampleCollab 5500000 stuckWindow strWait).receiveCacheFill = 40 ∧
    (analyseResponse sampleCollab 6000000 stuckWindow strWait).nackLines = [] := by
  refine ⟨by decide, by decide, by decide, by decide⟩

/-- C14, amended: when the response line equals `wait` and at least 6 full
seconds have passed since `lastCommandSend` (`total_seconds()`, which drops the
fraction, is more than 5), `analyseResponse` resyncs the flow control: in
ping-pong mode `readyForNextSend` becomes true, otherwise `nackLines` is
cleared and `receiveCacheFill` becomes 0. When less than 6 seconds have passed
(5.5 s included) the wait branch touches neither window nor
`readyForNextSend`. In both cases `resendError` is set to 0, and the call ends
with logging the response and the usual send attempt. -/
theorem analyseResponse_wait (env : Collaborators τ) (now : Int) (s : Printer τ)
    (res0 : List Char) (hw : stripControl res0 = strWait) :
    analyseResponse env now s res0 =
      logAndSend env now (waitBranch now (afterStateUpdate env s strWait)) strWait 2 ∧
    (6000000 ≤ now - s.lastCommandSend → s.pingpong = true →
      waitBranch now (afterStateUpdate env s strWait) =
        { afterStateUpdate env s strWait with readyForNextSend := true, resendError := 0 }) ∧
    (6000000 ≤ now - s.lastCommandSend → s.pingpong = false →
      waitBranch now (afterStateUpdate env s strWait) =
        { afterStateUpdate env s strWait with
          nackLines := [], receiveCacheFill := 0, resendError := 0 }) ∧
    (now - s.lastCommandSend < 6000000 →
      waitBranch now (afterStateUpdate env s strWait) =
        { afterStateUpdate env s strWait with resendError := 0 }) := by
  refine ⟨analyseResponse_wait_eq env now s res0 hw, ?_, ?_, ?_⟩
  · intro hd hp
    have ht : totalSeconds (now - s.lastCommandSend) > 5 := (totalSeconds_gt_five _).mpr hd
    unfold waitBranch
    simp only [afterStateUpdate, ht, if_true, hp]
  · intro hd hp
    have ht : totalSeconds (now - s.lastCommandSend) > 5 := (totalSeconds_gt_five _).mpr hd
    unfold waitBranch
    simp only [afterStateUpdate, ht, if_true, hp, Bool.false_eq_true, if_false]
  · intro hd
    have ht : ¬ totalSeconds (now - s.lastCommandSend) > 5 := by
      rw [totalSeconds_gt_five]
      omega
    unfold waitBranch
    simp only [afterStateUpdate, ht, if_false]

/-- C14 at the stuck window: after 6 seconds a `wait` empties the window,
after 5.5 seconds it does not. -/
theorem analyseResponse_wait_witness :
    waitBranch 6000000 (afterStateUpdate sampleCollab stuckWindow strWait) =
      { afterStateUpdate sampleCollab stuckWindow strWait with
        nackLines := [], receiveCacheFill := 0, resendError := 0 } ∧
    waitBranch 5500000 (afterStateUpdate sampleCollab stuckWindow strWait) =
      { afterStateUpdate sampleCollab stuckWindow strWait with resendError := 0 } :=
  ⟨(analyseResponse_wait sampleCollab 6000000 stuckWindow strWait rfl).2.2.1 (by decide) rfl,
    (analyseResponse_wait sampleCollab 5500000 stuckWindow strWait rfl).2.2.2 (by decide)⟩

/-! ## The firmware reboot -/

theorem find_zero_is_head (source ident : List Char) (h : find source ident 0 = some 0) :
    ident <+: source := by
  have := (find_some source ident 0 0 h).2.1.2
  simpa using this

theorem trySendNextLine_idle (env : Collaborators τ) (now : Int) (t : Printer τ)
    (hr : t.resendLines = []) (hm : t.manualCommands = []) (hj : t.jobCommands = []) :
    trySendNextLine env now t = t ∨ trySendNextLine env now t = dropResendError t := by
  have hd := dropResendError_fields t
  unfold trySendNextLine
  split_ifs
  · exact Or.inl rfl
  · exact Or.inl rfl
  · exact Or.inl rfl
  · right
    simp only [hr]
    unfold sendQueued
    simp only [hd.2.1, hm, hd.2.2.1, hj]

theorem dropResendError_freshlyReset (st : PrinterState τ) (t : Printer τ)
    (h : FreshlyReset st t) : FreshlyReset st (dropResendError t) := by
  unfold dropResendError
  split_ifs
  · simpa only [FreshlyReset] using h
  · exact h

theorem trySendNextLine_freshlyReset (env : Collaborators τ) (now : Int)
    (st : PrinterState τ) (t : Printer τ) (h : FreshlyReset st t) :
    FreshlyReset st (trySendNextLine env now t) := by
  rcases trySendNextLine_idle env now t h.2.2.2.2.2.2.1 h.2.2.2.2.2.2.2.1 h.2.2.2.2.2.2.2.2
    with he | he
  · rw [he]
    exact h
  · rw [he]
    exact dropResendError_freshlyReset st t h

theorem resendLine_freshlyReset (env : Collaborators τ) (now : Int)
    (st : PrinterState τ) (t : Printer τ) (line : Nat) (h : FreshlyReset st t) :
    FreshlyReset st (resendLine env now t line) := by
  have hp : FreshlyReset st (resendPrologue t) := by
    obtain ⟨h1, h2, h3, h4, h5, h6, h7, h8, h9⟩ := h
    unfold resendPrologue
    dsimp only
    split_ifs <;> simp [FreshlyReset, h1, h2, h3, h4, h5, h6, h7, h8, h9]
  unfold resendLine
  dsimp only
  split_ifs
  · simpa only [FreshlyReset, close] using hp
  · refine trySendNextLine_freshlyReset env now st _ ?_
    obtain ⟨h1, h2, h3, h4, h5, h6, h7, h8, h9⟩ := hp
    simp [FreshlyReset, h1, h2, h3, h4, h5, h6, h8, h9, collectResend]
  · refine trySendNextLine_freshlyReset env now st _ ?_
    obtain ⟨h1, h2, h3, h4, h5, h6, h7, h8, h9⟩ := hp
    simp [FreshlyReset, h1, h2, h3, h4, h5, h6, h8, h9, collectResend]

/-- The variables of the printer after a line that begins with `start`, with
`sendMutex` left aside: from a state with empty `resendLines`,
`manualCommands` and `jobCommands` the printer state is the reset one,
`history` and `nackLines` are empty, `receiveCacheFill = 0`,
`readyForNextSend = true` and `garbageCleared = true`. Whether the call
returns is the matter of `analyseResponseLocked`. -/
theorem analyseResponse_start (env : Collaborators τ) (now : Int) (s : Printer τ)
    (res0 rest : List Char) (hs : stripControl res0 = strStart ++ rest)
    (hr : s.resendLines = []) (hm : s.manualCommands = []) (hj : s.jobCommands = []) :
    (analyseResponse env now s res0).state =
      PrinterState.reset env (env.stateAnalyseResponse s.state (stripControl res0) 4).1 ∧
    (analyseResponse env now s res0).state.lastline = 0 ∧
    (analyseResponse env now s res0).history = [] ∧
    (analyseResponse env now s res0).nackLines = [] ∧
    (analyseResponse env now s res0).receiveCacheFill = 0 ∧
    (analyseResponse env now s res0).readyForNextSend = true ∧
    (analyseResponse env now s res0).garbageCleared = true := by
  have hseen : startSeen s.garbageCleared (stripControl res0) = true := by
    unfold startSeen
    rw [hs, find_self_append]
    simp
  have hok : ¬ find (stripControl res0) strOk 0 = some 0 := by
    intro h
    have hpre := find_zero_is_head _ _ h
    rw [hs] at hpre
    obtain ⟨t, ht⟩ := hpre
    simp [strOk, strStart] at ht
  have hwait : ¬ stripControl res0 = strWait := by
    rw [hs]
    simp [strStart, strWait]
  have hfresh : FreshlyReset
      (PrinterState.reset env (env.stateAnalyseResponse s.state (stripControl res0) 4).1)
      (startReset env (afterStateUpdate env s (stripControl res0))) := by
    simp [FreshlyReset, startReset, afterStateUpdate, hr, hm, hj]
  have hfin : FreshlyReset
      (PrinterState.reset env (env.stateAnalyseResponse s.state (stripControl res0) 4).1)
      (analyseResponse env now s res0) := by
    unfold analyseResponse
    dsimp only
    rw [hseen, if_pos rfl]
    refine trySendNextLine_freshlyReset env now _ _ ?_
    have hd : FreshlyReset
        (PrinterState.reset env (env.stateAnalyseResponse s.state (stripControl res0) 4).1)
        (dispatch env now (startReset env (afterStateUpdate env s (stripControl res0)))
          (stripControl res0) (env.stateAnalyseResponse s.state (stripControl res0) 4).2).1 := by
      unfold dispatch
      split
      · exact resendLine_freshlyReset env now _ _ _ hfresh
      · rw [if_neg hok, if_neg hwait]
        exact hfresh
    simpa only [FreshlyReset, addResponse] using hd
  obtain ⟨h1, h2, h3, h4, h5, h6, _⟩ := hfin
  refine ⟨h1, ?_, h2, h3, h4, h5, h6⟩
  rw [h1]
  rfl

/-! ## Claim C16: a refused send keeps the line number -/

theorem dropResendError_eq (s : Printer τ) :
    dropResendError s = { s with resendError := s.resendError - 1 } := by
  unfold dropResendError
  split_ifs with h
  · rfl
  · have h0 : s.resendError - 1 = s.resendError := by omega
    rw [h0]

theorem trySendPacket_refused (env : Collaborators τ) (now : Int) (s : Printer τ)
    (dp : GCodeDataPacket) (gc : GCode) (h : ¬ gateOfCode s dp) :
    trySendPacket env now s dp gc = (s, false) := by
  have hc : ¬ ((s.pingpong && s.readyForNextSend) ||
      (!s.pingpong && decide (s.cacheSize > s.receiveCacheFill + (dp.length : Int)))) = true := by
    intro hc
    apply h
    unfold gateOfCode
    revert hc
    cases s.pingpong <;> cases s.readyForNextSend <;> simp
  unfold trySendPacket
  rw [if_neg hc]

theorem lastline_arith (l : Nat) (h : l < 65536) : ((l + 1) % 65536 + 65535) % 65536 = l := by
  by_cases h1 : l + 1 < 65536
  · rw [Nat.mod_eq_of_lt h1]
    have h2 : l + 1 + 65535 = l + 65536 := by omega
    rw [h2, Nat.add_mod_right, Nat.mod_eq_of_lt h]
  · have h2 : l = 65535 := by omega
    subst h2
    norm_num

theorem lastline_round_trip (st : PrinterState τ) (h : st.lastline < 65536) :
    (st.increaseLastline).1.decreaseLastline = st := by
  cases st with
  | mk l d =>
    show ({ lastline := ((l + 1) % 65536 + 65535) % 65536, derived := d } : PrinterState τ) =
      { lastline := l, derived := d }
    rw [lastline_arith l h]

theorem trySendNextLine_reaches (env : Collaborators τ) (now : Int) (s : Printer τ)
    (h : ReachesQueues s) :
    trySendNextLine env now s = sendQueued env now (dropResendError s) := by
  obtain ⟨hg, hp, hc, hr⟩ := h
  unfold trySendNextLine
  have h1 : ¬ (!s.garbageCleared) = true := by simp [hg]
  have h2 : ¬ (s.pingpong && !s.readyForNextSend) = true := by
    intro hx
    apply hp
    revert hx
    cases s.pingpong <;> cases s.readyForNextSend <;> simp
  have h3 : ¬ (!s.connected) = true := by simp [hc]
  rw [if_neg h1, if_neg h2, if_neg h3]
  simp only [hr]

theorem numberCommand_numbered (env : Collaborators τ) (st : PrinterState τ) (cmd : List Char)
    (h117 : (env.parse cmd).m ≠ 117) :
    numberCommand env st cmd =
      ((st.increaseLastline).1, (env.parse cmd).setN ((st.lastline + 1) % 65536)) := by
  unfold numberCommand
  simp only [h117, ne_eq, not_false_eq_true, if_true]
  rfl

theorem sendManual_refused (env : Collaborators τ) (now : Int) (t : Printer τ) (cmd : List Char)
    (rest : List (List Char)) (hh : (env.parse cmd).hostCommand = false)
    (h117 : (env.parse cmd).m ≠ 117)
    (h110 : ¬ ((env.parse cmd).hasM = true ∧ (env.parse cmd).m = 110))
    (hgate : ¬ gateOfCode t (packetOf env t (numberCommand env t.state cmd).2))
    (hl : t.state.lastline < 65536) :
    sendManual env now t cmd rest = t := by
  have hg1 : ¬ gateOfCode ({ t with state := (numberCommand env t.state cmd).1 } : Printer τ)
      (packetOf env ({ t with state := (numberCommand env t.state cmd).1 } : Printer τ)
        (numberCommand env t.state cmd).2) := hgate
  have hn : ((numberCommand env t.state cmd).2.hasN &&
      !((numberCommand env t.state cmd).2.hasM && (numberCommand env t.state cmd).2.m == 110))
      = true := by
    rw [numberCommand_numbered env t.state cmd h117]
    simp only [GCode.setN, Bool.true_and, Bool.not_eq_true', Bool.and_eq_false_imp,
      beq_eq_false_iff_ne]
    intro hm hx
    exact h110 ⟨hm, hx⟩
  unfold sendManual
  dsimp only
  rw [trySendPacket_refused env now _ _ _ hg1]
  simp only [hh, Bool.false_eq_true, if_false, hn, if_true]
  rw [numberCommand_numbered env t.state cmd h117]
  simp only
  rw [lastline_round_trip t.state hl]

theorem sendJob_refused (env : Collaborators τ) (now : Int) (t : Printer τ) (cmd : List Char)
    (rest : List (List Char)) (hh : (env.parse cmd).hostCommand = false)
    (h117 : (env.parse cmd).m ≠ 117)
    (h110 : ¬ ((env.parse cmd).hasM = true ∧ (env.parse cmd).m = 110))
    (hgate : ¬ gateOfCode t (packetOf env t (numberCommand env t.state cmd).2))
    (hl : t.state.lastline < 65536) :
    sendJob env now t cmd rest = t := by
  have hg1 : ¬ gateOfCode ({ t with state := (numberCommand env t.state cmd).1 } : Printer τ)
      (packetOf env ({ t with state := (numberCommand env t.state cmd).1 } : Printer τ)
        (numberCommand env t.state cmd).2) := hgate
  have hn : ((numberCommand env t.state cmd).2.hasN &&
      !((numberCommand env t.state cmd).2.hasM && (numberCommand env t.state cmd).2.m == 110))
      = true := by
    rw [numberCommand_numbered env t.state cmd h117]
    simp only [GCode.setN, Bool.true_and, Bool.not_eq_true', Bool.and_eq_false_imp,
      beq_eq_false_iff_ne]
    intro hm hx
    exact h110 ⟨hm, hx⟩
  unfold sendJob
  dsimp only
  rw [trySendPacket_refused env now _ _ _ hg1]
  simp only [hh, Bool.false_eq_true, if_false, hn, if_true]
  rw [numberCommand_numbered env t.state cmd h117]
  simp only
  rw [lastline_round_trip t.state hl]

theorem dropResendError_nothingSent (s : Printer τ) : NothingSent s (dropResendError s) := by
  rw [dropResendError_eq]
  exact ⟨rfl, rfl, rfl, rfl, rfl, rfl, rfl⟩

/-- C16: a refused send does not lose a line number. When `trySendNextLine`
takes the front of the manual queue, or of the job queue, a command that is
neither a host command nor `M117` nor `M110`, numbers it with
`N = increaseLastline()` and `trySendPacket` refuses the packet, the call ends
with the last line number (16 bit) at its value before the call, the command
still at the front of its queue and history, window and fill counter
unchanged; the next attempt assigns the same `N`. -/
theorem refused_send_keeps_line_number (env : Collaborators τ) (now : Int) (s : Printer τ)
    (cmd : List Char) (rest : List (List Char)) (hreach : ReachesQueues s)
    (hh : (env.parse cmd).hostCommand = false) (h117 : (env.parse cmd).m ≠ 117)
    (h110 : ¬ ((env.parse cmd).hasM = true ∧ (env.parse cmd).m = 110))
    (hgate : ¬ gateOfCode s (packetOf env s (numberCommand env s.state cmd).2))
    (hl : s.state.lastline < 65536)
    (hq : s.manualCommands = cmd :: rest ∨
      (s.manualCommands = [] ∧ s.paused = false ∧ s.jobCommands = cmd :: rest)) :
    (numberCommand env s.state cmd).2.hasN = true ∧
    (numberCommand env s.state cmd).2.n = (s.state.lastline + 1) % 65536 ∧
    NothingSent s (trySendNextLine env now s) ∧
    (trySendNextLine env now s).state.lastline = s.state.lastline ∧
    numberCommand env (trySendNextLine env now s).state cmd = numberCommand env s.state cmd := by
  have hd := dropResendError_fields s
  have hgate0 : ¬ gateOfCode (dropResendError s)
      (packetOf env (dropResendError s) (numberCommand env (dropResendError s).state cmd).2) := by
    rw [dropResendError_eq]
    exact hgate
  have hl0 : (dropResendError s).state.lastline < 65536 := by
    rw [hd.2.2.2.1]
    exact hl
  have he : trySendNextLine env now s = dropResendError s := by
    rw [trySendNextLine_reaches env now s hreach]
    unfold sendQueued
    rcases hq with hm | ⟨hm, hp, hj⟩
    · have hm0 : (dropResendError s).manualCommands = cmd :: rest := by rw [hd.2.1, hm]
      simp only [hm0]
      exact sendManual_refused env now _ cmd rest hh h117 h110 hgate0 hl0
    · have hm0 : (dropResendError s).manualCommands = [] := by rw [hd.2.1, hm]
      have hj0 : (dropResendError s).jobCommands = cmd :: rest := by rw [hd.2.2.1, hj]
      have hp0 : (dropResendError s).paused = false := by rw [hd.2.2.2.2.1, hp]
      simp only [hm0, hj0, hp0, Bool.false_eq_true, if_false]
      exact sendJob_refused env now _ cmd rest hh h117 h110 hgate0 hl0
  have hns := dropResendError_nothingSent s
  rw [he]
  refine ⟨?_, ?_, hns, by rw [hns.1], by rw [hns.1]⟩
  · rw [numberCommand_numbered env s.state cmd h117]
    rfl
  · rw [numberCommand_numbered env s.state cmd h117]
    rfl

/-- C16 at a full cache: the refused `G28` stays queued, line 41 stays the
last line number, and the number kept for the command is 42. -/
theorem refused_send_keeps_line_number_witness :
    (trySendNextLine sampleCollab 0 fullCache).state.lastline = 41 ∧
    (trySendNextLine sampleCollab 0 fullCache).manualCommands = [cmdG28] ∧
    (numberCommand sampleCollab (trySendNextLine sampleCollab 0 fullCache).state cmdG28).2.n
      = 42 ∧
    (trySendNextLine sampleCollab 0 fullCacheJob).jobCommands = [cmdG28] :=
  ⟨(refused_send_keeps_line_number sampleCollab 0 fullCache cmdG28 []
      ⟨rfl, by decide, rfl, rfl⟩ (by decide) (by decide) (by decide)
      (by unfold gateOfCode; decide) (by decide) (Or.inl rfl)).2.2.2.1,
    (refused_send_keeps_line_number sampleCollab 0 fullCache cmdG28 []
      ⟨rfl, by decide, rfl, rfl⟩ (by decide) (by decide) (by decide)
      (by unfold gateOfCode; decide) (by decide) (Or.inl rfl)).2.2.1.2.1,
    by decide,
    (refused_send_keeps_line_number sampleCollab 0 fullCacheJob cmdG28 []
      ⟨rfl, by decide, rfl, rfl⟩ (by decide) (by decide) (by decide)
      (by unfold gateOfCode; decide) (by decide) (Or.inr ⟨rfl, rfl, rfl⟩)).2.2.1.2.2.1⟩

/-! ## Claims C17 and C19: `extract` -/

theorem takeWhile_split (l : List Char) :
    ∃ rest, l = (l.takeWhile fun c => decide (c ≠ space)) ++ rest ∧
      space ∉ (l.takeWhile fun c => decide (c ≠ space)) ∧
      (rest = [] ∨ rest.head? = some space) := by
  induction l with
  | nil => exact ⟨[], rfl, by simp, Or.inl rfl⟩
  | cons c cs ih =>
    by_cases hc : c = space
    · refine ⟨c :: cs, ?_, ?_, Or.inr (by simp [hc])⟩
      · simp [List.takeWhile_cons, hc]
      · simp [List.takeWhile_cons, hc]
    · obtain ⟨rest, h1, h2, h3⟩ := ih
      have hd : decide (c ≠ space) = true := by simpa using hc
      refine ⟨rest, ?_, ?_, h3⟩
      · rw [List.takeWhile_cons, hd]
        simp only [if_true, List.cons_append, List.cons.injEq, true_and]
        exact h1
      · rw [List.takeWhile_cons, hd]
        simp only [if_true, List.mem_cons, not_or]
        exact ⟨fun h => hc h.symm, h2⟩

theorem exists_least_validAt (source ident : List Char) (h : ∃ j, ValidAt source ident j) :
    ∃ p, ValidAt source ident p ∧ ∀ j, j < p → ¬ ValidAt source ident j := by
  classical
  exact ⟨Nat.find h, Nat.find_spec h, fun j hj => Nat.find_min h hj⟩

/-- C17: `extract` returns true exactly when `source` holds an occurrence of
`ident` that starts at index 0 or right after a space. It then takes the
leftmost such occurrence and sets `result` to the characters that follow it up
to, not including, the next space or the end of `source`, so that `result`
holds no space. When there is no such occurrence it returns false and leaves
`result` as it was. -/
theorem extract_spec (source ident : List Char) :
    ((extract source ident).isSome = true ↔ ∃ j, ValidAt source ident j) ∧
    (∀ p, ValidAt source ident p → (∀ j, j < p → ¬ ValidAt source ident j) →
      ∃ value rest, extract source ident = some value ∧
        source.drop (p + ident.length) = value ++ rest ∧ space ∉ value ∧
        (rest = [] ∨ rest.head? = some space)) ∧
    ((¬ ∃ j, ValidAt source ident j) → extract source ident = none) := by
  have hnone : (¬ ∃ j, ValidAt source ident j) → extract source ident = none := by
    intro h
    exact extract_none_of_no_validAt source ident (fun j hj => h ⟨j, hj⟩)
  refine ⟨⟨?_, ?_⟩, ?_, hnone⟩
  · intro hs
    by_contra hno
    rw [hnone hno] at hs
    simp at hs
  · intro hex
    obtain ⟨p, hv, hmin⟩ := exists_least_validAt source ident hex
    rw [extract_of_validAt source ident p hv hmin]
    rfl
  · intro p hv hmin
    obtain ⟨rest, h1, h2, h3⟩ := takeWhile_split (source.drop (p + ident.length))
    exact ⟨valueAt source ident p, rest, extract_of_validAt source ident p hv hmin, h1, h2, h3⟩

/-- C17 on a temperature report: `T:` yields `210`, and `B:` the `60` at the
end of the line. -/
theorem extract_spec_witness :
    extract tempReport ['T', ':'] = some ['2', '1', '0'] ∧
    extract tempReport ['B', ':'] = some ['6', '0'] ∧
    ((extract tempReport ['X', ':']).isSome = true ↔ ∃ j, ValidAt tempReport ['X', ':'] j) :=
  ⟨by decide, by decide, (extract_spec tempReport ['X', ':']).1⟩

theorem extractLoop_fuel (source ident : List Char) :
    ∀ (fuel pos : Nat), pos ≤ source.length → source.length + 1 ≤ fuel + pos →
      extractLoop source ident fuel pos ≠ none := by
  intro fuel
  induction fuel with
  | zero =>
    intro pos hpos hf
    omega
  | succ fuel ih =>
    intro pos hpos hf
    have hunf : extractLoop source ident (fuel + 1) pos =
        match find source ident (searchFrom pos) with
        | none => some none
        | some p =>
          if p = 0 then some (some 0)
          else if source.get? (p - 1) ≠ some space then extractLoop source ident fuel p
          else some (some p) := rfl
    rw [hunf]
    cases hfd : find source ident (searchFrom pos) with
    | none => simp
    | some q =>
      obtain ⟨hge, hocc, _⟩ := find_some source ident _ q hfd
      dsimp only
      by_cases hq0 : q = 0
      · rw [if_pos hq0]
        simp
      · rw [if_neg hq0]
        by_cases hsp : source.get? (q - 1) ≠ some space
        · rw [if_pos hsp]
          have hlt : pos < q := by
            unfold searchFrom at hge
            split_ifs at hge <;> omega
          exact ih q hocc.1 (by omega)
        · rw [if_neg hsp]
          simp

theorem extractLoop_more_fuel (source ident : List Char) :
    ∀ (fuel pos : Nat) (r : Option Nat), extractLoop source ident fuel pos = some r →
      ∀ k, extractLoop source ident (fuel + k) pos = some r := by
  intro fuel
  induction fuel with
  | zero =>
    intro pos r h
    simp [extractLoop] at h
  | succ fuel ih =>
    intro pos r h k
    have hunf : ∀ f, extractLoop source ident (f + 1) pos =
        match find source ident (searchFrom pos) with
        | none => some none
        | some p =>
          if p = 0 then some (some 0)
          else if source.get? (p - 1) ≠ some space then extractLoop source ident f p
          else some (some p) := fun _ => rfl
    have hk : fuel + 1 + k = fuel + k + 1 := by omega
    rw [hk, hunf]
    rw [hunf] at h
    cases hfd : find source ident (searchFrom pos) with
    | none =>
      rw [hfd] at h
      exact h
    | some q =>
      rw [hfd] at h
      dsimp only at h ⊢
      by_cases hq0 : q = 0
      · rw [if_pos hq0] at h ⊢
        exact h
      · rw [if_neg hq0] at h ⊢
        by_cases hsp : source.get? (q - 1) ≠ some space
        · rw [if_pos hsp] at h ⊢
          exact ih q r h k
        · rw [if_neg hsp] at h ⊢
          exact h

/-- C19: `extract` terminates for every `source` and every `ident`, the empty
`ident` and idents that occur many times without a space before them included.
A retry of the search loop starts strictly to the right of the position found
last, and the loop body runs at most `source.length() + 1` times: that many
rounds never run out, and more rounds give the same result. -/
theorem extract_terminates (source ident : List Char) :
    extractLoop source ident (source.length + 1) 0 ≠ none ∧
    (∀ fuel, source.length + 1 ≤ fuel →
      extractLoop source ident fuel 0 = extractLoop source ident (source.length + 1) 0) ∧
    (∀ p q, 0 < p → find source ident (searchFrom p) = some q → p < q) := by
  have h1 := extractLoop_fuel source ident (source.length + 1) 0 (Nat.zero_le _) (by omega)
  refine ⟨h1, ?_, ?_⟩
  · intro fuel hf
    cases hr : extractLoop source ident (source.length + 1) 0 with
    | none => exact absurd hr h1
    | some r =>
      have := extractLoop_more_fuel source ident _ 0 r hr (fuel - (source.length + 1))
      have hsum : source.length + 1 + (fuel - (source.length + 1)) = fuel := by omega
      rw [hsum] at this
      exact this
  · intro p q hp hfd
    have hge := (find_some source ident _ q hfd).1
    unfold searchFrom at hge
    rw [if_pos hp] at hge
    omega

/-- C19 on a source with many rejected occurrences: six rounds are enough for
five characters (five are used, four would not do). -/
theorem extract_terminates_witness :
    extractLoop manyOccurrences ['a'] (manyOccurrences.length + 1) 0 ≠ none ∧
    extractLoop manyOccurrences ['a'] 5 0 = some none ∧
    extractLoop manyOccurrences ['a'] 4 0 = none :=
  ⟨(extract_terminates manyOccurrences ['a']).1, by decide, by decide⟩

/-! ## Claim C18: giving up after too many resend requests -/

theorem connected_queueBlind (c : Bool) :
    QueueBlind (fun t : Printer τ => t.connected = c) where
  state := fun _ _ h => h
  manual := fun _ _ h => h
  job := fun _ _ h => h
  resendError := fun _ _ h => h

theorem trySendPacket_connected (env : Collaborators τ) (now : Int) (s : Printer τ)
    (dp : GCodeDataPacket) (gc : GCode) :
    (trySendPacket env now s dp gc).1.connected = s.connected := by
  unfold trySendPacket
  split
  · cases hp : s.pingpong <;> simp [addResponse, hp]
  · rfl

theorem trySendNextLine_connected (env : Collaborators τ) (now : Int) (s : Printer τ) :
    (trySendNextLine env now s).connected = s.connected :=
  trySendNextLine_preserves (connected_queueBlind s.connected) env now
    (fun t dp gc ht => (trySendPacket_connected env now t dp gc).trans ht) s rfl

/-- C18: `resendLine` gives up exactly when `resendError`, after the increment
of the call, exceeds 5 (it was at least 5 before). It then closes the serial
connection and returns: `resendLines` is not rebuilt, no NUL padding is written
and no send is attempted. When the incremented `resendError` is at most 5 the
call does not close the connection. -/
theorem resendLine_gives_up (env : Collaborators τ) (now : Int) (s : Printer τ) (line : Nat) :
    (5 ≤ s.resendError →
      resendLine env now s line = close (resendPrologue s) ∧
      (resendLine env now s line).connected = false ∧
      (resendLine env now s line).resendLines = s.resendLines ∧
      (resendLine env now s line).written = s.written ∧
      (resendLine env now s line).history = s.history) ∧
    (s.resendError + 1 ≤ 5 →
      (resendLine env now s line).connected = s.connected) := by
  have hp := resendPrologue_fields s
  constructor
  · intro h5
    have he : resendLine env now s line = close (resendPrologue s) := by
      unfold resendLine
      dsimp only
      rw [if_pos (by rw [hp.1]; omega)]
    rw [he]
    exact ⟨rfl, rfl, hp.2.2.1, hp.2.2.2.1, hp.2.1⟩
  · intro h5
    unfold resendLine
    dsimp only
    rw [if_neg (by rw [hp.1]; omega), trySendNextLine_connected]
    split_ifs <;> exact hp.2.2.2.2

/-- C18 at the sixth resend request in a row: the connection is closed, the old
resend list stays and nothing is written. -/
theorem resendLine_gives_up_witness :
    fiveErrors.connected = true ∧
    (resendLine sampleCollab 0 fiveErrors 8).connected = false ∧
    (resendLine sampleCollab 0 fiveErrors 8).resendLines = [(sampleParse cmdG28).setN 1] ∧
    (resendLine sampleCollab 0 fiveErrors 8).written = [] :=
  ⟨rfl,
    ((resendLine_gives_up sampleCollab 0 fiveErrors 8).1 (by decide)).2.1,
    ((resendLine_gives_up sampleCollab 0 fiveErrors 8).1 (by decide)).2.2.1,
    ((resendLine_gives_up sampleCollab 0 fiveErrors 8).1 (by decide)).2.2.2.1⟩

/-! ## Claim C20: one command in flight in ping-pong mode -/

theorem trySendNextLine_waiting (env : Collaborators τ) (now : Int) (s : Printer τ)
    (h : Waiting s) : trySendNextLine env now s = s := by
  unfold trySendNextLine
  simp [h.1, h.2]

theorem injectManualCommand_waiting (env : Collaborators τ) (now : Int) (s : Printer τ)
    (c : List Char) (h : Waiting s) :
    injectManualCommand env now s c = { s with manualCommands := s.manualCommands ++ [c] } := by
  unfold injectManualCommand
  exact trySendNextLine_waiting env now _ (by simpa only [Waiting] using h)

theorem runIteration_waiting (env : Collaborators τ) (now : Int) (s : Printer τ)
    (loop : Nat) (connectOk : Bool) (h : Waiting s) :
    runIteration env now s loop connectOk = idleRound s loop connectOk := by
  unfold runIteration idleRound
  dsimp only
  by_cases hc : (!s.connected) = true
  · rw [if_pos hc, if_pos hc,
      trySendNextLine_waiting env now _ (by simpa only [Waiting] using h)]
  · rw [if_neg hc, if_neg hc, injectManualCommand_waiting env now s _ h]
    by_cases h5 : s.manualCommands.length + 1 < 5
    · simp only [List.length_append, List.length_singleton, h5, if_true]
      rw [injectManualCommand_waiting env now _ _ (by simpa only [Waiting] using h)]
      exact trySendNextLine_waiting env now _ (by simpa only [Waiting] using h)
    · simp only [List.length_append, List.length_singleton, h5, if_false, List.append_nil]
      exact trySendNextLine_waiting env now _ (by simpa only [Waiting] using h)

theorem step_waiting (env : Collaborators τ) (s : Printer τ) (op : Op)
    (hop : op.isLocal = true) (h : Waiting s) :
    Waiting (step env s op) ∧ (step env s op).written = s.written := by
  cases op with
  | injectManual now cmd =>
    have he : step env s (.injectManual now cmd) =
        { s with manualCommands := s.manualCommands ++ [cmd] } :=
      injectManualCommand_waiting env now s cmd h
    rw [he]
    exact ⟨h, rfl⟩
  | injectJob cmd => exact ⟨h, rfl⟩
  | trySend now =>
    simp only [step]
    rw [trySendNextLine_waiting env now s h]
    exact ⟨h, rfl⟩
  | response now res => simp [Op.isLocal] at hop
  | tick now loop ok =>
    simp only [step]
    rw [runIteration_waiting env now s loop ok h]
    unfold idleRound
    split_ifs
    · exact ⟨h, rfl⟩
    · exact ⟨h, rfl⟩
    · exact ⟨h, rfl⟩

theorem runOps_waiting (env : Collaborators τ) (ops : List Op) :
    ∀ s : Printer τ, (∀ op ∈ ops, op.isLocal = true) → Waiting s →
      Waiting (runOps env s ops) ∧ (runOps env s ops).written = s.written := by
  induction ops with
  | nil => intro s _ h; exact ⟨h, rfl⟩
  | cons op ops ih =>
    intro s hops h
    have h1 := step_waiting env s op (hops op (List.mem_cons_self op ops)) h
    have h2 := ih (step env s op) (fun o ho => hops o (List.mem_cons_of_mem op ho)) h1.1
    exact ⟨h2.1, h2.2.trans h1.2⟩

theorem analyseResponse_waiting (env : Collaborators τ) (now : Int) (s : Printer τ)
    (res : List Char) (h : Waiting s) (hno : ¬ Releases s now (stripControl res)) :
    Waiting (analyseResponse env now s res) ∧
      (analyseResponse env now s res).written = s.written := by
  unfold Releases at hno
  simp only [not_or] at hno
  obtain ⟨hst, hx, hok, hwt⟩ := hno
  have hst2 : startSeen s.garbageCleared (stripControl res) = false := by simpa using hst
  have hx2 : extract (stripControl res) strResend = none := by
    cases hxe : extract (stripControl res) strResend with
    | none => rfl
    | some v => rw [hxe] at hx; simp at hx
  have hd : Waiting (dispatch env now (afterStateUpdate env s (stripControl res))
      (stripControl res) (env.stateAnalyseResponse s.state (stripControl res) 4).2).1 ∧
      (dispatch env now (afterStateUpdate env s (stripControl res))
      (stripControl res) (env.stateAnalyseResponse s.state (stripControl res) 4).2).1.written
        = s.written := by
    unfold dispatch
    simp only [hx2]
    by_cases hf : find (stripControl res) strOk 0 = some 0
    · have hig : s.ignoreNextOk = true := by
        by_contra hi
        exact hok ⟨find_zero_is_head _ _ hf, by simpa using hi⟩
      rw [if_pos hf]
      unfold okBranch
      simp only [afterStateUpdate, hig, Bool.not_true, Bool.false_eq_true, if_false]
      exact ⟨h, trivial⟩
    · rw [if_neg hf]
      by_cases hw : stripControl res = strWait
      · have ht : ¬ totalSeconds (now - s.lastCommandSend) > 5 := by
          intro ht
          have := (totalSeconds_gt_five _).mp ht
          exact hwt ⟨hw, by omega⟩
        rw [if_pos hw]
        unfold waitBranch
        simp only [afterStateUpdate, ht, if_false]
        exact ⟨h, trivial⟩
      · rw [if_neg hw]
        exact ⟨h, rfl⟩
  have he : analyseResponse env now s res =
      logAndSend env now
        (dispatch env now (afterStateUpdate env s (stripControl res))
          (stripControl res) (env.stateAnalyseResponse s.state (stripControl res) 4).2).1
        (stripControl res)
        (dispatch env now (afterStateUpdate env s (stripControl res))
          (stripControl res) (env.stateAnalyseResponse s.state (stripControl res) 4).2).2 := by
    unfold analyseResponse logAndSend afterStateUpdate
    simp only [hst2, Bool.false_eq_true, if_false]
  rw [he]
  unfold logAndSend
  have hw2 : Waiting (addResponse env now
      (dispatch env now (afterStateUpdate env s (stripControl res))
        (stripControl res) (env.stateAnalyseResponse s.state (stripControl res) 4).2).1
      (stripControl res)
      (dispatch env now (afterStateUpdate env s (stripControl res))
        (stripControl res) (env.stateAnalyseResponse s.state (stripControl res) 4).2).2) := hd.1
  rw [trySendNextLine_waiting env now _ hw2]
  exact ⟨hw2, hd.2⟩

theorem trySendPacket_pingpong (env : Collaborators τ) (now : Int) (s : Printer τ)
    (dp : GCodeDataPacket) (gc : GCode) (hp : s.pingpong = true)
    (h : (trySendPacket env now s dp gc).2 = true) :
    Waiting (trySendPacket env now s dp gc).1 := by
  unfold trySendPacket at h ⊢
  split
  · simp [Waiting, addResponse, hp]
  · rename_i hc
    rw [if_neg hc] at h
    simp at h

/-- C20: in ping-pong mode the host has at most one command in flight. Every
successful `trySendPacket` leaves `readyForNextSend = false`. From such a state
no sequence of `injectManualCommand`, `injectJobCommand`, `trySendNextLine` and
`run` rounds writes a packet or makes the printer ready, and a call of
`analyseResponse` that writes a packet or leaves the printer ready has
processed a `start` reset, a resend request, an `ok` that is not ignored, or a
`wait` more than 5 seconds after the last send. -/
theorem pingpong_one_in_flight (env : Collaborators τ) (now : Int) (s : Printer τ)
    (dp : GCodeDataPacket) (gc : GCode) (ops : List Op) (res : List Char)
    (hp : s.pingpong = true) :
    ((trySendPacket env now s dp gc).2 = true →
      (trySendPacket env now s dp gc).1.readyForNextSend = false) ∧
    (s.readyForNextSend = false → (∀ op ∈ ops, op.isLocal = true) →
      (runOps env s ops).written = s.written ∧
      (runOps env s ops).readyForNextSend = false) ∧
    (s.readyForNextSend = false →
      ((analyseResponse env now s res).written ≠ s.written ∨
        (analyseResponse env now s res).readyForNextSend = true) →
      Releases s now (stripControl res)) := by
  refine ⟨fun h => (trySendPacket_pingpong env now s dp gc hp h).2, fun hr hops => ?_,
    fun hr hch => ?_⟩
  · have := runOps_waiting env ops s hops ⟨hp, hr⟩
    exact ⟨this.2, this.1.2⟩
  · by_contra hno
    have := analyseResponse_waiting env now s res ⟨hp, hr⟩ hno
    rcases hch with hch | hch
    · exact hch this.2
    · rw [this.1.2] at hch
      exact absurd hch (by decide)

/-- C20 with one command in flight: queueing two more commands and a round of
`run` write nothing; the `ok` then lets exactly one more command out. -/
theorem pingpong_one_in_flight_witness :
    oneInFlight.written.length = 1 ∧
    (runOps sampleCollab oneInFlight
      [.injectManual 2 cmdM105, .injectJob cmdG28, .trySend 3, .tick 4 1 true]).written =
      oneInFlight.written ∧
    (runOps sampleCollab oneInFlight
      [.injectManual 2 cmdM105, .injectJob cmdG28, .trySend 3, .tick 4 1 true,
       .response 5 strOk]).written.length = 2 :=
  ⟨by decide,
    ((pingpong_one_in_flight sampleCollab 0 oneInFlight { data := [] } (sampleParse cmdG28)
      [.injectManual 2 cmdM105, .injectJob cmdG28, .trySend 3, .tick 4 1 true] []
      (by decide)).2.1 (by decide) (by decide)).1,
    by decide⟩

/-! ## Claim C21: polling with the returned cursor -/

theorem getResponsesSince_eq (s : Printer τ) (resId filter : Nat) :
    getResponsesSince s resId filter =
      (s.responses.filter (wanted resId filter),
        match (s.responses.filter (wanted resId filter)).getLast? with
        | some r => r.responseId
        | none => resId) := by
  unfold getResponsesSince
  rw [sinceLoop_eq]
  simp

theorem wanted_id_gt (resId filter : Nat) (r : PrinterResponse)
    (h : wanted resId filter r = true) : resId < r.responseId := by
  simp only [wanted, Bool.and_eq_true, decide_eq_true_eq] at h
  exact h.1

theorem cursor_ge_input (s : Printer τ) (resId filter : Nat) :
    resId ≤ (getResponsesSince s resId filter).2 := by
  rw [getResponsesSince_eq]
  cases hl : (s.responses.filter (wanted resId filter)).getLast? with
  | none => exact Nat.le_refl _
  | some r =>
    have hm := List.mem_of_getLast?_eq_some hl
    exact Nat.le_of_lt (wanted_id_gt resId filter r (List.mem_filter.mp hm).2)

theorem cursor_ge_returned (s : Printer τ) (resId filter : Nat)
    (h : IdsIncreasing s.responses) :
    ∀ e ∈ (getResponsesSince s resId filter).1,
      e.responseId ≤ (getResponsesSince s resId filter).2 := by
  rw [getResponsesSince_eq]
  intro e he
  have hinc : IdsIncreasing (s.responses.filter (wanted resId filter)) :=
    List.Pairwise.sublist (List.filter_sublist _) h
  cases hl : (s.responses.filter (wanted resId filter)).getLast? with
  | none =>
    rw [List.getLast?_eq_none_iff.mp hl] at he
    simp at he
  | some r => exact pairwise_le_getLast _ hinc r hl e he

/-- C21: polling with the returned cursor never repeats an entry. For a log
whose ids grow strictly, let `getResponsesSince(c, mask)` return the list `L`
and the cursor `c'`. Every entry that `getResponsesSince(c', mask)` returns on
any later log has an id above every id in `L`; and on the same log, with no
`addResponse` in between, the second call returns the empty list and `c'`
again. -/
theorem polling_never_repeats (s : Printer τ) (resId filter : Nat)
    (h : IdsIncreasing s.responses) :
    (∀ (later : Printer τ),
      ∀ e' ∈ (getResponsesSince later (getResponsesSince s resId filter).2 filter).1,
      ∀ e ∈ (getResponsesSince s resId filter).1, e.responseId < e'.responseId) ∧
    getResponsesSince s (getResponsesSince s resId filter).2 filter =
      ([], (getResponsesSince s resId filter).2) := by
  have hge := cursor_ge_returned s resId filter h
  have hin := cursor_ge_input s resId filter
  constructor
  · intro later e' he' e he
    rw [getResponsesSince_eq later] at he'
    have h1 := wanted_id_gt _ _ e' (List.mem_filter.mp he').2
    exact Nat.lt_of_le_of_lt (hge e he) h1
  · have hempty : s.responses.filter
        (wanted (getResponsesSince s resId filter).2 filter) = [] := by
      rw [List.filter_eq_nil_iff]
      intro r hr hw
      have hgt := wanted_id_gt _ _ r hw
      have hw0 : wanted resId filter r = true := by
        simp only [wanted, Bool.and_eq_true, decide_eq_true_eq] at hw ⊢
        exact ⟨Nat.lt_of_le_of_lt hin hw.1, hw.2⟩
      have hmem : r ∈ (getResponsesSince s resId filter).1 := by
        rw [getResponsesSince_eq]
        exact List.mem_filter.mpr ⟨hr, hw0⟩
      have := hge r hmem
      omega
    rw [getResponsesSince_eq s (getResponsesSince s resId filter).2 filter, hempty]
    rfl

/-- C21 on the sample log: the first poll for sent lines returns the entries 1
and 3 and the cursor 3; polling again at once returns nothing and the cursor
3; after two more pushes the poll returns entry 4 only. -/
theorem polling_never_repeats_witness :
    (getResponsesSince polledLog 0 1).1.map (fun r => r.responseId) = [1, 3] ∧
    (getResponsesSince polledLog 0 1).2 = 3 ∧
    getResponsesSince polledLog (getResponsesSince polledLog 0 1).2 1 =
      ([], (getResponsesSince polledLog 0 1).2) ∧
    (getResponsesSince (pushAll sampleCollab polledLog laterPushes)
      (getResponsesSince polledLog 0 1).2 1).1.map (fun r => r.responseId) = [4] :=
  ⟨by decide, by decide,
    (polling_never_repeats polledLog 0 1 (by unfold IdsIncreasing; decide)).2, by decide⟩

/-! ## Claims C4, C6 and C15: resend requests under `sendMutex` -/

theorem garbageCleared_queueBlind :
    QueueBlind (fun t : Printer τ => t.garbageCleared = true) where
  state := fun _ _ h => h
  manual := fun _ _ h => h
  job := fun _ _ h => h
  resendError := fun _ _ h => h

theorem trySendPacket_garbageCleared (env : Collaborators τ) (now : Int) (s : Printer τ)
    (dp : GCodeDataPacket) (gc : GCode) :
    (trySendPacket env now s dp gc).1.garbageCleared = s.garbageCleared := by
  unfold trySendPacket
  split
  · cases hp : s.pingpong <;> simp [addResponse, hp]
  · rfl

theorem trySendNextLine_cleared (env : Collaborators τ) (now : Int) (s : Printer τ)
    (h : s.garbageCleared = true) : (trySendNextLine env now s).garbageCleared = true :=
  trySendNextLine_preserves garbageCleared_queueBlind env now
    (fun t dp gc ht => (trySendPacket_garbageCleared env now t dp gc).trans ht) s h

theorem trySendNextLine_clearedOrEmpty (env : Collaborators τ) (now : Int) (s : Printer τ)
    (h : ClearedOrEmpty s) : ClearedOrEmpty (trySendNextLine env now s) := by
  cases hg : s.garbageCleared
  · rw [trySendNextLine_blocked env now s hg]
    exact h
  · exact Or.inl (trySendNextLine_cleared env now s hg)

theorem resendLine_clearedOrEmpty (env : Collaborators τ) (now : Int) (s : Printer τ)
    (line : Nat) (h : ClearedOrEmpty s) : ClearedOrEmpty (resendLine env now s line) := by
  have hp : ClearedOrEmpty (resendPrologue s) := by
    unfold ClearedOrEmpty
    rw [resendPrologue_garbageCleared, (resendPrologue_fields s).2.1]
    exact h
  unfold resendLine
  dsimp only
  split_ifs
  · simpa only [ClearedOrEmpty, close] using hp
  · exact trySendNextLine_clearedOrEmpty env now _ (by simpa only [ClearedOrEmpty] using hp)
  · exact trySendNextLine_clearedOrEmpty env now _ (by simpa only [ClearedOrEmpty] using hp)

theorem okBranch_cleared (env : Collaborators τ) (now : Int) (s : Printer τ) :
    (okBranch env now s).garbageCleared = true := by
  unfold okBranch
  dsimp only
  split_ifs
  · exact trySendNextLine_cleared env now _ rfl
  · refine trySendNextLine_cleared env now _ ?_
    cases hn : s.nackLines <;> rfl
  · rfl

theorem analyseResponse_clearedOrEmpty (env : Collaborators τ) (now : Int) (s : Printer τ)
    (res0 : List Char) (h : ClearedOrEmpty s) :
    ClearedOrEmpty (analyseResponse env now s res0) := by
  unfold analyseResponse
  dsimp only
  refine trySendNextLine_clearedOrEmpty env now _ ?_
  have hd : ∀ (t : Printer τ) (r : Nat), ClearedOrEmpty t →
      ClearedOrEmpty (addResponse env now (dispatch env now t (stripControl res0) r).1
        (stripControl res0) (dispatch env now t (stripControl res0) r).2) := by
    intro t r ht
    have hdis : ClearedOrEmpty (dispatch env now t (stripControl res0) r).1 := by
      unfold dispatch
      split
      · exact resendLine_clearedOrEmpty env now t _ ht
      · split_ifs
        · exact Or.inl (okBranch_cleared env now t)
        · unfold waitBranch
          dsimp only
          split_ifs <;> simpa only [ClearedOrEmpty] using ht
        · exact ht
    simpa only [ClearedOrEmpty, addResponse] using hdis
  apply hd
  split_ifs
  · exact Or.inl rfl
  · simpa only [ClearedOrEmpty] using h

theorem step_clearedOrEmpty (env : Collaborators τ) (s : Printer τ) (op : Op)
    (h : ClearedOrEmpty s) : ClearedOrEmpty (step env s op) := by
  cases op with
  | injectManual now cmd =>
    exact trySendNextLine_clearedOrEmpty env now _ (by simpa only [ClearedOrEmpty] using h)
  | injectJob cmd => simpa only [ClearedOrEmpty, step, injectJobCommand] using h
  | trySend now => exact trySendNextLine_clearedOrEmpty env now s h
  | response now res => exact analyseResponse_clearedOrEmpty env now s res h
  | tick now loop ok =>
    show ClearedOrEmpty (runIteration env now s loop ok)
    unfold runIteration
    dsimp only
    refine trySendNextLine_clearedOrEmpty env now _ ?_
    split_ifs
    · simpa only [ClearedOrEmpty] using h
    · exact trySendNextLine_clearedOrEmpty env now _
        (trySendNextLine_clearedOrEmpty env now _ (by simpa only [ClearedOrEmpty] using h))
    · exact trySendNextLine_clearedOrEmpty env now _ (by simpa only [ClearedOrEmpty] using h)

theorem runOps_clearedOrEmpty (env : Collaborators τ) (ops : List Op) :
    ∀ s : Printer τ, ClearedOrEmpty s → ClearedOrEmpty (runOps env s ops) := by
  induction ops with
  | nil => intro s h; exact h
  | cons op ops ih =>
    intro s h
    exact ih _ (step_clearedOrEmpty env s op h)

/-- In every state reached from an empty history, a history that holds a line
means that `garbageCleared` is true: a resend request for a line of the history
that does not give up is always one that blocks. -/
theorem history_needs_garbageCleared (env : Collaborators τ) (s0 : Printer τ)
    (ops : List Op) (h0 : s0.history = [])
    (hh : (runOps env s0 ops).history ≠ []) : (runOps env s0 ops).garbageCleared = true := by
  rcases runOps_clearedOrEmpty env ops s0 (Or.inr h0) with h | h
  · exact h
  · exact absurd h hh

theorem resendPrologue_binaryProtocol (s : Printer τ) :
    (resendPrologue s).binaryProtocol = s.binaryProtocol := by
  unfold resendPrologue
  dsimp only
  split_ifs <;> rfl

theorem beforeClosingSend_fields (s : Printer τ) (line : Nat) :
    (beforeClosingSend s line).resendLines = suffixFromLine line s.history ∧
    (beforeClosingSend s line).written =
      s.written ++ (if s.binaryProtocol ≠ 0 then [nulPadding] else []) := by
  have hp := resendPrologue_fields s
  have hb := resendPrologue_binaryProtocol s
  unfold beforeClosingSend
  dsimp only
  by_cases h : s.binaryProtocol ≠ 0
  · rw [if_pos (by rw [hb]; exact h), if_pos h]
    simp [collectResend_false, hp.2.1, hp.2.2.2.1]
  · rw [if_neg (by rw [hb]; exact h), if_neg h]
    simp [collectResend_false, hp.2.1, hp.2.2.2.1]

theorem beforeClosingSend_freshlyReset (st : PrinterState τ) (t : Printer τ) (line : Nat)
    (h : FreshlyReset st t) : FreshlyReset st (beforeClosingSend t line) := by
  have hp : FreshlyReset st (resendPrologue t) := by
    obtain ⟨h1, h2, h3, h4, h5, h6, h7, h8, h9⟩ := h
    unfold resendPrologue
    dsimp only
    split_ifs <;> simp [FreshlyReset, h1, h2, h3, h4, h5, h6, h7, h8, h9]
  obtain ⟨h1, h2, h3, h4, h5, h6, h7, h8, h9⟩ := hp
  unfold beforeClosingSend
  dsimp only
  split_ifs <;> simp [FreshlyReset, h1, h2, h3, h4, h5, h6, h8, h9, collectResend]

theorem beforeDispatch_fields (env : Collaborators τ) (s : Printer τ) (res : List Char) :
    (beforeDispatch env s res).resendError = s.resendError ∧
    (beforeDispatch env s res).written = s.written ∧
    (beforeDispatch env s res).binaryProtocol = s.binaryProtocol ∧
    (s.garbageCleared = true → (beforeDispatch env s res).garbageCleared = true) := by
  unfold beforeDispatch
  split_ifs <;> simp [startReset, afterStateUpdate]

/-- C6: when `resendLine(n)` does not give up (the incremented `resendError`
is at most 5) it rebuilds `resendLines` as the suffix of the history, in
history order, that starts at the oldest entry with a line number `N` such
that `N & 0xFFFF = n & 0xFFFF`; the list is empty when no entry matches, and
its previous content is gone. With `garbageCleared` false the call returns
with that list. With `garbageCleared` true it does not return: it blocks on
`sendMutex`, which it holds, at its closing `trySendNextLine`, with the list
rebuilt and nothing but the padding of the binary protocol written. -/
theorem resendLine_rebuilds_then_blocks (env : Collaborators τ) (now : Int)
    (s : Printer τ) (n : Nat) (h : s.resendError + 1 ≤ 5) :
    (resendLineLocked env now s n).state.resendLines = suffixFromLine n s.history ∧
    ((∀ gc ∈ s.history, matchesLine n gc = false) →
      (resendLineLocked env now s n).state.resendLines = []) ∧
    (resendLineLocked env now s n).isBlocked = s.garbageCleared ∧
    (s.garbageCleared = false →
      resendLineLocked env now s n = .returned (resendLine env now s n)) ∧
    (s.garbageCleared = true →
      (resendLineLocked env now s n).state.written =
        s.written ++ (if s.binaryProtocol ≠ 0 then [nulPadding] else [])) := by
  have he : ¬ (resendPrologue s).resendError > 5 := by
    rw [(resendPrologue_fields s).1]
    omega
  have hf := beforeClosingSend_fields s n
  have hl := resendLineLocked_eq env now s n
  have h1 : (resendLineLocked env now s n).state.resendLines = suffixFromLine n s.history := by
    rw [hl]
    split_ifs
    · show (resendLine env now s n).resendLines = _
      rw [resendLine_eq_closing env now s n he, trySendNextLine_resendLines]
      exact hf.1
    · exact hf.1
  refine ⟨h1, fun hall => ?_, ?_, fun hg => ?_, fun hg => ?_⟩
  · rw [h1]
    unfold suffixFromLine
    rw [List.dropWhile_eq_nil_iff]
    intro gc hgc
    simp [hall gc hgc]
  · rw [hl]
    cases hg : s.garbageCleared <;> simp [he, Outcome.isBlocked]
  · rw [hl, if_pos (Or.inr hg)]
  · rw [hl, if_neg (by simp [he, hg])]
    exact hf.2

/-- C6 at the failing input: lines 1 to 5 are sent and acknowledged and line
65539, whose low 16 bits are 3, is asked for. The list is rebuilt as lines 3,
4, 5, nothing is written, and the call blocks. -/
theorem resendLine_rebuilds_then_blocks_witness :
    fiveLinesSent.resendError + 1 ≤ 5 ∧ fiveLinesSent.garbageCleared = true ∧
    (fiveLinesSent.history.map fun gc => gc.n) = [1, 2, 3, 4, 5] ∧
    (resendLineLocked sampleCollab 11 fiveLinesSent 65539).isBlocked =
      fiveLinesSent.garbageCleared ∧
    ((resendLineLocked sampleCollab 11 fiveLinesSent 65539).state.resendLines.map
      fun gc => gc.n) = [3, 4, 5] ∧
    (resendLineLocked sampleCollab 11 fiveLinesSent 65539).state.written =
      fiveLinesSent.written :=
  ⟨by decide, by decide, by decide,
    (resendLine_rebuilds_then_blocks sampleCollab 11 fiveLinesSent 65539 (by decide)).2.2.1,
    by decide, by decide⟩

/-- C4: a resend request that arrives once the garbage is cleared, as it is
whenever the history holds a line, and that does not give up is never followed
by a resent line. `analyseResponse` hands the request to `resendLine`, which
rebuilds `resendLines` from the history and then blocks on `sendMutex` at its
closing `trySendNextLine`. The call does not return, nothing but the padding
of the binary protocol has reached the transport, and no call that follows it
in a sequence of calls is made. -/
theorem resend_request_blocks (env : Collaborators τ) (now : Int) (s : Printer τ)
    (res0 h : List Char) (hx : extract (stripControl res0) strResend = some h)
    (hg : s.garbageCleared = true) (he : s.resendError + 1 ≤ 5) :
    (analyseResponseLocked env now s res0).isBlocked = true ∧
    (analyseResponseLocked env now s res0).state.resendLines =
      suffixFromLine (toSizeT (atoi h)) (beforeDispatch env s (stripControl res0)).history ∧
    (analyseResponseLocked env now s res0).state.written =
      s.written ++ (if s.binaryProtocol ≠ 0 then [nulPadding] else []) ∧
    ∀ ops : List Op,
      runOpsLocked env s (.response now res0 :: ops) = analyseResponseLocked env now s res0 := by
  have hd := beforeDispatch_fields env s (stripControl res0)
  have hf := beforeClosingSend_fields (beforeDispatch env s (stripControl res0))
    (toSizeT (atoi h))
  have hb : analyseResponseLocked env now s res0 =
      .blocked (beforeClosingSend (beforeDispatch env s (stripControl res0))
        (toSizeT (atoi h))) := by
    rw [analyseResponseLocked_of_resend env now s res0 h hx]
    rw [if_neg]
    rw [(resendPrologue_fields _).1, hd.1, hd.2.2.2 hg]
    simp only [Bool.true_eq_false, or_false, gt_iff_lt, not_lt]
    exact he
  refine ⟨by rw [hb]; rfl, by rw [hb]; exact hf.1, ?_, fun ops => ?_⟩
  · rw [hb]
    show (beforeClosingSend _ _).written = _
    rw [hf.2, hd.2.1, hd.2.2.1]
  · simp only [runOpsLocked, stepLocked, hb]

/-- C4 on the scenario of the specification: lines 1 to 5 are sent and
acknowledged, then the firmware says `Resend:3`. The call blocks with lines 3,
4, 5 in `resendLines` and the five packets `N1` to `N5` as all that was ever
written; the command `M105` and the four `ok` that follow in the scenario are
never handled. -/
theorem resend_request_blocks_witness :
    extract (stripControl (strResend ++ ['3'])) strResend = some ['3'] ∧
    fiveLinesSent.garbageCleared = true ∧ fiveLinesSent.resendError + 1 ≤ 5 ∧
    (fiveLinesSent.history.map fun gc => gc.n) = [1, 2, 3, 4, 5] ∧
    (analyseResponseLocked sampleCollab 11 fiveLinesSent (strResend ++ ['3'])).isBlocked = true ∧
    ((analyseResponseLocked sampleCollab 11 fiveLinesSent
      (strResend ++ ['3'])).state.resendLines.map fun gc => gc.n) = [3, 4, 5] ∧
    (runOpsLocked sampleCollab (samplePrinter true 63) resendScenario).isBlocked = true ∧
    (runOpsLocked sampleCollab (samplePrinter true 63) resendScenario).state.written =
      [[78, 49, 32, 71, 50, 56, 10], [78, 50, 32, 71, 50, 56, 10], [78, 51, 32, 71, 50, 56, 10],
       [78, 52, 32, 71, 50, 56, 10], [78, 53, 32, 71, 50, 56, 10]] ∧
    (runOpsLocked sampleCollab (samplePrinter true 63) resendScenario).state.manualCommands =
      [] :=
  ⟨by decide, by decide, by decide, by decide,
    (resend_request_blocks sampleCollab 11 fiveLinesSent (strResend ++ ['3']) ['3']
      (by decide) (by decide) (by decide)).1,
    by decide, by decide, by decide, by decide⟩

/-- C15: from a state with empty `resendLines`, `manualCommands` and
`jobCommands`, a line that begins with `start` resets the printer state,
empties `history` and `nackLines` and sets `receiveCacheFill = 0`,
`readyForNextSend = true` and `garbageCleared = true`. The call returns with
these values when the line holds no resend request, or when the request makes
`resendLine` give up. When the line also holds a resend request that does not
give up, the reset has set `garbageCleared` and the call blocks on `sendMutex`
inside `resendLine`: the values are set, and `analyseResponse` never returns. -/
theorem start_with_resend_blocks (env : Collaborators τ) (now : Int) (s : Printer τ)
    (res0 rest : List Char) (hs : stripControl res0 = strStart ++ rest)
    (hr : s.resendLines = []) (hm : s.manualCommands = []) (hj : s.jobCommands = []) :
    ((extract (stripControl res0) strResend = none ∨ 5 < s.resendError + 1) →
      analyseResponseLocked env now s res0 = .returned (analyseResponse env now s res0)) ∧
    ((extract (stripControl res0) strResend).isSome = true → s.resendError + 1 ≤ 5 →
      (analyseResponseLocked env now s res0).isBlocked = true) ∧
    (analyseResponseLocked env now s res0).state.state =
      PrinterState.reset env (env.stateAnalyseResponse s.state (stripControl res0) 4).1 ∧
    (analyseResponseLocked env now s res0).state.state.lastline = 0 ∧
    (analyseResponseLocked env now s res0).state.history = [] ∧
    (analyseResponseLocked env now s res0).state.nackLines = [] ∧
    (analyseResponseLocked env now s res0).state.receiveCacheFill = 0 ∧
    (analyseResponseLocked env now s res0).state.readyForNextSend = true ∧
    (analyseResponseLocked env now s res0).state.garbageCleared = true := by
  have hseen : startSeen s.garbageCleared (stripControl res0) = true := by
    unfold startSeen
    rw [hs, find_self_append]
    simp
  have hbd : beforeDispatch env s (stripControl res0) =
      startReset env (afterStateUpdate env s (stripControl res0)) := by
    unfold beforeDispatch
    rw [hseen, if_pos rfl]
  have hfresh : FreshlyReset
      (PrinterState.reset env (env.stateAnalyseResponse s.state (stripControl res0) 4).1)
      (startReset env (afterStateUpdate env s (stripControl res0))) := by
    simp [FreshlyReset, startReset, afterStateUpdate, hr, hm, hj]
  have hd := beforeDispatch_fields env s (stripControl res0)
  have hgc : (beforeDispatch env s (stripControl res0)).garbageCleared = true := by
    rw [hbd]
    rfl
  have hpe : (resendPrologue (beforeDispatch env s (stripControl res0))).resendError =
      s.resendError + 1 := by
    rw [(resendPrologue_fields _).1, hd.1]
  refine ⟨fun hc => ?_, fun hx he => ?_, ?_⟩
  · cases hx : extract (stripControl res0) strResend with
    | none => exact analyseResponseLocked_of_no_resend env now s res0 hx
    | some h =>
      rcases hc with hc | hc
      · rw [hx] at hc
        cases hc
      · rw [analyseResponseLocked_of_resend env now s res0 h hx, if_pos]
        left
        rw [hpe]
        omega
  · cases hx2 : extract (stripControl res0) strResend with
    | none => rw [hx2] at hx; cases hx
    | some h =>
      rw [analyseResponseLocked_of_resend env now s res0 h hx2, if_neg]
      · rfl
      · rw [hpe, hgc]
        simp only [Bool.true_eq_false, or_false, gt_iff_lt, not_lt]
        exact he
  · rcases analyseResponseLocked_cases env now s res0 with hret | ⟨h, _, hblk⟩
    · rw [hret]
      have ha := analyseResponse_start env now s res0 rest hs hr hm hj
      exact ha
    · rw [hblk]
      have hb := beforeClosingSend_freshlyReset _ _ (toSizeT (atoi h)) hfresh
      rw [← hbd] at hb
      obtain ⟨h1, h2, h3, h4, h5, h6, _⟩ := hb
      refine ⟨h1, ?_, h2, h3, h4, h5, h6⟩
      show (beforeClosingSend _ _).state.lastline = 0
      rw [h1]
      rfl

/-- C15 in the middle of a print, three lines sent: on `start` the call
returns, the history is gone and line numbering starts again; on
`start Resend:7` the same reset is made and the call blocks. -/
theorem start_with_resend_blocks_witness :
    midPrint.history.length = 3 ∧ midPrint.state.lastline = 3 ∧
    midPrint.resendError + 1 ≤ 5 ∧
    (extract (stripControl startResend7) strResend).isSome = true ∧
    (analyseResponseLocked sampleCollab 6 midPrint strStart).isBlocked = false ∧
    (analyseResponseLocked sampleCollab 6 midPrint strStart).state.history = [] ∧
    (analyseResponseLocked sampleCollab 6 midPrint strStart).state.state.lastline = 0 ∧
    (analyseResponseLocked sampleCollab 6 midPrint startResend7).isBlocked = true ∧
    (analyseResponseLocked sampleCollab 6 midPrint startResend7).state.history = [] ∧
    (analyseResponseLocked sampleCollab 6 midPrint startResend7).state.garbageCleared = true :=
  ⟨by decide, by decide, by decide, by decide, by decide,
    (start_with_resend_blocks sampleCollab 6 midPrint strStart [] (by decide) (by decide)
      (by decide) (by decide)).2.2.2.2.1,
    (start_with_resend_blocks sampleCollab 6 midPrint strStart [] (by decide) (by decide)
      (by decide) (by decide)).2.2.2.1,
    (start_with_resend_blocks sampleCollab 6 midPrint startResend7 [' ', 'R', 'e', 's', 'e',
      'n', 'd', ':', '7'] (by decide) (by decide) (by decide) (by decide)).2.1
      (by decide) (by decide),
    (start_with_resend_blocks sampleCollab 6 midPrint startResend7 [' ', 'R', 'e', 's', 'e',
      'n', 'd', ':', '7'] (by decide) (by decide) (by decide) (by decide)).2.2.2.2.1,
    (start_with_resend_blocks sampleCollab 6 midPrint startResend7 [' ', 'R', 'e', 's', 'e',
      'n', 'd', ':', '7'] (by decide) (by decide) (by decide) (by decide)).2.2.2.2.2.2.2.2⟩

end RepetierServer
